import Mathlib

/-!
# Verification of the spread runner (`runner.go`)

A shallow embedding of the worker-pool scheduler of the spread test
orchestrator: the `run` script helper, the reuse-claim loop and the
allocation retry loop of the server acquirer, the `reuseArgs` formatter,
the worker-count computation of the supervisor loop, the job picker, and
the per-worker prepare/execute/restore state machine, together with
theorems settling the specified properties.

Machine interaction (remote script execution, dialing, file transfer) is
abstracted by boolean outcome oracles; every remote call the code would
make is recorded in an explicit action trace so that statements about
"which scripts ran" are statements about the trace.
-/

/-- The three verbs used by `Runner.run` (`preparing`, `executing`,
`restoring`). -/
inductive Verb where
  | preparing
  | executing
  | restoring
deriving DecidableEq, Repr

/-- A suite: named grouping with prepare/restore scripts. -/
structure SuiteC where
  name : String
  prepare : String
  restore : String
deriving DecidableEq, Repr, Inhabited

/-- A task: leaf unit with name and prepare/execute/restore scripts. -/
structure TaskC where
  name : String
  prepare : String
  execute : String
  restore : String
deriving DecidableEq, Repr, Inhabited

/-- A job: the atomic unit of scheduling.  The backend is referenced by
name (backends are unique per name in the project map); the suite and
task are embedded (one object per name in the project, so structural
equality coincides with Go pointer equality). -/
structure JobC where
  backend : String
  system : String
  suite : SuiteC
  task : TaskC
  variant : String
deriving DecidableEq, Repr, Inhabited

/-- The `Options` struct fields consumed by the runner core. -/
structure OptionsC where
  password : String
  keep : Bool
  debug : Bool
  shell : Bool
  abend : Bool
  restore : Bool
  resend : Bool
deriving DecidableEq, Repr, Inhabited

/-- The script-execution context passed to `Runner.run` (the Go
`context interface{}` argument: the project, the backend, a suite, or
the job itself). -/
inductive Ctx where
  | project
  | backend
  | suite (s : SuiteC)
  | task (j : JobC)
deriving DecidableEq, Repr

/-- One remote interaction performed by `Runner.run`, recorded for the
trace.  `skip` marks an invocation whose script was empty after
trimming (the code returns success without contacting the client);
`shellExec` is the interactive shell substituted for `execute` under the
`-shell` option; `exec` is an actual `client.Trace` call with its
outcome; `debugShell` is the diagnostic shell spawned after a failure
under `-debug`. -/
inductive Act where
  | skip (verb : Verb) (ctx : Ctx)
  | shellExec (verb : Verb) (ctx : Ctx) (dir : String)
  | exec (verb : Verb) (ctx : Ctx) (dir : String) (ok : Bool)
  | debugShell (dir : String)
deriving DecidableEq, Repr

/-- Go's `unicode.IsSpace` restricted to the characters that can appear
in scripts (ASCII whitespace plus the two Latin-1 spaces). -/
def goIsSpace (c : Char) : Bool :=
  c = ' ' || c = '\t' || c = '\n' || c = '\x0b' || c = '\x0c' ||
    c = '\x0d' || c = '\u0085' || c = ' '

/-- Go's `strings.TrimSpace`: remove leading and trailing whitespace. -/
def trimSpace (s : String) : String :=
  String.mk (((s.data.dropWhile goIsSpace).reverse.dropWhile goIsSpace).reverse)

/-- Result of one `Runner.run` invocation: the boolean returned, the new
oracle cursor, the new `abend` flag, and the recorded actions. -/
structure RunRes where
  ok : Bool
  k : Nat
  abend : Bool
  acts : List Act
deriving DecidableEq, Repr

/-- Shallow embedding of `Runner.run` (runner.go:163-200).  `outcomes k`
stands for the success of the `client.Trace` call at oracle position
`k`; `jobArg` is the Go `job` argument (used for the working
directory), `abend` the value behind the `abend` pointer. -/
def runScript (opts : OptionsC) (remotePath : String) (jobArg : JobC)
    (verb : Verb) (ctx : Ctx) (script : String)
    (outcomes : Nat → Bool) (k : Nat) (abend : Bool) : RunRes :=
  let script := trimSpace script
  if script.isEmpty then
    { ok := true, k := k, abend := abend, acts := [Act.skip verb ctx] }
  else
    -- filepath.Join(remotePath, task.Name) for suite/task contexts
    let dir := if ctx = Ctx.backend || ctx = Ctx.project then remotePath
               else remotePath ++ "/" ++ jobArg.task.name
    if opts.shell && verb = Verb.executing then
      { ok := true, k := k, abend := abend, acts := [Act.shellExec verb ctx dir] }
    else if outcomes k then
      { ok := true, k := k + 1, abend := abend, acts := [Act.exec verb ctx dir true] }
    else
      { ok := false, k := k + 1, abend := opts.abend,
        acts := Act.exec verb ctx dir false ::
          (if opts.debug then [Act.debugShell dir] else []) }

/-! ## Server acquirer: the reuse-claim loop (runner.go:388-403) -/
/-- Shallow embedding of the claim loop of `Runner.client`: iterate over
`options.Reuse[backend.Name]`; every address already in `reused` is
skipped; every other address is marked in `reused` and written into the
`server` variable (as `&UnknownServer{addr}`).  The loop has no `break`,
so it keeps going after the first claim.  Returns the final `reused` set
(as an ordered list) and the final `server` address. -/
def claimReuse : List String → List String → Option String → List String × Option String
  | [], reused, server => (reused, server)
  | addr :: rest, reused, server =>
    if addr ∈ reused then claimReuse rest reused server
    else claimReuse rest (reused ++ [addr]) (some addr)

/-- The claim-loop behavior in the spec's words, for comparison: scan
for the *first* address not in `reused`, mark only that one, and use it
as the server address. -/
def specClaimReuse (addrs reused : List String) : List String × Option String :=
  match addrs.find? (fun a => !(reused.contains a)) with
  | some a => (reused ++ [a], some a)
  | none => (reused, none)

/-- The addresses newly claimed by one pass of the loop, in order. -/
def newAddrs : List String → List String → List String
  | [], _ => []
  | a :: rest, reused =>
    if a ∈ reused then newAddrs rest reused else a :: newAddrs rest (reused ++ [a])

/-- The last element of a list, or a default. -/
def lastOr {α : Type} : List α → Option α → Option α
  | [], d => d
  | a :: rest, _ => lastOr rest (some a)

/-! ## Server acquirer: the allocation retry loop (runner.go:412-447) -/
/-- One result of `provider.Allocate`: success, or an error with its
fatality (`*FatalError`) and message. -/
inductive AllocAttempt where
  | ok
  | err (fatal : Bool) (msg : String)
deriving DecidableEq, Repr

/-- How the allocation retry loop ends: a server was allocated (`err ==
nil` break), the acquirer returned `none` on a fatal error, or the
timeout/dying channel fired and the outer loop continues. -/
inductive AllocOutcome where
  | allocated
  | aborted
  | timedOut
deriving DecidableEq, Repr

/-- Shallow embedding of the `Allocate:` retry loop.  The list holds the
successive results `provider.Allocate` would return (its end stands for
the 30s timeout or the dying channel firing); `lerr` is the previous
iteration's error message (`err` is `nil` when the loop is entered).
Faithful to the source, the `*FatalError` test sits *inside* the
"message changed" relog guard. -/
def allocateLoop : List AllocAttempt → Option String → AllocOutcome
  | [], _ => AllocOutcome.timedOut
  | AllocAttempt.ok :: _, _ => AllocOutcome.allocated
  | AllocAttempt.err fatal msg :: rest, lerr =>
    if lerr = none ∨ lerr ≠ some msg then
      if fatal then AllocOutcome.aborted else allocateLoop rest (some msg)
    else allocateLoop rest (some msg)

/-! ## The reuse-args formatter (runner.go:551-598) -/
/-- What `reuseArgs` reads from an acquired server: the name of the
backend of its provider, and its address. -/
structure ServerC where
  backend : String
  address : String
deriving DecidableEq, Repr

/-- `buf.Truncate(buf.Len() - 1)`: drop the final character (always a
one-byte ASCII `,` or a space where the code uses it). -/
def truncate1 (s : String) : String :=
  String.mk s.data.dropLast

/-- Byte-lexicographic comparison of character lists (Go compares the
UTF-8 bytes of strings; byte order coincides with code-point order). -/
def charListLe : List Char → List Char → Bool
  | [], _ => true
  | _ :: _, [] => false
  | a :: as, b :: bs =>
    if a.toNat < b.toNat then true
    else if a.toNat = b.toNat then charListLe as bs else false

/-- The string order used by `sort.Strings`. -/
def strLe (a b : String) : Bool := charListLe a.data b.data

/-- Insert a string into a sorted list (for `sort.Strings`; duplicate
elements are identical strings, so stability is irrelevant). -/
def insertSorted (x : String) : List String → List String
  | [] => [x]
  | y :: rest => if strLe x y then x :: y :: rest else y :: insertSorted x rest

/-- `sort.Strings`: sort a list of strings ascending. -/
def sortStrings : List String → List String
  | [] => []
  | x :: rest => insertSorted x (sortStrings rest)

/-- The distinct strings of a list (for `len(reuse)`, the number of
distinct backend names among the servers). -/
def dedupKeys : List String → List String
  | [] => []
  | x :: rest => if rest.contains x then dedupKeys rest else x :: dedupKeys rest

/-- `strings.Join`-style separator interleaving, used by the spec-side
formatters. -/
def joinSep (sep : String) : List String → String
  | [] => ""
  | [x] => x
  | x :: y :: rest => x ++ sep ++ joinSep sep (y :: rest)

/-- Shallow embedding of `Runner.reuseArgs`.  `backends` keeps one entry
*per server* (the source appends inside the per-server loop and never
deduplicates); `len(reuse)` is the number of distinct backend names. -/
def reuseArgs (servers : List ServerC) (o : OptionsC) : String :=
  let backends := sortStrings (servers.map ServerC.backend)
  let nback := (dedupKeys (servers.map ServerC.backend)).length
  let buf := "-pass=" ++ o.password ++ " -reuse="
  let buf := if nback > 1 then buf ++ "'" else buf
  let buf := backends.foldl (fun acc b =>
      truncate1 ((sortStrings ((servers.filter (fun s => s.backend == b)).map
          ServerC.address)).foldl (fun a x => a ++ x ++ ",") (acc ++ b ++ ":")) ++ " ") buf
  let buf := truncate1 buf
  let buf := if nback > 1 then buf ++ "'" else buf
  let buf := if o.keep then buf ++ " -keep" else buf
  if o.debug then buf ++ " -debug"
  else if o.shell then buf ++ " -shell"
  else if o.abend then buf ++ " -abend"
  else if o.restore then buf ++ " -restore"
  else buf

/-- The formatter in the spec's words, for comparison: each
participating backend appears exactly once. -/
def specReuseArgs (servers : List ServerC) (o : OptionsC) : String :=
  let names := sortStrings (dedupKeys (servers.map ServerC.backend))
  let nback := (dedupKeys (servers.map ServerC.backend)).length
  let buf := "-pass=" ++ o.password ++ " -reuse="
  let buf := if nback > 1 then buf ++ "'" else buf
  let buf := buf ++ joinSep " " (names.map (fun b =>
      b ++ ":" ++ joinSep "," (sortStrings ((servers.filter
        (fun s => s.backend == b)).map ServerC.address))))
  let buf := if nback > 1 then buf ++ "'" else buf
  let buf := if o.keep then buf ++ " -keep" else buf
  if o.debug then buf ++ " -debug"
  else if o.shell then buf ++ " -shell"
  else if o.abend then buf ++ " -abend"
  else if o.restore then buf ++ " -restore"
  else buf

/-- The formatter after amendment: one `backend:addr1,addr2` group per
*server* (a backend with several servers repeats its full group once per
server), groups sorted by backend name, addresses sorted within each
group, quoted iff more than one distinct backend participates. -/
def amendedReuseArgs (servers : List ServerC) (o : OptionsC) : String :=
  let backends := sortStrings (servers.map ServerC.backend)
  let nback := (dedupKeys (servers.map ServerC.backend)).length
  let buf := "-pass=" ++ o.password ++ " -reuse="
  let buf := if nback > 1 then buf ++ "'" else buf
  let buf := buf ++ joinSep " " (backends.map (fun b =>
      b ++ ":" ++ joinSep "," (sortStrings ((servers.filter
        (fun s => s.backend == b)).map ServerC.address))))
  let buf := if nback > 1 then buf ++ "'" else buf
  let buf := if o.keep then buf ++ " -keep" else buf
  if o.debug then buf ++ " -debug"
  else if o.shell then buf ++ " -shell"
  else if o.abend then buf ++ " -abend"
  else if o.restore then buf ++ " -restore"
  else buf

/-! ## Supervisor worker counts (runner.go:109-127) -/
/-- A backend: name, enumerated systems, per-system worker cap, and the
backend-level prepare/restore scripts. -/
structure BackendC where
  name : String
  systems : List String
  systemWorkers : String → Nat
  prepare : String
  restore : String

/-- The number of pending jobs on a given backend and system. -/
def countJobs (pending : List JobC) (bn sys : String) : Nat :=
  (pending.filter (fun j => j.backend == bn && j.system == sys)).length

/-- The inner pending-jobs loop for one `(backend, system)` pair: each
matching job bumps the pair's worker count and `alive`, up to the cap;
at the cap a matching job breaks out of the loop. -/
def wcInner (cap : Nat) (bn sys : String) : List JobC → Nat → Nat → Nat × Nat
  | [], w, a => (w, a)
  | j :: rest, w, a =>
    if j.backend == bn && j.system == sys then
      if cap > w then wcInner cap bn sys rest (w + 1) (a + 1)
      else (w, a)
    else wcInner cap bn sys rest w a

/-- Lookup in the `workers` map (Go map zero value is 0). -/
def lookupW : List ((String × String) × Nat) → String × String → Nat
  | [], _ => 0
  | (k, v) :: rest, key => if k = key then v else lookupW rest key

/-- The middle loop over one backend's systems, threading the `workers`
map and `alive`. -/
def wcSystems (pending : List JobC) (b : BackendC) :
    List String → List ((String × String) × Nat) × Nat →
      List ((String × String) × Nat) × Nat
  | [], st => st
  | sys :: rest, (m, a) =>
    let r := wcInner (b.systemWorkers sys) b.name sys pending (lookupW m (b.name, sys)) a
    wcSystems pending b rest (((b.name, sys), r.1) :: m, r.2)

/-- The outer loop over the project's backends. -/
def wcBackends (pending : List JobC) :
    List BackendC → List ((String × String) × Nat) × Nat →
      List ((String × String) × Nat) × Nat
  | [], st => st
  | b :: rest, st => wcBackends pending rest (wcSystems pending b b.systems st)

/-- The supervisor's worker-count computation: the `workers` map and
`alive` (runner.go:109-127). -/
def workerCounts (backends : List BackendC) (pending : List JobC) :
    List ((String × String) × Nat) × Nat :=
  wcBackends pending backends ([], 0)

/-! ## The job picker (runner.go:350-377) -/
/-- `suiteWorkersKey`: (backend name, system, suite name). -/
def swKey (j : JobC) : String × String × String :=
  (j.backend, j.system, j.suite.name)

/-- Lookup in the `suiteWorkers` map (Go zero value 0). -/
def swGet : List ((String × String × String) × Int) → (String × String × String) → Int
  | [], _ => 0
  | (k, v) :: rest, key => if k = key then v else swGet rest key

/-- Add a delta to one `suiteWorkers` entry. -/
def swAdd (m : List ((String × String × String) × Int))
    (key : String × String × String) (d : Int) :
    List ((String × String × String) × Int) :=
  (key, swGet m key + d) :: m

/-- The scan loop of `Runner.job`: `i` is the index of the head of the
remaining list in the original `pending`; `best`/`bw` mirror the Go
`best = -1` / `bestWorkers = 1000000` accumulators. -/
def pickIdxGo (sw : List ((String × String × String) × Int)) (bname system : String)
    (suite : Option SuiteC) : List (Option JobC) → Nat → Option Nat → Int → Option Nat
  | [], _, best, _ => best
  | none :: t, i, best, bw => pickIdxGo sw bname system suite t (i + 1) best bw
  | some j :: t, i, best, bw =>
    if j.backend ≠ bname ∨ j.system ≠ system then
      pickIdxGo sw bname system suite t (i + 1) best bw
    else if suite = some j.suite then
      some i
    else if swGet sw (swKey j) < bw then
      pickIdxGo sw bname system suite t (i + 1) (some i) (swGet sw (swKey j))
    else
      pickIdxGo sw bname system suite t (i + 1) best bw

/-- The index `Runner.job` selects, if any. -/
def pickIdx (pending : List (Option JobC)) (sw : List ((String × String × String) × Int))
    (bname system : String) (suite : Option SuiteC) : Option Nat :=
  pickIdxGo sw bname system suite pending 0 none 1000000

/-- `Runner.job`: return the selected job and clear its slot in place. -/
def pickJob (pending : List (Option JobC)) (sw : List ((String × String × String) × Int))
    (bname system : String) (suite : Option SuiteC) :
    Option JobC × List (Option JobC) :=
  match pickIdx pending sw bname system suite with
  | some i => (pending.getD i none, pending.set i none)
  | none => (none, pending)

/-- Spec-side scan: the first non-cleared candidate on this backend and
system whose suite is the current suite. -/
def firstSame (bname system : String) (suite : Option SuiteC) :
    List (Option JobC) → Nat → Option Nat
  | [], _ => none
  | oj :: t, i =>
    match oj with
    | some j =>
      if j.backend == bname && j.system == system && decide (suite = some j.suite) then
        some i
      else firstSame bname system suite t (i + 1)
    | none => firstSame bname system suite t (i + 1)

/-- Spec-side scan: all non-cleared candidates on this backend and
system, with their indices in order. -/
def cands (bname system : String) : List (Option JobC) → Nat → List (Nat × JobC)
  | [], _ => []
  | oj :: t, i =>
    match oj with
    | some j =>
      if j.backend == bname && j.system == system then
        (i, j) :: cands bname system t (i + 1)
      else cands bname system t (i + 1)
    | none => cands bname system t (i + 1)

/-- Spec-side argmin: first candidate strictly improving on the running
best count (initially 1000000). -/
def argminUnder (sw : List ((String × String × String) × Int)) :
    List (Nat × JobC) → Option Nat → Int → Option Nat
  | [], best, _ => best
  | (i, j) :: rest, best, bw =>
    if swGet sw (swKey j) < bw then argminUnder sw rest (some i) (swGet sw (swKey j))
    else argminUnder sw rest best bw

/-- The picker in the (amended) spec's words: prefer the first same-suite
candidate; otherwise the earliest candidate minimizing the current
`suiteWorkers` count, provided that count is below 1000000. -/
def specPickIdx (pending : List (Option JobC)) (sw : List ((String × String × String) × Int))
    (bname system : String) (suite : Option SuiteC) : Option Nat :=
  match firstSame bname system suite pending 0 with
  | some i => some i
  | none => argminUnder sw (cands bname system pending 0) none 1000000

/-! ## The worker loop (runner.go:222-348) -/
/-- The project configuration fields the worker reads. -/
structure ProjectC where
  remotePath : String
  prepare : String
  restore : String

/-- Per-worker configuration: the project, this worker's backend and
system, the options, the script success oracle, and the tomb liveness
oracle (indexed by loop iteration). -/
structure WorkerCfg where
  project : ProjectC
  backend : BackendC
  system : String
  options : OptionsC
  outcomes : Nat → Bool
  tombAlive : Nat → Bool

/-- The eleven append-only stats sequences (runner.go:600-612). -/
structure StatsC where
  TaskDone : List JobC
  TaskError : List JobC
  TaskAbort : List JobC
  TaskPrepareError : List JobC
  TaskRestoreError : List JobC
  SuitePrepareError : List JobC
  SuiteRestoreError : List JobC
  BackendPrepareError : List JobC
  BackendRestoreError : List JobC
  ProjectPrepareError : List JobC
  ProjectRestoreError : List JobC
deriving DecidableEq, Repr, Inhabited

/-- All-empty stats. -/
def emptyStats : StatsC := ⟨[], [], [], [], [], [], [], [], [], [], []⟩

/-- The worker's view of the shared and local runner state.  `trace` is
the instrumentation record of every `run` invocation; `k` the oracle
cursor; `iter` the loop iteration counter; `finished` marks that the
main loop has exited. -/
structure WState where
  pending : List (Option JobC)
  suiteWorkers : List ((String × String × String) × Int)
  stats : StatsC
  trace : List Act
  k : Nat
  iter : Nat
  abend : Bool
  badProject : Bool
  badSuite : List SuiteC
  insideProject : Bool
  insideBackend : Bool
  insideSuite : Option SuiteC
  last : Option JobC
  job : Option JobC
  finished : Bool

def addTaskDone (st : WState) (j : JobC) : WState :=
  { st with stats := { st.stats with TaskDone := st.stats.TaskDone ++ [j] } }

def addTaskError (st : WState) (j : JobC) : WState :=
  { st with stats := { st.stats with TaskError := st.stats.TaskError ++ [j] } }

def addTaskAbort (st : WState) (j : JobC) : WState :=
  { st with stats := { st.stats with TaskAbort := st.stats.TaskAbort ++ [j] } }

def addTaskPrepareError (st : WState) (j : JobC) : WState :=
  { st with stats := { st.stats with TaskPrepareError := st.stats.TaskPrepareError ++ [j] } }

def addTaskRestoreError (st : WState) (j : JobC) : WState :=
  { st with stats := { st.stats with TaskRestoreError := st.stats.TaskRestoreError ++ [j] } }

def addSuitePrepareError (st : WState) (j : JobC) : WState :=
  { st with stats := { st.stats with SuitePrepareError := st.stats.SuitePrepareError ++ [j] } }

def addSuiteRestoreError (st : WState) (j : JobC) : WState :=
  { st with stats := { st.stats with SuiteRestoreError := st.stats.SuiteRestoreError ++ [j] } }

def addBackendPrepareError (st : WState) (j : JobC) : WState :=
  { st with stats := { st.stats with BackendPrepareError := st.stats.BackendPrepareError ++ [j] } }

def addBackendRestoreError (st : WState) (j : JobC) : WState :=
  { st with stats := { st.stats with BackendRestoreError := st.stats.BackendRestoreError ++ [j] } }

def addProjectPrepareError (st : WState) (j : JobC) : WState :=
  { st with stats := { st.stats with ProjectPrepareError := st.stats.ProjectPrepareError ++ [j] } }

def addProjectRestoreError (st : WState) (j : JobC) : WState :=
  { st with stats := { st.stats with ProjectRestoreError := st.stats.ProjectRestoreError ++ [j] } }

/-- The Go `last` variable; non-nil at every program point where the
source dereferences it (`insideSuite != nil` implies a job was processed),
so the default is never observable. -/
def lastJ (st : WState) : JobC := st.last.getD default

/-- Invoke `Runner.run` and thread the oracle cursor, the `abend` flag
and the trace through the worker state. -/
def doRun (cfg : WorkerCfg) (st : WState) (jobArg : JobC) (verb : Verb)
    (ctx : Ctx) (script : String) : Bool × WState :=
  let r := runScript cfg.options cfg.project.remotePath jobArg verb ctx script
    cfg.outcomes st.k st.abend
  (r.ok, { st with k := r.k, abend := r.abend, trace := st.trace ++ r.acts })

/-- Suite switch (runner.go:264-274): when inside a different suite,
restore the previous suite first.  Returns the new state and `false`
when the Go code says `continue`. -/
def suiteSwitch (cfg : WorkerCfg) (st : WState) (j : JobC) : WState × Bool :=
  match st.insideSuite with
  | some s =>
    if s ≠ j.suite then
      let r := doRun cfg st (lastJ st) Verb.restoring (Ctx.suite s) s.restore
      if r.1 then ({ r.2 with insideSuite := none }, true)
      else (addTaskAbort (addSuiteRestoreError { r.2 with badProject := true } (lastJ st)) j, false)
    else (st, true)
  | none => (st, true)

/-- Backend entry (runner.go:287-293), reached only on first project
entry: mark inside and (unless restore mode) run `backend.prepare`. -/
def enterBackend (cfg : WorkerCfg) (st : WState) (j : JobC) : WState × Bool :=
  let st := { st with insideBackend := true }
  if cfg.options.restore then (st, true)
  else
    let r := doRun cfg st j Verb.preparing Ctx.backend cfg.backend.prepare
    if r.1 then (r.2, true)
    else (addTaskAbort (addBackendPrepareError { r.2 with badProject := true } j) j, false)

/-- Project entry (runner.go:278-294): on the first processed job, mark
inside and (unless restore mode) run `project.prepare`, then enter the
backend. -/
def enterProject (cfg : WorkerCfg) (st : WState) (j : JobC) : WState × Bool :=
  if st.insideProject then (st, true)
  else
    let st := { st with insideProject := true }
    if cfg.options.restore then enterBackend cfg st j
    else
      let r := doRun cfg st j Verb.preparing Ctx.project cfg.project.prepare
      if r.1 then enterBackend cfg r.2 j
      else (addTaskAbort (addProjectPrepareError { r.2 with badProject := true } j) j, false)

/-- Suite entry (runner.go:296-304): on suite change, mark inside and
(unless restore mode) run `suite.prepare`. -/
def enterSuite (cfg : WorkerCfg) (st : WState) (j : JobC) : WState × Bool :=
  if st.insideSuite = some j.suite then (st, true)
  else
    let st := { st with insideSuite := some j.suite }
    if cfg.options.restore then (st, true)
    else
      let r := doRun cfg st j Verb.preparing (Ctx.suite j.suite) j.suite.prepare
      if r.1 then (r.2, true)
      else (addTaskAbort (addSuitePrepareError { r.2 with badSuite := st.badSuite ++ [j.suite] } j) j, false)

/-- Task prepare and execute (runner.go:306-315): skipped entirely in
restore mode. -/
def taskRun (cfg : WorkerCfg) (st : WState) (j : JobC) : WState :=
  if cfg.options.restore then st
  else
    let r1 := doRun cfg st j Verb.preparing (Ctx.task j) j.task.prepare
    if r1.1 then
      let r2 := doRun cfg r1.2 j Verb.executing (Ctx.task j) j.task.execute
      if r2.1 then addTaskDone r2.2 j else addTaskError r2.2 j
    else addTaskAbort (addTaskPrepareError r1.2 j) j

/-- Task restore (runner.go:316-319): runs unless `abend` is set. -/
def taskRestoreStep (cfg : WorkerCfg) (st : WState) (j : JobC) : WState :=
  if st.abend then st
  else
    let r := doRun cfg st j Verb.restoring (Ctx.task j) j.task.restore
    if r.1 then r.2
    else addTaskRestoreError { r.2 with badProject := true } j

/-- Task body and task restore (runner.go:306-319). -/
def taskBody (cfg : WorkerCfg) (st : WState) (j : JobC) : WState :=
  taskRestoreStep cfg (taskRun cfg st j) j

/-- One picked job's processing (runner.go:259-319). -/
def processJob (cfg : WorkerCfg) (st : WState) (j : JobC) : WState :=
  if j.suite ∈ st.badSuite then addTaskAbort st j
  else
    let p1 := suiteSwitch cfg st j
    if p1.2 then
      let st2 := { p1.1 with last := some j }
      let p2 := enterProject cfg st2 j
      if p2.2 then
        let p3 := enterSuite cfg p2.1 j
        if p3.2 then taskBody cfg p3.1 j
        else p3.1
      else p2.1
    else p1.1

/-- Account the previous job's suite (runner.go:244-246). -/
def swDec (st : WState) : List ((String × String × String) × Int) :=
  match st.job with
  | some j => swAdd st.suiteWorkers (swKey j) (-1)
  | none => st.suiteWorkers

/-- One iteration of the worker main loop (runner.go:242-320): account
the previous job's suite, test the terminate conditions, pick, then
process. -/
def workerStep (cfg : WorkerCfg) (st : WState) : WState :=
  if st.finished then st
  else
    let sw := swDec st
    if st.badProject || st.abend || !(cfg.tombAlive st.iter) then
      { st with suiteWorkers := sw, finished := true, iter := st.iter + 1 }
    else
      let pk := pickJob st.pending sw cfg.backend.name cfg.system st.insideSuite
      match pk.1 with
      | none =>
        { st with
          suiteWorkers := sw
          pending := pk.2
          job := none
          finished := true
          iter := st.iter + 1 }
      | some j =>
        processJob cfg
          { st with
            suiteWorkers := swAdd sw (swKey j) 1
            pending := pk.2
            job := some j
            iter := st.iter + 1 } j

/-- The worker main loop, fuel-bounded (each non-final iteration clears
one pending slot, so `countSome pending + 1` fuel reaches the exit). -/
def workerLoop (cfg : WorkerCfg) : Nat → WState → WState
  | 0, st => st
  | n + 1, st => if st.finished then st else workerLoop cfg n (workerStep cfg st)

/-- The unwind after the loop (runner.go:322-339): restore suite,
backend, project for the levels still marked entered, each skipped once
`abend` is set. -/
def unwindSuite (cfg : WorkerCfg) (st : WState) : WState :=
  match st.insideSuite with
  | some s =>
    if st.abend then st
    else
      let r := doRun cfg st (lastJ st) Verb.restoring (Ctx.suite s) s.restore
      { (if r.1 then r.2 else addSuiteRestoreError r.2 (lastJ st)) with insideSuite := none }
  | none => st

/-- Backend unwind (runner.go:328-333). -/
def unwindBackend (cfg : WorkerCfg) (st : WState) : WState :=
  if !st.abend && st.insideBackend then
    let r := doRun cfg st (lastJ st) Verb.restoring Ctx.backend cfg.backend.restore
    { (if r.1 then r.2 else addBackendRestoreError r.2 (lastJ st)) with insideBackend := false }
  else st

/-- Project unwind (runner.go:334-339). -/
def unwindProject (cfg : WorkerCfg) (st : WState) : WState :=
  if !st.abend && st.insideProject then
    let r := doRun cfg st (lastJ st) Verb.restoring Ctx.project cfg.project.restore
    { (if r.1 then r.2 else addProjectRestoreError r.2 (lastJ st)) with insideProject := false }
  else st

def unwind (cfg : WorkerCfg) (st : WState) : WState :=
  unwindProject cfg (unwindBackend cfg (unwindSuite cfg st))

/-- The number of non-cleared pending slots. -/
def countSome (l : List (Option JobC)) : Nat := (l.filter Option.isSome).length

/-- Fresh per-worker local state over the given shared state. -/
def initWState (pending : List (Option JobC))
    (sw : List ((String × String × String) × Int)) (stats : StatsC) : WState :=
  { pending := pending, suiteWorkers := sw, stats := stats, trace := [],
    k := 0, iter := 0, abend := false, badProject := false, badSuite := [],
    insideProject := false, insideBackend := false, insideSuite := none,
    last := none, job := none, finished := false }

/-- A full single-worker execution: main loop to completion, then the
unwind (server close/discard carries no observable state here). -/
def runWorker (cfg : WorkerCfg) (pending : List (Option JobC))
    (sw : List ((String × String × String) × Int)) (stats : StatsC) : WState :=
  unwind cfg (workerLoop cfg (countSome pending + 1) (initWState pending sw stats))

/-- The mutex-protected state shared between workers. -/
structure SharedState where
  pending : List (Option JobC)
  suiteWorkers : List ((String × String × String) × Int)
  stats : StatsC

/-- One worker's contribution to the shared state.  `hasClient = false`
models an acquirer failure: the worker exits at once (runner.go:225-228).
Running workers one after the other realizes one legal interleaving of
the mutex-serialized runs. -/
def workerOn (cfg : WorkerCfg) (hasClient : Bool) (sh : SharedState) : SharedState :=
  if hasClient then
    let st := runWorker cfg sh.pending sh.suiteWorkers sh.stats
    { pending := st.pending, suiteWorkers := st.suiteWorkers, stats := st.stats }
  else sh

/-- Run a list of workers sequentially over the shared state. -/
def runWorkers : List (WorkerCfg × Bool) → SharedState → SharedState
  | [], sh => sh
  | (cfg, hc) :: rest, sh => runWorkers rest (workerOn cfg hc sh)

/-- The supervisor's deferred pass (runner.go:90-97): every un-cleared
pending slot becomes `TaskAbort`. -/
def deferredAborts (sh : SharedState) : SharedState :=
  { sh with stats := { sh.stats with
      TaskAbort := sh.stats.TaskAbort ++ sh.pending.filterMap id } }

/-- A complete run: materialized pending list, the workers, then the
deferred pass. -/
def runAll (workers : List (WorkerCfg × Bool)) (pending : List JobC) : SharedState :=
  deferredAborts (runWorkers workers
    { pending := pending.map some, suiteWorkers := [], stats := emptyStats })

/-- The context of an action (none for the debug shell). -/
def actCtx : Act → Option Ctx
  | Act.skip _ c => some c
  | Act.shellExec _ c _ => some c
  | Act.exec _ c _ _ => some c
  | Act.debugShell _ => none

/-- The verb of an action (none for the debug shell). -/
def actVerb : Act → Option Verb
  | Act.skip v _ => some v
  | Act.shellExec v _ _ => some v
  | Act.exec v _ _ _ => some v
  | Act.debugShell _ => none

/-- An actual remote execution (`client.Trace`) of the given verb at the
given context. -/
def isExecOf (v : Verb) (c : Ctx) (a : Act) : Bool :=
  match a with
  | Act.exec v2 c2 _ _ => v2 == v && decide (c2 = c)
  | _ => false

/-- The trace contains an actual execution of verb `v` at context `c`. -/
def executedV (v : Verb) (c : Ctx) (tr : List Act) : Bool :=
  tr.any (isExecOf v c)

/-- Any `run` invocation (executed, empty-script skip, or substituted
shell) of the given verb at the given context. -/
def isInvOf (v : Verb) (c : Ctx) (a : Act) : Bool :=
  match a with
  | Act.exec v2 c2 _ _ => v2 == v && decide (c2 = c)
  | Act.skip v2 c2 => v2 == v && decide (c2 = c)
  | Act.shellExec v2 c2 _ => v2 == v && decide (c2 = c)
  | Act.debugShell _ => false

/-- The trace contains a `run` invocation of verb `v` at context `c`. -/
def invokedV (v : Verb) (c : Ctx) (tr : List Act) : Bool :=
  tr.any (isInvOf v c)

/-- The trace contains some preparing or executing invocation. -/
def hasPrepExec (tr : List Act) : Bool :=
  tr.any (fun a => match actVerb a with
    | some Verb.preparing => true
    | some Verb.executing => true
    | _ => false)

/-- Transition of "a prepare for `c` has succeeded since the last
restore of `c`": any restore invocation resets, a successful prepare
execution establishes. -/
def prepStep (c : Ctx) (acc : Bool) (a : Act) : Bool :=
  match a with
  | Act.exec Verb.restoring c2 _ _ => if c2 = c then false else acc
  | Act.skip Verb.restoring c2 => if c2 = c then false else acc
  | Act.exec Verb.preparing c2 _ ok => if c2 = c then (if ok then true else acc) else acc
  | Act.skip Verb.preparing c2 => if c2 = c then true else acc
  | _ => acc

/-- "A matching prepare has succeeded since the last restore" over a
trace (an empty prepare script counts as trivially successful). -/
def prepSucceededSince (c : Ctx) (tr : List Act) : Bool :=
  tr.foldl (prepStep c) false

/-- Transition of "a prepare for `c` has been attempted since the last
*successful* restore of `c`": a successful restore resets, any prepare
invocation (successful or not) establishes. -/
def attemptStep (c : Ctx) (acc : Bool) (a : Act) : Bool :=
  match a with
  | Act.exec Verb.restoring c2 _ true => if c2 = c then false else acc
  | Act.skip Verb.restoring c2 => if c2 = c then false else acc
  | Act.exec Verb.preparing c2 _ _ => if c2 = c then true else acc
  | Act.skip Verb.preparing c2 => if c2 = c then true else acc
  | _ => acc

/-- "A prepare has been attempted since the last successful restore"
over a trace. -/
def prepAttemptedSince (c : Ctx) (tr : List Act) : Bool :=
  tr.foldl (attemptStep c) false

/-- A concrete suite, task, job, backend and project used by the
concrete executions below. -/
def cxSuite : SuiteC := ⟨"s1", "sp", "sr"⟩

def cxJob : JobC := ⟨"b", "s", cxSuite, ⟨"t1", "tp", "te", "tr"⟩, ""⟩

def cxBackend : BackendC := ⟨"b", ["s"], fun _ => 1, "bp", "br"⟩

def cxProject : ProjectC := ⟨"/remote", "pp", "pr"⟩

/-- A worker configuration: no modes set, every script call succeeds
except the oracle position `failAt` (1000 for "never fail"). -/
def cxCfg (restoreMode : Bool) (failAt : Nat) : WorkerCfg :=
  ⟨cxProject, cxBackend, "s",
   ⟨"pw", false, false, false, false, restoreMode, false⟩,
   fun k => !(k == failAt), fun _ => true⟩

/-- The three stats categories that absorb exactly one entry per input
job (outside restore mode). -/
def sum3 (s : StatsC) : Nat :=
  s.TaskDone.length + s.TaskError.length + s.TaskAbort.length

/-- The conserved quantity: settled three-category stats plus
still-pending jobs. -/
def measure3 (st : WState) : Nat := sum3 st.stats + countSome st.pending

/-- The conserved quantity on the shared state. -/
def measureSh (sh : SharedState) : Nat := sum3 sh.stats + countSome sh.pending

/-- The amended form of invariant 3: each inside flag implies the
corresponding prepare has been *attempted* since the last successful
restore of that level (the attempt may have failed). -/
def insideInv (st : WState) : Prop :=
  (st.insideProject = true → prepAttemptedSince Ctx.project st.trace = true) ∧
  (st.insideBackend = true → prepAttemptedSince Ctx.backend st.trace = true) ∧
  (∀ s : SuiteC, st.insideSuite = some s →
    prepAttemptedSince (Ctx.suite s) st.trace = true)

/-- The restore-symmetry loop invariant: `abend` is consistent with
`options.abend`; a preparing invocation at the project or backend level
keeps the matching inside flag set (the unwind will restore it); a suite
preparing invocation is answered by a suite restore or the suite is the
one currently entered; a task preparing invocation is answered by a task
restore unless `abend` cut the task restore off. -/
def symmInv (cfg : WorkerCfg) (st : WState) : Prop :=
  (st.abend = true → cfg.options.abend = true) ∧
  (invokedV Verb.preparing Ctx.project st.trace = true → st.insideProject = true) ∧
  (invokedV Verb.preparing Ctx.backend st.trace = true → st.insideBackend = true) ∧
  (∀ s : SuiteC, invokedV Verb.preparing (Ctx.suite s) st.trace = true →
    invokedV Verb.restoring (Ctx.suite s) st.trace = true ∨ st.insideSuite = some s) ∧
  (∀ t : JobC, invokedV Verb.preparing (Ctx.task t) st.trace = true →
    invokedV Verb.restoring (Ctx.task t) st.trace = true ∨ st.abend = true)

/-- The invariant between a task's prepare/execute and its restore step:
as `symmInv`, but the current job's task prepare may still be
unanswered. -/
def symmPre (cfg : WorkerCfg) (j : JobC) (st : WState) : Prop :=
  (st.abend = true → cfg.options.abend = true) ∧
  (invokedV Verb.preparing Ctx.project st.trace = true → st.insideProject = true) ∧
  (invokedV Verb.preparing Ctx.backend st.trace = true → st.insideBackend = true) ∧
  (∀ s : SuiteC, invokedV Verb.preparing (Ctx.suite s) st.trace = true →
    invokedV Verb.restoring (Ctx.suite s) st.trace = true ∨ st.insideSuite = some s) ∧
  (∀ t : JobC, invokedV Verb.preparing (Ctx.task t) st.trace = true →
    invokedV Verb.restoring (Ctx.task t) st.trace = true ∨ st.abend = true ∨ t = j)

/-! ## Theorems -/

theorem trimSpace_of_all_space {s : String} (h : s.data.all goIsSpace = true) :
    (trimSpace s).isEmpty = true := by
  have h' : s.data.dropWhile goIsSpace = [] := by
    rw [List.dropWhile_eq_nil_iff]
    intro x hx
    exact (List.all_eq_true.mp h) x hx
  simp only [trimSpace, h', List.reverse_nil, List.dropWhile_nil]
  decide

/-- C2 counterexample: with two configured addresses and an empty
`reused` set, the loop marks *both* addresses as claimed and the server
carries the *second* address — not, as the claim states, only the first
address. -/
theorem claimReuse_counterexample :
    claimReuse ["10.0.0.1", "10.0.0.2"] [] none =
      (["10.0.0.1", "10.0.0.2"], some "10.0.0.2") ∧
    specClaimReuse ["10.0.0.1", "10.0.0.2"] [] =
      (["10.0.0.1"], some "10.0.0.1") ∧
    claimReuse ["10.0.0.1", "10.0.0.2"] [] none ≠
      specClaimReuse ["10.0.0.1", "10.0.0.2"] [] := by
  refine ⟨by decide, by decide, by decide⟩

/-- C2 amended: one pass of the claim loop marks *every* not-yet-claimed
address of `options.reuse[backend.name]` in `reused` and keeps the last
of them as the server address.  Consequently, with two configured
addresses and two workers, the first acquirer claims both addresses and
the second finds none left (so only one server is acquired). -/
theorem claimReuse_claims_all_takes_last :
    (∀ (addrs reused : List String) (server : Option String),
      claimReuse addrs reused server =
        (reused ++ newAddrs addrs reused, lastOr (newAddrs addrs reused) server)) ∧
    claimReuse ["10.0.0.1", "10.0.0.2"] [] none =
      (["10.0.0.1", "10.0.0.2"], some "10.0.0.2") ∧
    claimReuse ["10.0.0.1", "10.0.0.2"] ["10.0.0.1", "10.0.0.2"] none =
      (["10.0.0.1", "10.0.0.2"], none) := by
  refine ⟨?_, by decide, by decide⟩
  intro addrs
  induction addrs with
  | nil => intro reused server; simp [claimReuse, newAddrs, lastOr]
  | cons a rest ih =>
    intro reused server
    by_cases h : a ∈ reused
    · simp [claimReuse, newAddrs, h, ih]
    · simp only [claimReuse, newAddrs, if_neg h, ih, lastOr, List.append_assoc,
        List.singleton_append]

/-- C5 counterexample: a fatal error whose message equals the previous
attempt's error message does *not* abort the loop — the fatality check
is skipped and the loop retries until timeout. -/
theorem allocate_fatal_same_message_not_aborted :
    allocateLoop [AllocAttempt.err false "boom", AllocAttempt.err true "boom"] none =
      AllocOutcome.timedOut ∧
    allocateLoop [AllocAttempt.err false "boom", AllocAttempt.err true "boom"] none ≠
      AllocOutcome.aborted := by
  refine ⟨by decide, by decide⟩

/-- C5 amended: a provider-declared fatal error aborts the acquirer
immediately if and only if it is the first error or its message differs
from the previous attempt's error message; otherwise the fatality check
is skipped and the loop keeps retrying. -/
theorem allocate_fatal_aborts_iff_message_changed
    (m : String) (rest : List AllocAttempt) (lerr : Option String) :
    allocateLoop (AllocAttempt.err true m :: rest) lerr =
      if lerr = none ∨ lerr ≠ some m then AllocOutcome.aborted
      else allocateLoop rest (some m) := by
  conv_lhs => rw [allocateLoop]
  split <;> rfl

theorem truncate1_append_single (s t : String) (h : t.data.length = 1) :
    truncate1 (s ++ t) = s := by
  obtain ⟨c, hc⟩ := List.length_eq_one.mp h
  show String.mk (s ++ t).data.dropLast = s
  rw [String.data_append, hc, List.dropLast_concat]

theorem foldl_sep_eq (sep : String) (l : List String) (p : String) (h : l ≠ []) :
    l.foldl (fun a x => a ++ x ++ sep) p = p ++ joinSep sep l ++ sep := by
  induction l generalizing p with
  | nil => cases h rfl
  | cons x rest ih =>
    cases rest with
    | nil => simp [joinSep]
    | cons y t =>
      rw [List.foldl_cons, ih (p := p ++ x ++ sep) (by simp)]
      simp only [joinSep]
      simp [String.append_assoc]

theorem foldl_sep_truncate (sep : String) (hsep : sep.data.length = 1)
    (l : List String) (p : String) (h : l ≠ []) :
    truncate1 (l.foldl (fun a x => a ++ x ++ sep) p) = p ++ joinSep sep l := by
  rw [foldl_sep_eq sep l p h, truncate1_append_single _ _ hsep]

theorem mem_insertSorted {a x : String} {l : List String} :
    a ∈ insertSorted x l ↔ a = x ∨ a ∈ l := by
  induction l with
  | nil => simp [insertSorted]
  | cons y rest ih =>
    simp only [insertSorted]
    split
    · simp
    · simp only [List.mem_cons, ih]
      tauto

theorem mem_sortStrings {a : String} {l : List String} :
    a ∈ sortStrings l ↔ a ∈ l := by
  induction l with
  | nil => simp [sortStrings]
  | cons x rest ih => simp [sortStrings, mem_insertSorted, ih]

theorem sortStrings_ne_nil {l : List String} (h : l ≠ []) : sortStrings l ≠ [] := by
  cases l with
  | nil => cases h rfl
  | cons x rest =>
    intro hcon
    have hx : x ∈ sortStrings (x :: rest) := mem_sortStrings.mpr (List.mem_cons_self x rest)
    rw [hcon] at hx
    cases hx

/-- C6 counterexample: two servers on the same backend.  The formatter
emits the backend group twice (`b:a1,a2 b:a1,a2`) while the claim says
each participating backend appears exactly once. -/
theorem reuseArgs_counterexample :
    reuseArgs [⟨"b", "a2"⟩, ⟨"b", "a1"⟩]
      { password := "p", keep := false, debug := false, shell := false,
        abend := false, restore := false, resend := false } =
      "-pass=p -reuse=b:a1,a2 b:a1,a2" ∧
    specReuseArgs [⟨"b", "a2"⟩, ⟨"b", "a1"⟩]
      { password := "p", keep := false, debug := false, shell := false,
        abend := false, restore := false, resend := false } =
      "-pass=p -reuse=b:a1,a2" ∧
    reuseArgs [⟨"b", "a2"⟩, ⟨"b", "a1"⟩]
      { password := "p", keep := false, debug := false, shell := false,
        abend := false, restore := false, resend := false } ≠
    specReuseArgs [⟨"b", "a2"⟩, ⟨"b", "a1"⟩]
      { password := "p", keep := false, debug := false, shell := false,
        abend := false, restore := false, resend := false } := by
  refine ⟨by decide, by decide, by decide⟩

/-- C6 amended: for every non-empty servers sequence the formatter
produces `-pass=<password> -reuse=` followed by one
`backend:a1,a2`-style group *per server* (a backend with several servers
repeats its group once per server), groups sorted by backend name,
addresses sorted within each group, the value quoted iff more than one
distinct backend participates, then the mode flags. -/
theorem reuseArgs_eq_amended (servers : List ServerC) (o : OptionsC)
    (h : servers ≠ []) :
    reuseArgs servers o = amendedReuseArgs servers o := by
  have hback : sortStrings (servers.map ServerC.backend) ≠ [] :=
    sortStrings_ne_nil (by simpa using h)
  have hstep : ∀ (acc : String), ∀ b ∈ sortStrings (servers.map ServerC.backend),
      (truncate1 ((sortStrings ((servers.filter (fun s => s.backend == b)).map
          ServerC.address)).foldl (fun a x => a ++ x ++ ",") (acc ++ b ++ ":")) ++ " ") =
      acc ++ (b ++ ":" ++ joinSep "," (sortStrings ((servers.filter
        (fun s => s.backend == b)).map ServerC.address))) ++ " " := by
    intro acc b hb
    obtain ⟨s, hs, hsb⟩ := List.mem_map.mp (mem_sortStrings.mp hb)
    have hfil : s ∈ servers.filter (fun s => s.backend == b) :=
      List.mem_filter.mpr ⟨hs, by simp [hsb]⟩
    have hfne : (servers.filter (fun s => s.backend == b)).map ServerC.address ≠ [] := by
      intro hcon
      have hmem := List.mem_map_of_mem ServerC.address hfil
      rw [hcon] at hmem
      cases hmem
    rw [foldl_sep_truncate "," (by decide) _ _ (sortStrings_ne_nil hfne)]
    simp [String.append_assoc]
  have hcore : ∀ p : String,
      truncate1 ((sortStrings (servers.map ServerC.backend)).foldl (fun acc b =>
        truncate1 ((sortStrings ((servers.filter (fun s => s.backend == b)).map
            ServerC.address)).foldl (fun a x => a ++ x ++ ",") (acc ++ b ++ ":")) ++ " ") p) =
      p ++ joinSep " " ((sortStrings (servers.map ServerC.backend)).map (fun b =>
        b ++ ":" ++ joinSep "," (sortStrings ((servers.filter
          (fun s => s.backend == b)).map ServerC.address)))) := by
    intro p
    have hfold : (sortStrings (servers.map ServerC.backend)).foldl (fun acc b =>
        truncate1 ((sortStrings ((servers.filter (fun s => s.backend == b)).map
            ServerC.address)).foldl (fun a x => a ++ x ++ ",") (acc ++ b ++ ":")) ++ " ") p =
        ((sortStrings (servers.map ServerC.backend)).map (fun b =>
          b ++ ":" ++ joinSep "," (sortStrings ((servers.filter
            (fun s => s.backend == b)).map ServerC.address)))).foldl
          (fun acc g => acc ++ g ++ " ") p := by
      rw [List.foldl_map]
      exact List.foldl_ext _ _ p (fun acc b hb => hstep acc b hb)
    have hmapne : ((sortStrings (servers.map ServerC.backend)).map (fun b =>
        b ++ ":" ++ joinSep "," (sortStrings ((servers.filter
          (fun s => s.backend == b)).map ServerC.address)))) ≠ [] := by
      intro hcon
      exact hback (List.map_eq_nil_iff.mp hcon)
    rw [hfold, foldl_sep_truncate " " (by decide) _ _ hmapne]
  simp only [reuseArgs, amendedReuseArgs]
  rw [hcore]

/-- Witness for C6 at a concrete input. -/
theorem reuseArgs_eq_amended_witness :
    ([⟨"b", "a1"⟩] : List ServerC) ≠ [] ∧
    reuseArgs [⟨"b", "a1"⟩]
      { password := "p", keep := true, debug := false, shell := false,
        abend := false, restore := false, resend := false } =
    amendedReuseArgs [⟨"b", "a1"⟩]
      { password := "p", keep := true, debug := false, shell := false,
        abend := false, restore := false, resend := false } :=
  ⟨by decide, reuseArgs_eq_amended _ _ (by decide)⟩

theorem wcInner_eq (cap : Nat) (bn sys : String) (pending : List JobC) :
    ∀ w a : Nat, wcInner cap bn sys pending w a =
      (w + min (cap - w) (countJobs pending bn sys),
       a + min (cap - w) (countJobs pending bn sys)) := by
  induction pending with
  | nil => intro w a; simp [wcInner, countJobs]
  | cons j rest ih =>
    intro w a
    by_cases hm : (j.backend == bn && j.system == sys) = true
    · have hcnt : countJobs (j :: rest) bn sys = countJobs rest bn sys + 1 := by
        simp [countJobs, List.filter_cons, hm]
      by_cases hcw : cap > w
      · rw [wcInner, if_pos hm, if_pos hcw, ih, hcnt]
        have : cap - w = (cap - (w + 1)) + 1 := by omega
        rw [this, Nat.succ_min_succ]
        simp only [Prod.mk.injEq]
        constructor <;> omega
      · rw [wcInner, if_pos hm, if_neg hcw]
        have : cap - w = 0 := by omega
        simp [this]
    · have hcnt : countJobs (j :: rest) bn sys = countJobs rest bn sys := by
        simp [countJobs, List.filter_cons, hm]
      rw [wcInner, if_neg hm, ih, hcnt]

theorem wcSystems_lookup_notmem (pending : List JobC) (b : BackendC)
    (systems : List String) :
    ∀ (m : List ((String × String) × Nat)) (a : Nat) (key : String × String),
      (key.1 ≠ b.name ∨ key.2 ∉ systems) →
      lookupW (wcSystems pending b systems (m, a)).1 key = lookupW m key := by
  induction systems with
  | nil => intro m a key _; rfl
  | cons s rest ih =>
    intro m a key hk
    have hk' : key.1 ≠ b.name ∨ key.2 ∉ rest := by
      rcases hk with h | h
      · exact Or.inl h
      · exact Or.inr (fun hmem => h (List.mem_cons_of_mem _ hmem))
    have hne : (b.name, s) ≠ key := by
      rcases hk with h | h
      · intro hcon; exact h (by rw [← hcon])
      · intro hcon
        exact h (by rw [← hcon]; exact List.mem_cons_self _ _)
    rw [wcSystems, ih _ _ _ hk', lookupW, if_neg hne]

theorem wcSystems_lookup_mem (pending : List JobC) (b : BackendC)
    (systems : List String) :
    ∀ (m : List ((String × String) × Nat)) (a : Nat),
      systems.Nodup →
      (∀ s' ∈ systems, lookupW m (b.name, s') = 0) →
      ∀ s ∈ systems,
        lookupW (wcSystems pending b systems (m, a)).1 (b.name, s) =
          min (b.systemWorkers s) (countJobs pending b.name s) := by
  induction systems with
  | nil => intro m a _ _ s hs; cases hs
  | cons s0 rest ih =>
    intro m a hnd hfresh s hs
    have hs0 : s0 ∉ rest := (List.nodup_cons.mp hnd).1
    have hndr : rest.Nodup := (List.nodup_cons.mp hnd).2
    rcases List.mem_cons.mp hs with heq | hmem
    · subst heq
      rw [wcSystems, wcSystems_lookup_notmem _ _ _ _ _ _ (Or.inr hs0)]
      rw [lookupW, if_pos rfl, wcInner_eq, hfresh s (List.mem_cons_self _ _)]
      simp
    · rw [wcSystems]
      refine ih _ _ hndr ?_ s hmem
      intro s' hs'
      have h1 : s' ≠ s0 := fun hcon => hs0 (hcon ▸ hs')
      rw [lookupW, if_neg (fun hcon => h1 (congrArg Prod.snd hcon).symm)]
      exact hfresh s' (List.mem_cons_of_mem _ hs')

theorem wcSystems_alive (pending : List JobC) (b : BackendC)
    (systems : List String) :
    ∀ (m : List ((String × String) × Nat)) (a : Nat),
      systems.Nodup →
      (∀ s' ∈ systems, lookupW m (b.name, s') = 0) →
      (wcSystems pending b systems (m, a)).2 =
        a + (systems.map (fun s =>
          min (b.systemWorkers s) (countJobs pending b.name s))).sum := by
  induction systems with
  | nil => intro m a _ _; simp [wcSystems]
  | cons s0 rest ih =>
    intro m a hnd hfresh
    have hs0 : s0 ∉ rest := (List.nodup_cons.mp hnd).1
    have hndr : rest.Nodup := (List.nodup_cons.mp hnd).2
    rw [wcSystems]
    have hfr : ∀ s' ∈ rest,
        lookupW (((b.name, s0),
          (wcInner (b.systemWorkers s0) b.name s0 pending (lookupW m (b.name, s0)) a).1) :: m)
          (b.name, s') = 0 := by
      intro s' hs'
      have h1 : s' ≠ s0 := fun hcon => hs0 (hcon ▸ hs')
      rw [lookupW, if_neg (by intro hcon; exact h1 (congrArg Prod.snd hcon).symm)]
      exact hfresh s' (List.mem_cons_of_mem _ hs')
    rw [ih _ _ hndr hfr, wcInner_eq, hfresh s0 (List.mem_cons_self _ _)]
    simp [Nat.add_assoc]

theorem wcBackends_lookup_name_notmem (pending : List JobC)
    (backends : List BackendC) :
    ∀ (st : List ((String × String) × Nat) × Nat) (key : String × String),
      key.1 ∉ backends.map BackendC.name →
      lookupW (wcBackends pending backends st).1 key = lookupW st.1 key := by
  induction backends with
  | nil => intro st key _; rfl
  | cons b rest ih =>
    intro st key hk
    rw [List.map_cons, List.mem_cons] at hk
    push_neg at hk
    rw [wcBackends, ih _ _ hk.2]
    obtain ⟨m, a⟩ := st
    exact wcSystems_lookup_notmem _ _ _ _ _ _ (Or.inl hk.1)

theorem wcBackends_spec (pending : List JobC) (backends : List BackendC) :
    ∀ st : List ((String × String) × Nat) × Nat,
      (backends.map BackendC.name).Nodup →
      (∀ b ∈ backends, b.systems.Nodup) →
      (∀ b ∈ backends, ∀ s ∈ b.systems, lookupW st.1 (b.name, s) = 0) →
      (∀ b ∈ backends, ∀ s ∈ b.systems,
        lookupW (wcBackends pending backends st).1 (b.name, s) =
          min (b.systemWorkers s) (countJobs pending b.name s)) ∧
      (wcBackends pending backends st).2 =
        st.2 + (backends.map (fun b => (b.systems.map (fun s =>
          min (b.systemWorkers s) (countJobs pending b.name s))).sum)).sum := by
  induction backends with
  | nil =>
    intro st _ _ _
    refine ⟨fun b hb => absurd hb (List.not_mem_nil b), by simp [wcBackends]⟩
  | cons b rest ih =>
    intro st hnames hsys hfresh
    obtain ⟨m, a⟩ := st
    rw [List.map_cons, List.nodup_cons] at hnames
    have hbnd : b.systems.Nodup := hsys b (List.mem_cons_self _ _)
    have hbfresh : ∀ s ∈ b.systems, lookupW m (b.name, s) = 0 :=
      fun s hs => hfresh b (List.mem_cons_self _ _) s hs
    have hfresh' : ∀ b' ∈ rest, ∀ s ∈ b'.systems,
        lookupW (wcSystems pending b b.systems (m, a)).1 (b'.name, s) = 0 := by
      intro b' hb' s hs
      have hne : b'.name ≠ b.name := by
        intro hcon
        exact hnames.1 (hcon ▸ List.mem_map_of_mem BackendC.name hb')
      rw [wcSystems_lookup_notmem _ _ _ _ _ _ (Or.inl hne)]
      exact hfresh b' (List.mem_cons_of_mem _ hb') s hs
    obtain ⟨ihl, ihs⟩ := ih (wcSystems pending b b.systems (m, a)) hnames.2
      (fun b' hb' => hsys b' (List.mem_cons_of_mem _ hb')) hfresh'
    constructor
    · intro b' hb' s hs
      rcases List.mem_cons.mp hb' with hbeq | hbmem
      · subst hbeq
        rw [wcBackends, wcBackends_lookup_name_notmem _ _ _ _ hnames.1]
        exact wcSystems_lookup_mem _ _ _ _ _ hbnd hbfresh s hs
      · rw [wcBackends]
        exact ihl b' hbmem s hs
    · rw [wcBackends, ihs, wcSystems_alive _ _ _ _ _ hbnd hbfresh]
      simp [Nat.add_assoc]

/-- C8: with distinct backend names and distinct systems per backend,
the supervisor's computed worker count for each `(backend, system)` pair
is `min(backend.systemWorkers[system], number of matching pending
jobs)`, and `alive` is the sum of these counts over all pairs. -/
theorem workerCounts_min_cap_jobs (backends : List BackendC) (pending : List JobC)
    (hnames : (backends.map BackendC.name).Nodup)
    (hsys : ∀ b ∈ backends, b.systems.Nodup) :
    (∀ b ∈ backends, ∀ s ∈ b.systems,
      lookupW (workerCounts backends pending).1 (b.name, s) =
        min (b.systemWorkers s) (countJobs pending b.name s)) ∧
    (workerCounts backends pending).2 =
      (backends.map (fun b => (b.systems.map (fun s =>
        min (b.systemWorkers s) (countJobs pending b.name s))).sum)).sum := by
  have h := wcBackends_spec pending backends ([], 0) hnames hsys
    (fun _ _ _ _ => rfl)
  exact ⟨h.1, by simpa using h.2⟩

/-- Witness for C8: one backend `b` with system `sys`, cap 2, and three
matching pending jobs plus one unrelated job; the count is `min 2 3 = 2`
and `alive = 2`. -/
theorem workerCounts_min_cap_jobs_witness :
    (((([⟨"b", ["sys"], fun _ => 2, "", ""⟩] : List BackendC)).map
        BackendC.name).Nodup ∧
      (∀ b ∈ ([⟨"b", ["sys"], fun _ => 2, "", ""⟩] : List BackendC),
        b.systems.Nodup)) ∧
    ((∀ b ∈ ([⟨"b", ["sys"], fun _ => 2, "", ""⟩] : List BackendC),
      ∀ s ∈ b.systems,
        lookupW (workerCounts [⟨"b", ["sys"], fun _ => 2, "", ""⟩]
          [⟨"b", "sys", default, default, ""⟩, ⟨"b", "sys", default, default, ""⟩,
           ⟨"other", "sys", default, default, ""⟩, ⟨"b", "sys", default, default, ""⟩]).1
          (b.name, s) =
        min (b.systemWorkers s) (countJobs
          [⟨"b", "sys", default, default, ""⟩, ⟨"b", "sys", default, default, ""⟩,
           ⟨"other", "sys", default, default, ""⟩, ⟨"b", "sys", default, default, ""⟩]
          b.name s)) ∧
      (workerCounts [⟨"b", ["sys"], fun _ => 2, "", ""⟩]
        [⟨"b", "sys", default, default, ""⟩, ⟨"b", "sys", default, default, ""⟩,
         ⟨"other", "sys", default, default, ""⟩, ⟨"b", "sys", default, default, ""⟩]).2 =
      (([⟨"b", ["sys"], fun _ => 2, "", ""⟩] : List BackendC).map
        (fun b => (b.systems.map (fun s =>
          min (b.systemWorkers s) (countJobs
            [⟨"b", "sys", default, default, ""⟩, ⟨"b", "sys", default, default, ""⟩,
             ⟨"other", "sys", default, default, ""⟩, ⟨"b", "sys", default, default, ""⟩]
            b.name s))).sum)).sum) :=
  ⟨⟨by decide, by decide⟩,
   workerCounts_min_cap_jobs _ _ (by decide) (by decide)⟩

theorem pickIdxGo_eq_spec (sw : List ((String × String × String) × Int))
    (bname system : String) (suite : Option SuiteC) :
    ∀ (l : List (Option JobC)) (i : Nat) (best : Option Nat) (bw : Int),
      pickIdxGo sw bname system suite l i best bw =
        match firstSame bname system suite l i with
        | some idx => some idx
        | none => argminUnder sw (cands bname system l i) best bw := by
  intro l
  induction l with
  | nil => intro i best bw; rfl
  | cons oj t ih =>
    intro i best bw
    cases oj with
    | none => rw [pickIdxGo, firstSame, cands, ih]
    | some j =>
      by_cases hmatch : j.backend = bname ∧ j.system = system
      · have hmm : ¬(j.backend ≠ bname ∨ j.system ≠ system) := by
          push_neg
          exact hmatch
        have hbool : (j.backend == bname && j.system == system) = true := by
          simp [hmatch.1, hmatch.2]
        by_cases hsuite : suite = some j.suite
        · rw [pickIdxGo, if_neg hmm, if_pos hsuite, firstSame]
          simp [hbool, hsuite]
        · have hcond : ¬((j.backend == bname && j.system == system &&
              decide (suite = some j.suite)) = true) := by
            simp [hsuite]
          rw [pickIdxGo, if_neg hmm, if_neg hsuite, firstSame, cands,
            if_neg hcond, if_pos hbool]
          by_cases hsw : swGet sw (swKey j) < bw
          · rw [if_pos hsw, ih, argminUnder, if_pos hsw]
          · rw [if_neg hsw, ih, argminUnder, if_neg hsw]
      · have hmm : j.backend ≠ bname ∨ j.system ≠ system := by tauto
        have hbool : (j.backend == bname && j.system == system) = false := by
          rcases hmm with h | h <;> simp [h]
        rw [pickIdxGo, if_pos hmm, firstSame, cands, ih]
        simp [hbool]

/-- C7 counterexample: a single pending job matching the requested
backend and system, on a different suite, whose `suiteWorkers` count is
1000000.  A matching job is pending, yet the picker returns none — the
initial best count is the sentinel 1000000, not +∞. -/
theorem pickJob_counterexample :
    (([some ⟨"b", "s", ⟨"x", "", ""⟩, default, ""⟩] : List (Option JobC)).any
      (fun oj => match oj with
        | some j => j.backend == "b" && j.system == "s"
        | none => false) = true) ∧
    (pickJob [some ⟨"b", "s", ⟨"x", "", ""⟩, default, ""⟩]
      [(("b", "s", "x"), 1000000)] "b" "s" none).1 = none ∧
    (pickJob [some ⟨"b", "s", ⟨"x", "", ""⟩, default, ""⟩]
      [(("b", "s", "x"), 1000000)] "b" "s" none).2 =
      [some ⟨"b", "s", ⟨"x", "", ""⟩, default, ""⟩] := by
  refine ⟨by decide, by decide, by decide⟩

/-- C7 amended: the picker skips cleared and mismatched slots, returns
the first same-suite candidate if one exists, and otherwise the earliest
candidate with the smallest `suiteWorkers` count — with the initial best
count the sentinel 1000000 rather than +∞, so `none` is returned when
every candidate sits at a count of 1000000 or more.  The returned slot
is cleared in place. -/
theorem pickJob_eq_spec (pending : List (Option JobC))
    (sw : List ((String × String × String) × Int)) (bname system : String)
    (suite : Option SuiteC) :
    pickIdx pending sw bname system suite = specPickIdx pending sw bname system suite ∧
    pickJob pending sw bname system suite =
      (match specPickIdx pending sw bname system suite with
       | some i => (pending.getD i none, pending.set i none)
       | none => (none, pending)) := by
  have h : pickIdx pending sw bname system suite = specPickIdx pending sw bname system suite :=
    pickIdxGo_eq_spec sw bname system suite pending 0 none 1000000
  exact ⟨h, by rw [pickJob, h]⟩

/-- C10: a whitespace-only script makes `run` return success at once:
no `client.Trace` call, no interactive shell (even with the `-shell`
option and the `executing` verb), no change to the oracle cursor or to
`abend`. -/
theorem run_whitespace_script_no_remote_calls
    (opts : OptionsC) (remotePath : String) (jobArg : JobC) (verb : Verb)
    (ctx : Ctx) (script : String) (outcomes : Nat → Bool) (k : Nat) (abend : Bool)
    (h : script.data.all goIsSpace = true) :
    runScript opts remotePath jobArg verb ctx script outcomes k abend =
      { ok := true, k := k, abend := abend, acts := [Act.skip verb ctx] } := by
  unfold runScript
  simp [trimSpace_of_all_space h]

/-- Witness for C10 at a concrete input: the `-shell` option is set and
the verb is `executing`, yet the whitespace execute script produces no
shell action. -/
theorem run_whitespace_script_no_remote_calls_witness :
    (" \n\t ".data.all goIsSpace = true) ∧
    runScript { password := "p", keep := false, debug := false, shell := true,
                abend := false, restore := false, resend := false }
      "/remote" default Verb.executing (Ctx.task default) " \n\t "
      (fun _ => true) 0 false =
      { ok := true, k := 0, abend := false,
        acts := [Act.skip Verb.executing (Ctx.task default)] } :=
  ⟨by decide,
   run_whitespace_script_no_remote_calls _ _ _ _ _ _ _ _ _ (by decide)⟩

/-- C1 counterexample: one worker, one job, task prepare fails (oracle
position 3).  The job is recorded in *both* `TaskPrepareError` and
`TaskAbort`, so the claimed four-way sum is 2 while the pending list had
a single job. -/
theorem stats_conservation_counterexample :
    (runAll [(cxCfg false 3, true)] [cxJob]).stats.TaskDone.length +
      (runAll [(cxCfg false 3, true)] [cxJob]).stats.TaskError.length +
      (runAll [(cxCfg false 3, true)] [cxJob]).stats.TaskAbort.length +
      (runAll [(cxCfg false 3, true)] [cxJob]).stats.TaskPrepareError.length = 2 ∧
    ([cxJob] : List JobC).length = 1 := by
  refine ⟨by decide, by decide⟩

/-- C3 counterexample: in restore mode, with one job processed, the
worker-exit unwind *does* execute the suite, backend and project restore
scripts (the inside flags are set even though the prepares were
skipped). -/
theorem restore_mode_unwind_counterexample :
    executedV Verb.restoring Ctx.project
      (runWorker (cxCfg true 1000) [some cxJob] [] emptyStats).trace = true ∧
    executedV Verb.restoring Ctx.backend
      (runWorker (cxCfg true 1000) [some cxJob] [] emptyStats).trace = true ∧
    executedV Verb.restoring (Ctx.suite cxSuite)
      (runWorker (cxCfg true 1000) [some cxJob] [] emptyStats).trace = true ∧
    hasPrepExec (runWorker (cxCfg true 1000) [some cxJob] [] emptyStats).trace = false := by
  refine ⟨by decide, by decide, by decide, by decide⟩

/-- C4 counterexample: when `suite.prepare` fails (oracle position 2),
the state after the first loop iteration has `insideSuite` set to that
suite although no matching suite prepare has succeeded. -/
theorem insideSuite_without_successful_prepare :
    (workerStep (cxCfg false 2) (initWState [some cxJob] [] emptyStats)).insideSuite =
      some cxSuite ∧
    prepSucceededSince (Ctx.suite cxSuite)
      (workerStep (cxCfg false 2) (initWState [some cxJob] [] emptyStats)).trace = false := by
  refine ⟨by decide, by decide⟩

theorem doRun_stats (cfg : WorkerCfg) (st : WState) (a : JobC) (v : Verb)
    (c : Ctx) (s : String) : (doRun cfg st a v c s).2.stats = st.stats := rfl

theorem doRun_pending (cfg : WorkerCfg) (st : WState) (a : JobC) (v : Verb)
    (c : Ctx) (s : String) : (doRun cfg st a v c s).2.pending = st.pending := rfl

theorem doRun_insideProject (cfg : WorkerCfg) (st : WState) (a : JobC) (v : Verb)
    (c : Ctx) (s : String) : (doRun cfg st a v c s).2.insideProject = st.insideProject := rfl

theorem doRun_insideBackend (cfg : WorkerCfg) (st : WState) (a : JobC) (v : Verb)
    (c : Ctx) (s : String) : (doRun cfg st a v c s).2.insideBackend = st.insideBackend := rfl

theorem doRun_insideSuite (cfg : WorkerCfg) (st : WState) (a : JobC) (v : Verb)
    (c : Ctx) (s : String) : (doRun cfg st a v c s).2.insideSuite = st.insideSuite := rfl

theorem doRun_trace (cfg : WorkerCfg) (st : WState) (a : JobC) (v : Verb)
    (c : Ctx) (s : String) : (doRun cfg st a v c s).2.trace =
      st.trace ++ (runScript cfg.options cfg.project.remotePath a v c s
        cfg.outcomes st.k st.abend).acts := rfl

theorem countSome_set_none_of_getD_some {l : List (Option JobC)} :
    ∀ {i : Nat} {j : JobC}, l.getD i none = some j →
      countSome (l.set i none) + 1 = countSome l := by
  induction l with
  | nil => intro i j h; simp [List.getD] at h
  | cons x t ih =>
    intro i j h
    cases i with
    | zero =>
      rw [List.getD_cons_zero] at h
      subst h
      simp [countSome, List.set]
    | succ n =>
      rw [List.getD_cons_succ] at h
      cases x with
      | none => simpa [countSome, List.set] using ih h
      | some y => simpa [countSome, List.set] using ih h

theorem countSome_set_none_of_getD_none {l : List (Option JobC)} :
    ∀ {i : Nat}, l.getD i none = none →
      countSome (l.set i none) = countSome l := by
  induction l with
  | nil => intro i _; simp [List.set]
  | cons x t ih =>
    intro i h
    cases i with
    | zero =>
      rw [List.getD_cons_zero] at h
      subst h
      simp [List.set]
    | succ n =>
      rw [List.getD_cons_succ] at h
      cases x with
      | none => simpa [countSome, List.set] using ih h
      | some y => simpa [countSome, List.set] using ih h

theorem pickJob_countSome_none {pending : List (Option JobC)}
    {sw : List ((String × String × String) × Int)} {b s : String}
    {suite : Option SuiteC}
    (h : (pickJob pending sw b s suite).1 = none) :
    countSome (pickJob pending sw b s suite).2 = countSome pending := by
  unfold pickJob at h ⊢
  cases hp : pickIdx pending sw b s suite with
  | none => simp [hp]
  | some i =>
    simp only [hp] at h ⊢
    exact countSome_set_none_of_getD_none h

theorem pickJob_countSome_some {pending : List (Option JobC)}
    {sw : List ((String × String × String) × Int)} {b s : String}
    {suite : Option SuiteC} {j : JobC}
    (h : (pickJob pending sw b s suite).1 = some j) :
    countSome (pickJob pending sw b s suite).2 + 1 = countSome pending := by
  unfold pickJob at h ⊢
  cases hp : pickIdx pending sw b s suite with
  | none => simp [hp] at h
  | some i =>
    simp only [hp] at h ⊢
    exact countSome_set_none_of_getD_some h

theorem suiteSwitch_props (cfg : WorkerCfg) (st : WState) (j : JobC) :
    (suiteSwitch cfg st j).1.pending = st.pending ∧
    ((suiteSwitch cfg st j).2 = true → sum3 (suiteSwitch cfg st j).1.stats = sum3 st.stats) ∧
    ((suiteSwitch cfg st j).2 = false → sum3 (suiteSwitch cfg st j).1.stats = sum3 st.stats + 1) := by
  rcases hs : st.insideSuite with _ | s
  · simp [suiteSwitch, hs]
  · by_cases hsj : s = j.suite
    · simp [suiteSwitch, hs, hsj]
    · by_cases hr : (doRun cfg st (lastJ st) Verb.restoring (Ctx.suite s) s.restore).1 = true
      · refine ⟨?_, ?_, ?_⟩ <;>
          simp [suiteSwitch, hs, hsj, hr, doRun_stats, doRun_pending, sum3]
      · refine ⟨?_, ?_, ?_⟩ <;>
          simp [suiteSwitch, hs, hsj, hr, doRun_stats, doRun_pending, sum3,
            addTaskAbort, addSuiteRestoreError] <;>
          omega

theorem enterBackend_props (cfg : WorkerCfg) (st : WState) (j : JobC) :
    (enterBackend cfg st j).1.pending = st.pending ∧
    ((enterBackend cfg st j).2 = true → sum3 (enterBackend cfg st j).1.stats = sum3 st.stats) ∧
    ((enterBackend cfg st j).2 = false → sum3 (enterBackend cfg st j).1.stats = sum3 st.stats + 1) := by
  by_cases hres : cfg.options.restore = true
  · simp [enterBackend, hres]
  · by_cases hr : (doRun cfg { st with insideBackend := true } j Verb.preparing
        Ctx.backend cfg.backend.prepare).1 = true
    · refine ⟨?_, ?_, ?_⟩ <;>
        simp [enterBackend, hres, hr, doRun_stats, doRun_pending, sum3]
    · refine ⟨?_, ?_, ?_⟩ <;>
        simp [enterBackend, hres, hr, doRun_stats, doRun_pending, sum3,
          addTaskAbort, addBackendPrepareError] <;>
        omega

theorem enterProject_props (cfg : WorkerCfg) (st : WState) (j : JobC) :
    (enterProject cfg st j).1.pending = st.pending ∧
    ((enterProject cfg st j).2 = true → sum3 (enterProject cfg st j).1.stats = sum3 st.stats) ∧
    ((enterProject cfg st j).2 = false → sum3 (enterProject cfg st j).1.stats = sum3 st.stats + 1) := by
  by_cases hip : st.insideProject = true
  · simp [enterProject, hip]
  · by_cases hres : cfg.options.restore = true
    · have he : enterProject cfg st j =
          enterBackend cfg { st with insideProject := true } j := by
        simp [enterProject, hip, hres]
      rw [he]
      have h := enterBackend_props cfg { st with insideProject := true } j
      exact ⟨h.1, h.2.1, h.2.2⟩
    · by_cases hr : (doRun cfg { st with insideProject := true } j Verb.preparing
          Ctx.project cfg.project.prepare).1 = true
      · have he : enterProject cfg st j =
            enterBackend cfg (doRun cfg { st with insideProject := true } j
              Verb.preparing Ctx.project cfg.project.prepare).2 j := by
          simp [enterProject, hip, hres, hr]
        rw [he]
        have h := enterBackend_props cfg (doRun cfg { st with insideProject := true } j
          Verb.preparing Ctx.project cfg.project.prepare).2 j
        exact ⟨h.1, h.2.1, h.2.2⟩
      · refine ⟨?_, ?_, ?_⟩ <;>
          simp [enterProject, hip, hres, hr, doRun_stats, doRun_pending, sum3,
            addTaskAbort, addProjectPrepareError] <;>
          omega

theorem enterSuite_props (cfg : WorkerCfg) (st : WState) (j : JobC) :
    (enterSuite cfg st j).1.pending = st.pending ∧
    ((enterSuite cfg st j).2 = true → sum3 (enterSuite cfg st j).1.stats = sum3 st.stats) ∧
    ((enterSuite cfg st j).2 = false → sum3 (enterSuite cfg st j).1.stats = sum3 st.stats + 1) := by
  by_cases his : st.insideSuite = some j.suite
  · simp [enterSuite, his]
  · by_cases hres : cfg.options.restore = true
    · simp [enterSuite, his, hres]
    · by_cases hr : (doRun cfg { st with insideSuite := some j.suite } j Verb.preparing
          (Ctx.suite j.suite) j.suite.prepare).1 = true
      · refine ⟨?_, ?_, ?_⟩ <;>
          simp [enterSuite, his, hres, hr, doRun_stats, doRun_pending, sum3]
      · refine ⟨?_, ?_, ?_⟩ <;>
          simp [enterSuite, his, hres, hr, doRun_stats, doRun_pending, sum3,
            addTaskAbort, addSuitePrepareError] <;>
          omega

theorem taskRun_props (cfg : WorkerCfg) (st : WState) (j : JobC)
    (hres : cfg.options.restore = false) :
    (taskRun cfg st j).pending = st.pending ∧
    sum3 (taskRun cfg st j).stats = sum3 st.stats + 1 := by
  by_cases hr1 : (doRun cfg st j Verb.preparing (Ctx.task j) j.task.prepare).1 = true
  · by_cases hr2 : (doRun cfg (doRun cfg st j Verb.preparing (Ctx.task j) j.task.prepare).2
        j Verb.executing (Ctx.task j) j.task.execute).1 = true
    · refine ⟨?_, ?_⟩ <;>
        simp [taskRun, hres, hr1, hr2, doRun_stats, doRun_pending, sum3, addTaskDone] <;>
        omega
    · refine ⟨?_, ?_⟩ <;>
        simp [taskRun, hres, hr1, hr2, doRun_stats, doRun_pending, sum3, addTaskError] <;>
        omega
  · refine ⟨?_, ?_⟩ <;>
      simp [taskRun, hres, hr1, doRun_stats, doRun_pending, sum3,
        addTaskAbort, addTaskPrepareError] <;>
      omega

theorem taskRestoreStep_props (cfg : WorkerCfg) (st : WState) (j : JobC) :
    (taskRestoreStep cfg st j).pending = st.pending ∧
    sum3 (taskRestoreStep cfg st j).stats = sum3 st.stats := by
  by_cases ha : st.abend = true
  · simp [taskRestoreStep, ha]
  · by_cases hr : (doRun cfg st j Verb.restoring (Ctx.task j) j.task.restore).1 = true
    · refine ⟨?_, ?_⟩ <;>
        simp [taskRestoreStep, ha, hr, doRun_stats, doRun_pending, sum3]
    · refine ⟨?_, ?_⟩ <;>
        simp [taskRestoreStep, ha, hr, doRun_stats, doRun_pending, sum3, addTaskRestoreError]

theorem taskBody_props (cfg : WorkerCfg) (st : WState) (j : JobC)
    (hres : cfg.options.restore = false) :
    (taskBody cfg st j).pending = st.pending ∧
    sum3 (taskBody cfg st j).stats = sum3 st.stats + 1 := by
  have h1 := taskRun_props cfg st j hres
  have h2 := taskRestoreStep_props cfg (taskRun cfg st j) j
  unfold taskBody
  exact ⟨h2.1.trans h1.1, h2.2.trans h1.2⟩

theorem processJob_props (cfg : WorkerCfg) (st : WState) (j : JobC)
    (hres : cfg.options.restore = false) :
    (processJob cfg st j).pending = st.pending ∧
    sum3 (processJob cfg st j).stats = sum3 st.stats + 1 := by
  by_cases hbad : j.suite ∈ st.badSuite
  · refine ⟨?_, ?_⟩ <;> simp [processJob, hbad, addTaskAbort, sum3] <;> omega
  · have h1 := suiteSwitch_props cfg st j
    by_cases hc1 : (suiteSwitch cfg st j).2 = true
    · have h2 := enterProject_props cfg { (suiteSwitch cfg st j).1 with last := some j } j
      by_cases hc2 : (enterProject cfg { (suiteSwitch cfg st j).1 with last := some j } j).2 = true
      · have h3 := enterSuite_props cfg
          (enterProject cfg { (suiteSwitch cfg st j).1 with last := some j } j).1 j
        by_cases hc3 : (enterSuite cfg
            (enterProject cfg { (suiteSwitch cfg st j).1 with last := some j } j).1 j).2 = true
        · have h4 := taskBody_props cfg (enterSuite cfg
            (enterProject cfg { (suiteSwitch cfg st j).1 with last := some j } j).1 j).1 j hres
          have he : processJob cfg st j = taskBody cfg (enterSuite cfg
              (enterProject cfg { (suiteSwitch cfg st j).1 with last := some j } j).1 j).1 j := by
            simp [processJob, hbad, hc1, hc2, hc3]
          rw [he]
          refine ⟨?_, ?_⟩
          · rw [h4.1, h3.1, h2.1]
            exact h1.1
          · rw [h4.2, h3.2.1 hc3, h2.2.1 hc2]
            have := h1.2.1 hc1
            simpa using this
        · have he : processJob cfg st j = (enterSuite cfg
              (enterProject cfg { (suiteSwitch cfg st j).1 with last := some j } j).1 j).1 := by
            simp [processJob, hbad, hc1, hc2, hc3]
          rw [he]
          refine ⟨?_, ?_⟩
          · rw [h3.1, h2.1]
            exact h1.1
          · rw [h3.2.2 (by simpa using hc3), h2.2.1 hc2]
            have := h1.2.1 hc1
            simpa using this
      · have he : processJob cfg st j = (enterProject cfg
            { (suiteSwitch cfg st j).1 with last := some j } j).1 := by
          simp [processJob, hbad, hc1, hc2]
        rw [he]
        refine ⟨?_, ?_⟩
        · rw [h2.1]
          exact h1.1
        · rw [h2.2.2 (by simpa using hc2)]
          have := h1.2.1 hc1
          simpa using this
    · have he : processJob cfg st j = (suiteSwitch cfg st j).1 := by
        simp [processJob, hbad, hc1]
      rw [he]
      exact ⟨h1.1, h1.2.2 (by simpa using hc1)⟩

theorem workerStep_measure (cfg : WorkerCfg) (st : WState)
    (hres : cfg.options.restore = false) :
    measure3 (workerStep cfg st) = measure3 st := by
  by_cases hfin : st.finished = true
  · simp [workerStep, hfin]
  · by_cases hbrk : (st.badProject || st.abend || !(cfg.tombAlive st.iter)) = true
    · simp [workerStep, hfin, hbrk, measure3]
    · cases hpk : (pickJob st.pending (swDec st) cfg.backend.name cfg.system st.insideSuite).1 with
      | none =>
        have he : workerStep cfg st =
            { st with
              suiteWorkers := swDec st
              pending := (pickJob st.pending (swDec st) cfg.backend.name cfg.system st.insideSuite).2
              job := none
              finished := true
              iter := st.iter + 1 } := by
          simp [workerStep, hfin, hbrk, hpk]
        rw [he]
        simp only [measure3]
        rw [pickJob_countSome_none hpk]
      | some j =>
        have he : workerStep cfg st = processJob cfg
            { st with
              suiteWorkers := swAdd (swDec st) (swKey j) 1
              pending := (pickJob st.pending (swDec st) cfg.backend.name cfg.system st.insideSuite).2
              job := some j
              iter := st.iter + 1 } j := by
          simp [workerStep, hfin, hbrk, hpk]
        rw [he]
        have hp := processJob_props cfg
          { st with
            suiteWorkers := swAdd (swDec st) (swKey j) 1
            pending := (pickJob st.pending (swDec st) cfg.backend.name cfg.system st.insideSuite).2
            job := some j
            iter := st.iter + 1 } j hres
        have hcount := pickJob_countSome_some hpk
        simp only [measure3, hp.1, hp.2]
        omega

theorem workerLoop_measure (cfg : WorkerCfg) (hres : cfg.options.restore = false) :
    ∀ (n : Nat) (st : WState), measure3 (workerLoop cfg n st) = measure3 st := by
  intro n
  induction n with
  | zero => intro st; rfl
  | succ m ih =>
    intro st
    rw [workerLoop]
    split
    · rfl
    · rw [ih, workerStep_measure cfg st hres]

theorem unwindSuite_props (cfg : WorkerCfg) (st : WState) :
    (unwindSuite cfg st).pending = st.pending ∧
    sum3 (unwindSuite cfg st).stats = sum3 st.stats := by
  rcases hs : st.insideSuite with _ | s
  · simp [unwindSuite, hs]
  · by_cases ha : st.abend = true
    · simp [unwindSuite, hs, ha]
    · by_cases hr : (doRun cfg st (lastJ st) Verb.restoring (Ctx.suite s) s.restore).1 = true
      · refine ⟨?_, ?_⟩ <;>
          simp [unwindSuite, hs, ha, hr, doRun_stats, doRun_pending, sum3]
      · refine ⟨?_, ?_⟩ <;>
          simp [unwindSuite, hs, ha, hr, doRun_stats, doRun_pending, sum3, addSuiteRestoreError]

theorem unwindBackend_props (cfg : WorkerCfg) (st : WState) :
    (unwindBackend cfg st).pending = st.pending ∧
    sum3 (unwindBackend cfg st).stats = sum3 st.stats := by
  by_cases hg : (!st.abend && st.insideBackend) = true
  · by_cases hr : (doRun cfg st (lastJ st) Verb.restoring Ctx.backend cfg.backend.restore).1 = true
    · refine ⟨?_, ?_⟩ <;>
        simp [unwindBackend, hg, hr, doRun_stats, doRun_pending, sum3]
    · refine ⟨?_, ?_⟩ <;>
        simp [unwindBackend, hg, hr, doRun_stats, doRun_pending, sum3, addBackendRestoreError]
  · simp [unwindBackend, hg]

theorem unwindProject_props (cfg : WorkerCfg) (st : WState) :
    (unwindProject cfg st).pending = st.pending ∧
    sum3 (unwindProject cfg st).stats = sum3 st.stats := by
  by_cases hg : (!st.abend && st.insideProject) = true
  · by_cases hr : (doRun cfg st (lastJ st) Verb.restoring Ctx.project cfg.project.restore).1 = true
    · refine ⟨?_, ?_⟩ <;>
        simp [unwindProject, hg, hr, doRun_stats, doRun_pending, sum3]
    · refine ⟨?_, ?_⟩ <;>
        simp [unwindProject, hg, hr, doRun_stats, doRun_pending, sum3, addProjectRestoreError]
  · simp [unwindProject, hg]

theorem unwind_measure (cfg : WorkerCfg) (st : WState) :
    measure3 (unwind cfg st) = measure3 st := by
  have h1 := unwindSuite_props cfg st
  have h2 := unwindBackend_props cfg (unwindSuite cfg st)
  have h3 := unwindProject_props cfg (unwindBackend cfg (unwindSuite cfg st))
  simp only [unwind, measure3, h3.1, h3.2, h2.1, h2.2, h1.1, h1.2]

theorem workerOn_measure (cfg : WorkerCfg) (hc : Bool) (sh : SharedState)
    (hres : cfg.options.restore = false) :
    measureSh (workerOn cfg hc sh) = measureSh sh := by
  cases hc with
  | false => rfl
  | true =>
    show measureSh
      { pending := (runWorker cfg sh.pending sh.suiteWorkers sh.stats).pending
        suiteWorkers := (runWorker cfg sh.pending sh.suiteWorkers sh.stats).suiteWorkers
        stats := (runWorker cfg sh.pending sh.suiteWorkers sh.stats).stats } = measureSh sh
    have h : measure3 (runWorker cfg sh.pending sh.suiteWorkers sh.stats) =
        measure3 (initWState sh.pending sh.suiteWorkers sh.stats) := by
      unfold runWorker
      rw [unwind_measure, workerLoop_measure cfg hres]
    simpa [measureSh, measure3, initWState] using h

theorem runWorkers_measure (workers : List (WorkerCfg × Bool)) :
    ∀ sh : SharedState,
      (∀ w ∈ workers, w.1.options.restore = false) →
      measureSh (runWorkers workers sh) = measureSh sh := by
  induction workers with
  | nil => intro sh _; rfl
  | cons w rest ih =>
    intro sh hres
    obtain ⟨cfg, hc⟩ := w
    rw [runWorkers, ih _ (fun w hw => hres w (List.mem_cons_of_mem _ hw)),
      workerOn_measure cfg hc sh (hres _ (List.mem_cons_self _ _))]

theorem length_filterMap_id (l : List (Option JobC)) :
    (l.filterMap id).length = countSome l := by
  induction l with
  | nil => rfl
  | cons x t ih =>
    cases x with
    | none => simpa [countSome] using ih
    | some j => simpa [countSome] using ih

theorem countSome_map_some (l : List JobC) : countSome (l.map some) = l.length := by
  induction l with
  | nil => rfl
  | cons x t ih => simpa [countSome] using ih

/-- C1 amended: for every completed run whose workers all have
`options.restore` unset, `|TaskDone| + |TaskError| + |TaskAbort|` equals
the number of input jobs.  (The spec's four-way sum additionally counts
`TaskPrepareError`, whose jobs are also recorded in `TaskAbort`, so that
sum equals `|inputJobs| + |TaskPrepareError|`.) -/
theorem stats_conservation_amended (workers : List (WorkerCfg × Bool))
    (pending : List JobC)
    (hres : ∀ w ∈ workers, w.1.options.restore = false) :
    (runAll workers pending).stats.TaskDone.length +
      (runAll workers pending).stats.TaskError.length +
      (runAll workers pending).stats.TaskAbort.length = pending.length := by
  have hrw := runWorkers_measure workers
    { pending := pending.map some, suiteWorkers := [], stats := emptyStats } hres
  unfold runAll deferredAborts
  simp only [measureSh, countSome_map_some] at hrw
  have h0 : sum3 emptyStats = 0 := rfl
  rw [h0] at hrw
  simp only [sum3] at hrw
  simp only [sum3, List.length_append, length_filterMap_id]
  omega

/-- Witness for C1 at a concrete input: one worker, one fully
successful job. -/
theorem stats_conservation_amended_witness :
    (∀ w ∈ [(cxCfg false 1000, true)], w.1.options.restore = false) ∧
    (runAll [(cxCfg false 1000, true)] [cxJob]).stats.TaskDone.length +
      (runAll [(cxCfg false 1000, true)] [cxJob]).stats.TaskError.length +
      (runAll [(cxCfg false 1000, true)] [cxJob]).stats.TaskAbort.length =
      ([cxJob] : List JobC).length :=
  ⟨by decide, stats_conservation_amended _ _ (by decide)⟩

theorem hasPrepExec_append (tr d : List Act) :
    hasPrepExec (tr ++ d) = (hasPrepExec tr || hasPrepExec d) := by
  simp [hasPrepExec, List.any_append]

theorem runScript_restoring_hasPrepExec (opts : OptionsC) (rp : String)
    (a : JobC) (ctx : Ctx) (script : String) (outcomes : Nat → Bool)
    (k : Nat) (abend : Bool) :
    hasPrepExec (runScript opts rp a Verb.restoring ctx script outcomes k abend).acts = false := by
  by_cases he : (trimSpace script).isEmpty = true
  · simp [runScript, he, hasPrepExec, actVerb]
  · simp only [runScript]
    rw [if_neg he]
    repeat' split
    all_goals simp [hasPrepExec, actVerb]

theorem doRun_restoring_hasPrepExec (cfg : WorkerCfg) (st : WState) (a : JobC)
    (ctx : Ctx) (script : String) :
    hasPrepExec (doRun cfg st a Verb.restoring ctx script).2.trace = hasPrepExec st.trace := by
  show hasPrepExec (st.trace ++ _) = _
  rw [hasPrepExec_append, runScript_restoring_hasPrepExec]
  simp

theorem suiteSwitch_hasPrepExec (cfg : WorkerCfg) (st : WState) (j : JobC) :
    hasPrepExec (suiteSwitch cfg st j).1.trace = hasPrepExec st.trace := by
  rcases hs : st.insideSuite with _ | s
  · simp [suiteSwitch, hs]
  · by_cases hsj : s = j.suite
    · simp [suiteSwitch, hs, hsj]
    · by_cases hr : (doRun cfg st (lastJ st) Verb.restoring (Ctx.suite s) s.restore).1 = true
      · simpa [suiteSwitch, hs, hsj, hr] using
          doRun_restoring_hasPrepExec cfg st (lastJ st) (Ctx.suite s) s.restore
      · simpa [suiteSwitch, hs, hsj, hr, addTaskAbort, addSuiteRestoreError] using
          doRun_restoring_hasPrepExec cfg st (lastJ st) (Ctx.suite s) s.restore

theorem taskRestoreStep_hasPrepExec (cfg : WorkerCfg) (st : WState) (j : JobC) :
    hasPrepExec (taskRestoreStep cfg st j).trace = hasPrepExec st.trace := by
  by_cases ha : st.abend = true
  · simp [taskRestoreStep, ha]
  · by_cases hr : (doRun cfg st j Verb.restoring (Ctx.task j) j.task.restore).1 = true
    · simpa [taskRestoreStep, ha, hr] using
        doRun_restoring_hasPrepExec cfg st j (Ctx.task j) j.task.restore
    · simpa [taskRestoreStep, ha, hr, addTaskRestoreError] using
        doRun_restoring_hasPrepExec cfg st j (Ctx.task j) j.task.restore

theorem enterBackend_restoreEq (cfg : WorkerCfg) (st : WState) (j : JobC)
    (hres : cfg.options.restore = true) :
    enterBackend cfg st j = ({ st with insideBackend := true }, true) := by
  simp [enterBackend, hres]

theorem enterProject_restoreEq (cfg : WorkerCfg) (st : WState) (j : JobC)
    (hres : cfg.options.restore = true) :
    enterProject cfg st j =
      if st.insideProject then (st, true)
      else ({ st with insideProject := true, insideBackend := true }, true) := by
  by_cases hip : st.insideProject = true
  · simp [enterProject, hip]
  · simp [enterProject, hip, hres, enterBackend]

theorem enterSuite_restoreEq (cfg : WorkerCfg) (st : WState) (j : JobC)
    (hres : cfg.options.restore = true) :
    enterSuite cfg st j =
      if st.insideSuite = some j.suite then (st, true)
      else ({ st with insideSuite := some j.suite }, true) := by
  by_cases his : st.insideSuite = some j.suite
  · simp [enterSuite, his]
  · simp [enterSuite, his, hres]

theorem taskRun_restoreEq (cfg : WorkerCfg) (st : WState) (j : JobC)
    (hres : cfg.options.restore = true) :
    taskRun cfg st j = st := by
  simp [taskRun, hres]

theorem processJob_hasPrepExec (cfg : WorkerCfg) (st : WState) (j : JobC)
    (hres : cfg.options.restore = true) :
    hasPrepExec (processJob cfg st j).trace = hasPrepExec st.trace := by
  by_cases hbad : j.suite ∈ st.badSuite
  · simp [processJob, hbad, addTaskAbort]
  · by_cases hc1 : (suiteSwitch cfg st j).2 = true
    · have he : processJob cfg st j = taskBody cfg (enterSuite cfg
          (enterProject cfg { (suiteSwitch cfg st j).1 with last := some j } j).1 j).1 j := by
        have h2 := enterProject_restoreEq cfg { (suiteSwitch cfg st j).1 with last := some j } j hres
        have hc2 : (enterProject cfg { (suiteSwitch cfg st j).1 with last := some j } j).2 = true := by
          rw [h2]
          split <;> rfl
        have h3 := enterSuite_restoreEq cfg
          (enterProject cfg { (suiteSwitch cfg st j).1 with last := some j } j).1 j hres
        have hc3 : (enterSuite cfg
            (enterProject cfg { (suiteSwitch cfg st j).1 with last := some j } j).1 j).2 = true := by
          rw [h3]
          split <;> rfl
        simp [processJob, hbad, hc1, hc2, hc3]
      rw [he]
      unfold taskBody
      rw [taskRun_restoreEq cfg _ j hres, taskRestoreStep_hasPrepExec]
      have h3 := enterSuite_restoreEq cfg
        (enterProject cfg { (suiteSwitch cfg st j).1 with last := some j } j).1 j hres
      have h2 := enterProject_restoreEq cfg { (suiteSwitch cfg st j).1 with last := some j } j hres
      have htr3 : (enterSuite cfg
          (enterProject cfg { (suiteSwitch cfg st j).1 with last := some j } j).1 j).1.trace =
          (enterProject cfg { (suiteSwitch cfg st j).1 with last := some j } j).1.trace := by
        rw [h3]
        split <;> rfl
      have htr2 : (enterProject cfg { (suiteSwitch cfg st j).1 with last := some j } j).1.trace =
          (suiteSwitch cfg st j).1.trace := by
        rw [h2]
        split <;> rfl
      rw [htr3, htr2]
      exact suiteSwitch_hasPrepExec cfg st j
    · have he : processJob cfg st j = (suiteSwitch cfg st j).1 := by
        simp [processJob, hbad, hc1]
      rw [he]
      exact suiteSwitch_hasPrepExec cfg st j

theorem workerStep_hasPrepExec (cfg : WorkerCfg) (st : WState)
    (hres : cfg.options.restore = true) :
    hasPrepExec (workerStep cfg st).trace = hasPrepExec st.trace := by
  by_cases hfin : st.finished = true
  · simp [workerStep, hfin]
  · by_cases hbrk : (st.badProject || st.abend || !(cfg.tombAlive st.iter)) = true
    · simp [workerStep, hfin, hbrk]
    · cases hpk : (pickJob st.pending (swDec st) cfg.backend.name cfg.system st.insideSuite).1 with
      | none => simp [workerStep, hfin, hbrk, hpk]
      | some j =>
        have he : workerStep cfg st = processJob cfg
            { st with
              suiteWorkers := swAdd (swDec st) (swKey j) 1
              pending := (pickJob st.pending (swDec st) cfg.backend.name cfg.system st.insideSuite).2
              job := some j
              iter := st.iter + 1 } j := by
          simp [workerStep, hfin, hbrk, hpk]
        rw [he, processJob_hasPrepExec cfg _ j hres]

theorem workerLoop_hasPrepExec (cfg : WorkerCfg) (hres : cfg.options.restore = true) :
    ∀ (n : Nat) (st : WState),
      hasPrepExec (workerLoop cfg n st).trace = hasPrepExec st.trace := by
  intro n
  induction n with
  | zero => intro st; rfl
  | succ m ih =>
    intro st
    rw [workerLoop]
    split
    · rfl
    · rw [ih, workerStep_hasPrepExec cfg st hres]

theorem unwindSuite_hasPrepExec (cfg : WorkerCfg) (st : WState) :
    hasPrepExec (unwindSuite cfg st).trace = hasPrepExec st.trace := by
  rcases hs : st.insideSuite with _ | s
  · simp [unwindSuite, hs]
  · by_cases ha : st.abend = true
    · simp [unwindSuite, hs, ha]
    · by_cases hr : (doRun cfg st (lastJ st) Verb.restoring (Ctx.suite s) s.restore).1 = true
      · simpa [unwindSuite, hs, ha, hr] using
          doRun_restoring_hasPrepExec cfg st (lastJ st) (Ctx.suite s) s.restore
      · simpa [unwindSuite, hs, ha, hr, addSuiteRestoreError] using
          doRun_restoring_hasPrepExec cfg st (lastJ st) (Ctx.suite s) s.restore

theorem unwindBackend_hasPrepExec (cfg : WorkerCfg) (st : WState) :
    hasPrepExec (unwindBackend cfg st).trace = hasPrepExec st.trace := by
  by_cases hg : (!st.abend && st.insideBackend) = true
  · by_cases hr : (doRun cfg st (lastJ st) Verb.restoring Ctx.backend cfg.backend.restore).1 = true
    · simpa [unwindBackend, hg, hr] using
        doRun_restoring_hasPrepExec cfg st (lastJ st) Ctx.backend cfg.backend.restore
    · simpa [unwindBackend, hg, hr, addBackendRestoreError] using
        doRun_restoring_hasPrepExec cfg st (lastJ st) Ctx.backend cfg.backend.restore
  · simp [unwindBackend, hg]

theorem unwindProject_hasPrepExec (cfg : WorkerCfg) (st : WState) :
    hasPrepExec (unwindProject cfg st).trace = hasPrepExec st.trace := by
  by_cases hg : (!st.abend && st.insideProject) = true
  · by_cases hr : (doRun cfg st (lastJ st) Verb.restoring Ctx.project cfg.project.restore).1 = true
    · simpa [unwindProject, hg, hr] using
        doRun_restoring_hasPrepExec cfg st (lastJ st) Ctx.project cfg.project.restore
    · simpa [unwindProject, hg, hr, addProjectRestoreError] using
        doRun_restoring_hasPrepExec cfg st (lastJ st) Ctx.project cfg.project.restore
  · simp [unwindProject, hg]

theorem invokedV_append (v : Verb) (c : Ctx) (tr d : List Act) :
    invokedV v c (tr ++ d) = (invokedV v c tr || invokedV v c d) := by
  simp [invokedV, List.any_append]

theorem runScript_invoked (opts : OptionsC) (rp : String) (a : JobC) (v : Verb)
    (ctx : Ctx) (script : String) (outcomes : Nat → Bool) (k : Nat) (abend : Bool) :
    invokedV v ctx (runScript opts rp a v ctx script outcomes k abend).acts = true := by
  by_cases he : (trimSpace script).isEmpty = true
  · simp [runScript, he, invokedV, isInvOf]
  · simp only [runScript]
    rw [if_neg he]
    repeat' split
    all_goals simp [invokedV, isInvOf]

theorem doRun_invoked (cfg : WorkerCfg) (st : WState) (a : JobC) (v : Verb)
    (ctx : Ctx) (script : String) :
    invokedV v ctx (doRun cfg st a v ctx script).2.trace = true := by
  show invokedV v ctx (st.trace ++ _) = true
  rw [invokedV_append, runScript_invoked]
  simp

theorem unwindSuite_abend (cfg : WorkerCfg) (st : WState)
    (h : (unwindSuite cfg st).abend = false) : st.abend = false := by
  cases habend : st.abend
  · rfl
  · exfalso
    rcases hs : st.insideSuite with _ | s <;> simp [unwindSuite, hs, habend] at h

theorem unwindBackend_abend (cfg : WorkerCfg) (st : WState)
    (h : (unwindBackend cfg st).abend = false) : st.abend = false := by
  cases habend : st.abend
  · rfl
  · exfalso
    simp [unwindBackend, habend] at h

theorem unwindProject_abend (cfg : WorkerCfg) (st : WState)
    (h : (unwindProject cfg st).abend = false) : st.abend = false := by
  cases habend : st.abend
  · rfl
  · exfalso
    simp [unwindProject, habend] at h

theorem unwindSuite_insideProject (cfg : WorkerCfg) (st : WState) :
    (unwindSuite cfg st).insideProject = st.insideProject := by
  rcases hs : st.insideSuite with _ | s
  · simp [unwindSuite, hs]
  · by_cases ha : st.abend = true
    · simp [unwindSuite, hs, ha]
    · by_cases hr : (doRun cfg st (lastJ st) Verb.restoring (Ctx.suite s) s.restore).1 = true <;>
        simp [unwindSuite, hs, ha, hr, addSuiteRestoreError, doRun_insideProject]

theorem unwindSuite_insideBackend (cfg : WorkerCfg) (st : WState) :
    (unwindSuite cfg st).insideBackend = st.insideBackend := by
  rcases hs : st.insideSuite with _ | s
  · simp [unwindSuite, hs]
  · by_cases ha : st.abend = true
    · simp [unwindSuite, hs, ha]
    · by_cases hr : (doRun cfg st (lastJ st) Verb.restoring (Ctx.suite s) s.restore).1 = true <;>
        simp [unwindSuite, hs, ha, hr, addSuiteRestoreError, doRun_insideBackend]

theorem unwindBackend_insideProject (cfg : WorkerCfg) (st : WState) :
    (unwindBackend cfg st).insideProject = st.insideProject := by
  by_cases hg : (!st.abend && st.insideBackend) = true
  · by_cases hr : (doRun cfg st (lastJ st) Verb.restoring Ctx.backend cfg.backend.restore).1 = true <;>
      simp [unwindBackend, hg, hr, addBackendRestoreError, doRun_insideProject]
  · simp [unwindBackend, hg]

theorem unwindBackend_trace_ext (cfg : WorkerCfg) (st : WState) :
    ∃ d, (unwindBackend cfg st).trace = st.trace ++ d := by
  by_cases hg : (!st.abend && st.insideBackend) = true
  · refine ⟨(runScript cfg.options cfg.project.remotePath (lastJ st) Verb.restoring
      Ctx.backend cfg.backend.restore cfg.outcomes st.k st.abend).acts, ?_⟩
    by_cases hr : (doRun cfg st (lastJ st) Verb.restoring Ctx.backend cfg.backend.restore).1 = true <;>
      simp [unwindBackend, hg, hr, addBackendRestoreError, doRun_trace]
  · exact ⟨[], by simp [unwindBackend, hg]⟩

theorem unwindProject_trace_ext (cfg : WorkerCfg) (st : WState) :
    ∃ d, (unwindProject cfg st).trace = st.trace ++ d := by
  by_cases hg : (!st.abend && st.insideProject) = true
  · refine ⟨(runScript cfg.options cfg.project.remotePath (lastJ st) Verb.restoring
      Ctx.project cfg.project.restore cfg.outcomes st.k st.abend).acts, ?_⟩
    by_cases hr : (doRun cfg st (lastJ st) Verb.restoring Ctx.project cfg.project.restore).1 = true <;>
      simp [unwindProject, hg, hr, addProjectRestoreError, doRun_trace]
  · exact ⟨[], by simp [unwindProject, hg]⟩

theorem unwindSuite_invokes (cfg : WorkerCfg) (st : WState) (s : SuiteC)
    (hs : st.insideSuite = some s) (ha : st.abend = false) :
    invokedV Verb.restoring (Ctx.suite s) (unwindSuite cfg st).trace = true := by
  by_cases hr : (doRun cfg st (lastJ st) Verb.restoring (Ctx.suite s) s.restore).1 = true
  · simpa [unwindSuite, hs, ha, hr] using
      doRun_invoked cfg st (lastJ st) Verb.restoring (Ctx.suite s) s.restore
  · simpa [unwindSuite, hs, ha, hr, addSuiteRestoreError] using
      doRun_invoked cfg st (lastJ st) Verb.restoring (Ctx.suite s) s.restore

theorem unwindBackend_invokes (cfg : WorkerCfg) (st : WState)
    (hb : st.insideBackend = true) (ha : st.abend = false) :
    invokedV Verb.restoring Ctx.backend (unwindBackend cfg st).trace = true := by
  by_cases hr : (doRun cfg st (lastJ st) Verb.restoring Ctx.backend cfg.backend.restore).1 = true
  · simpa [unwindBackend, hb, ha, hr] using
      doRun_invoked cfg st (lastJ st) Verb.restoring Ctx.backend cfg.backend.restore
  · simpa [unwindBackend, hb, ha, hr, addBackendRestoreError] using
      doRun_invoked cfg st (lastJ st) Verb.restoring Ctx.backend cfg.backend.restore

theorem unwindProject_invokes (cfg : WorkerCfg) (st : WState)
    (hp : st.insideProject = true) (ha : st.abend = false) :
    invokedV Verb.restoring Ctx.project (unwindProject cfg st).trace = true := by
  by_cases hr : (doRun cfg st (lastJ st) Verb.restoring Ctx.project cfg.project.restore).1 = true
  · simpa [unwindProject, hp, ha, hr] using
      doRun_invoked cfg st (lastJ st) Verb.restoring Ctx.project cfg.project.restore
  · simpa [unwindProject, hp, ha, hr, addProjectRestoreError] using
      doRun_invoked cfg st (lastJ st) Verb.restoring Ctx.project cfg.project.restore

/-- C3 amended: under `options.restore` the prepare and execute phases
are indeed skipped (no preparing or executing invocation anywhere), but
the inside flags are still set while processing jobs, so at worker exit
the unwind *does* run the suite, backend and project restore scripts for
the levels marked entered (unless `abend` was set). -/
theorem restore_mode_amended (cfg : WorkerCfg) (pending : List (Option JobC))
    (sw : List ((String × String × String) × Int)) (stats : StatsC)
    (hres : cfg.options.restore = true) :
    hasPrepExec (runWorker cfg pending sw stats).trace = false ∧
    ((runWorker cfg pending sw stats).abend = false →
      ((workerLoop cfg (countSome pending + 1) (initWState pending sw stats)).insideProject = true →
        invokedV Verb.restoring Ctx.project (runWorker cfg pending sw stats).trace = true) ∧
      ((workerLoop cfg (countSome pending + 1) (initWState pending sw stats)).insideBackend = true →
        invokedV Verb.restoring Ctx.backend (runWorker cfg pending sw stats).trace = true) ∧
      (∀ s, (workerLoop cfg (countSome pending + 1) (initWState pending sw stats)).insideSuite = some s →
        invokedV Verb.restoring (Ctx.suite s) (runWorker cfg pending sw stats).trace = true)) := by
  constructor
  · show hasPrepExec (unwind cfg (workerLoop cfg (countSome pending + 1)
      (initWState pending sw stats))).trace = false
    unfold unwind
    rw [unwindProject_hasPrepExec, unwindBackend_hasPrepExec, unwindSuite_hasPrepExec,
      workerLoop_hasPrepExec cfg hres]
    rfl
  · intro hab
    have hab2 : (unwindBackend cfg (unwindSuite cfg (workerLoop cfg (countSome pending + 1)
        (initWState pending sw stats)))).abend = false :=
      unwindProject_abend _ _ hab
    have hab1 : (unwindSuite cfg (workerLoop cfg (countSome pending + 1)
        (initWState pending sw stats))).abend = false :=
      unwindBackend_abend _ _ hab2
    have hab0 : (workerLoop cfg (countSome pending + 1)
        (initWState pending sw stats)).abend = false :=
      unwindSuite_abend _ _ hab1
    refine ⟨?_, ?_, ?_⟩
    · intro hip
      show invokedV Verb.restoring Ctx.project (unwindProject cfg (unwindBackend cfg
        (unwindSuite cfg (workerLoop cfg (countSome pending + 1)
          (initWState pending sw stats))))).trace = true
      refine unwindProject_invokes cfg _ ?_ hab2
      rw [unwindBackend_insideProject, unwindSuite_insideProject]
      exact hip
    · intro hib
      show invokedV Verb.restoring Ctx.backend (unwindProject cfg (unwindBackend cfg
        (unwindSuite cfg (workerLoop cfg (countSome pending + 1)
          (initWState pending sw stats))))).trace = true
      obtain ⟨d, hd⟩ := unwindProject_trace_ext cfg (unwindBackend cfg
        (unwindSuite cfg (workerLoop cfg (countSome pending + 1) (initWState pending sw stats))))
      rw [hd, invokedV_append]
      have : invokedV Verb.restoring Ctx.backend (unwindBackend cfg
          (unwindSuite cfg (workerLoop cfg (countSome pending + 1)
            (initWState pending sw stats)))).trace = true := by
        refine unwindBackend_invokes cfg _ ?_ hab1
        rw [unwindSuite_insideBackend]
        exact hib
      rw [this]
      rfl
    · intro s hsuite
      show invokedV Verb.restoring (Ctx.suite s) (unwindProject cfg (unwindBackend cfg
        (unwindSuite cfg (workerLoop cfg (countSome pending + 1)
          (initWState pending sw stats))))).trace = true
      obtain ⟨d2, hd2⟩ := unwindProject_trace_ext cfg (unwindBackend cfg
        (unwindSuite cfg (workerLoop cfg (countSome pending + 1) (initWState pending sw stats))))
      obtain ⟨d1, hd1⟩ := unwindBackend_trace_ext cfg
        (unwindSuite cfg (workerLoop cfg (countSome pending + 1) (initWState pending sw stats)))
      rw [hd2, hd1, invokedV_append, invokedV_append]
      have : invokedV Verb.restoring (Ctx.suite s) (unwindSuite cfg (workerLoop cfg
          (countSome pending + 1) (initWState pending sw stats))).trace = true :=
        unwindSuite_invokes cfg _ s hsuite hab0
      rw [this]
      rfl

/-- Witness for C3 at a concrete input: restore mode, one job, all
scripts succeed. -/
theorem restore_mode_amended_witness :
    ((cxCfg true 1000).options.restore = true) ∧
    (hasPrepExec (runWorker (cxCfg true 1000) [some cxJob] [] emptyStats).trace = false ∧
    ((runWorker (cxCfg true 1000) [some cxJob] [] emptyStats).abend = false →
      ((workerLoop (cxCfg true 1000) (countSome [some cxJob] + 1)
          (initWState [some cxJob] [] emptyStats)).insideProject = true →
        invokedV Verb.restoring Ctx.project
          (runWorker (cxCfg true 1000) [some cxJob] [] emptyStats).trace = true) ∧
      ((workerLoop (cxCfg true 1000) (countSome [some cxJob] + 1)
          (initWState [some cxJob] [] emptyStats)).insideBackend = true →
        invokedV Verb.restoring Ctx.backend
          (runWorker (cxCfg true 1000) [some cxJob] [] emptyStats).trace = true) ∧
      (∀ s, (workerLoop (cxCfg true 1000) (countSome [some cxJob] + 1)
          (initWState [some cxJob] [] emptyStats)).insideSuite = some s →
        invokedV Verb.restoring (Ctx.suite s)
          (runWorker (cxCfg true 1000) [some cxJob] [] emptyStats).trace = true))) :=
  ⟨by decide, restore_mode_amended (cxCfg true 1000) [some cxJob] [] emptyStats (by decide)⟩

theorem prepAttemptedSince_append (c : Ctx) (tr d : List Act) :
    prepAttemptedSince c (tr ++ d) =
      List.foldl (attemptStep c) (prepAttemptedSince c tr) d := by
  simp [prepAttemptedSince, List.foldl_append]

theorem foldl_attemptStep_runScript_other (c : Ctx) (opts : OptionsC) (rp : String)
    (a : JobC) (v : Verb) (c' : Ctx) (script : String) (o : Nat → Bool) (k : Nat)
    (ab : Bool) (h : c' ≠ c) (acc : Bool) :
    List.foldl (attemptStep c) acc (runScript opts rp a v c' script o k ab).acts = acc := by
  by_cases he : (trimSpace script).isEmpty = true
  · cases v <;> simp [runScript, he, attemptStep, h]
  · simp only [runScript]
    rw [if_neg he]
    repeat' split
    all_goals cases v <;> simp [attemptStep, h]

theorem foldl_attemptStep_runScript_prep (c : Ctx) (opts : OptionsC) (rp : String)
    (a : JobC) (script : String) (o : Nat → Bool) (k : Nat) (ab : Bool) (acc : Bool) :
    List.foldl (attemptStep c) acc
      (runScript opts rp a Verb.preparing c script o k ab).acts = true := by
  by_cases he : (trimSpace script).isEmpty = true
  · simp [runScript, he, attemptStep]
  · simp only [runScript]
    rw [if_neg he]
    repeat' split
    all_goals simp_all [attemptStep]

theorem foldl_attemptStep_runScript_restore_notok (c : Ctx) (opts : OptionsC)
    (rp : String) (a : JobC) (script : String) (o : Nat → Bool) (k : Nat) (ab : Bool)
    (acc : Bool) (h : (runScript opts rp a Verb.restoring c script o k ab).ok = false) :
    List.foldl (attemptStep c) acc
      (runScript opts rp a Verb.restoring c script o k ab).acts = acc := by
  by_cases he : (trimSpace script).isEmpty = true
  · exfalso
    simp [runScript, he] at h
  · simp only [runScript] at h ⊢
    rw [if_neg he] at h ⊢
    by_cases ho : o k = true
    · exfalso
      simp [ho] at h
    · by_cases hd : opts.debug = true <;> simp [ho, hd, attemptStep]

theorem prepAttempted_doRun_other (c : Ctx) (cfg : WorkerCfg) (st : WState)
    (a : JobC) (v : Verb) (c' : Ctx) (script : String) (h : c' ≠ c) :
    prepAttemptedSince c (doRun cfg st a v c' script).2.trace =
      prepAttemptedSince c st.trace := by
  rw [doRun_trace, prepAttemptedSince_append,
    foldl_attemptStep_runScript_other c _ _ _ _ _ _ _ _ _ h]

theorem prepAttempted_doRun_prep (c : Ctx) (cfg : WorkerCfg) (st : WState)
    (a : JobC) (script : String) :
    prepAttemptedSince c (doRun cfg st a Verb.preparing c script).2.trace = true := by
  rw [doRun_trace, prepAttemptedSince_append, foldl_attemptStep_runScript_prep]

theorem prepAttempted_doRun_restore_fail (c : Ctx) (cfg : WorkerCfg) (st : WState)
    (a : JobC) (script : String)
    (h : (doRun cfg st a Verb.restoring c script).1 = false) :
    prepAttemptedSince c (doRun cfg st a Verb.restoring c script).2.trace =
      prepAttemptedSince c st.trace := by
  rw [doRun_trace, prepAttemptedSince_append,
    foldl_attemptStep_runScript_restore_notok c _ _ _ _ _ _ _ _ h]

theorem suiteSwitch_insideInv (cfg : WorkerCfg) (st : WState) (j : JobC)
    (h : insideInv st) : insideInv (suiteSwitch cfg st j).1 := by
  obtain ⟨hP, hB, hS⟩ := h
  rcases hs : st.insideSuite with _ | s
  · have he : (suiteSwitch cfg st j).1 = st := by simp [suiteSwitch, hs]
    rw [he]
    exact ⟨hP, hB, hS⟩
  · by_cases hsj : s = j.suite
    · have he : (suiteSwitch cfg st j).1 = st := by simp [suiteSwitch, hs, hsj]
      rw [he]
      exact ⟨hP, hB, hS⟩
    · by_cases hr : (doRun cfg st (lastJ st) Verb.restoring (Ctx.suite s) s.restore).1 = true
      · have he : (suiteSwitch cfg st j).1 =
            { (doRun cfg st (lastJ st) Verb.restoring (Ctx.suite s) s.restore).2 with
              insideSuite := none } := by
          simp [suiteSwitch, hs, hsj, hr]
        rw [he]
        refine ⟨?_, ?_, ?_⟩
        · intro hp
          show prepAttemptedSince Ctx.project
            (doRun cfg st (lastJ st) Verb.restoring (Ctx.suite s) s.restore).2.trace = true
          rw [prepAttempted_doRun_other _ _ _ _ _ _ _ (by simp)]
          exact hP hp
        · intro hb
          show prepAttemptedSince Ctx.backend
            (doRun cfg st (lastJ st) Verb.restoring (Ctx.suite s) s.restore).2.trace = true
          rw [prepAttempted_doRun_other _ _ _ _ _ _ _ (by simp)]
          exact hB hb
        · intro s' hs'
          exact absurd hs' (by simp)
      · have he : (suiteSwitch cfg st j).1 =
            addTaskAbort (addSuiteRestoreError
              { (doRun cfg st (lastJ st) Verb.restoring (Ctx.suite s) s.restore).2 with
                badProject := true } (lastJ st)) j := by
          simp [suiteSwitch, hs, hsj, hr]
        rw [he]
        have hok : (doRun cfg st (lastJ st) Verb.restoring (Ctx.suite s) s.restore).1 = false := by
          rw [← Bool.not_eq_true]
          exact hr
        refine ⟨?_, ?_, ?_⟩
        · intro hp
          show prepAttemptedSince Ctx.project
            (doRun cfg st (lastJ st) Verb.restoring (Ctx.suite s) s.restore).2.trace = true
          rw [prepAttempted_doRun_other _ _ _ _ _ _ _ (by simp)]
          exact hP hp
        · intro hb
          show prepAttemptedSince Ctx.backend
            (doRun cfg st (lastJ st) Verb.restoring (Ctx.suite s) s.restore).2.trace = true
          rw [prepAttempted_doRun_other _ _ _ _ _ _ _ (by simp)]
          exact hB hb
        · intro s' hs'
          have hss : s' = s := by
            have : st.insideSuite = some s' := hs'
            rw [hs] at this
            exact (Option.some.inj this).symm
          subst hss
          show prepAttemptedSince (Ctx.suite s')
            (doRun cfg st (lastJ st) Verb.restoring (Ctx.suite s') s'.restore).2.trace = true
          rw [prepAttempted_doRun_restore_fail _ _ _ _ _ hok]
          exact hS s' hs

theorem enterBackend_insideInv (cfg : WorkerCfg) (st : WState) (j : JobC)
    (hres : cfg.options.restore = false)
    (hP : st.insideProject = true → prepAttemptedSince Ctx.project st.trace = true)
    (hS : ∀ s : SuiteC, st.insideSuite = some s →
      prepAttemptedSince (Ctx.suite s) st.trace = true) :
    insideInv (enterBackend cfg st j).1 := by
  by_cases hr : (doRun cfg { st with insideBackend := true } j Verb.preparing
      Ctx.backend cfg.backend.prepare).1 = true
  · have he : (enterBackend cfg st j).1 =
        (doRun cfg { st with insideBackend := true } j Verb.preparing
          Ctx.backend cfg.backend.prepare).2 := by
      simp [enterBackend, hres, hr]
    rw [he]
    refine ⟨?_, ?_, ?_⟩
    · intro hp
      rw [prepAttempted_doRun_other _ _ _ _ _ _ _ (by simp)]
      exact hP hp
    · intro _
      exact prepAttempted_doRun_prep Ctx.backend cfg _ j cfg.backend.prepare
    · intro s' hs'
      rw [prepAttempted_doRun_other _ _ _ _ _ _ _ (by simp)]
      exact hS s' hs'
  · have he : (enterBackend cfg st j).1 =
        addTaskAbort (addBackendPrepareError
          { (doRun cfg { st with insideBackend := true } j Verb.preparing
              Ctx.backend cfg.backend.prepare).2 with badProject := true } j) j := by
      simp [enterBackend, hres, hr]
    rw [he]
    refine ⟨?_, ?_, ?_⟩
    · intro hp
      show prepAttemptedSince Ctx.project
        (doRun cfg { st with insideBackend := true } j Verb.preparing
          Ctx.backend cfg.backend.prepare).2.trace = true
      rw [prepAttempted_doRun_other _ _ _ _ _ _ _ (by simp)]
      exact hP hp
    · intro _
      exact prepAttempted_doRun_prep Ctx.backend cfg _ j cfg.backend.prepare
    · intro s' hs'
      show prepAttemptedSince (Ctx.suite s')
        (doRun cfg { st with insideBackend := true } j Verb.preparing
          Ctx.backend cfg.backend.prepare).2.trace = true
      rw [prepAttempted_doRun_other _ _ _ _ _ _ _ (by simp)]
      exact hS s' hs'

theorem enterProject_insideInv (cfg : WorkerCfg) (st : WState) (j : JobC)
    (hres : cfg.options.restore = false) (h : insideInv st) :
    insideInv (enterProject cfg st j).1 := by
  obtain ⟨hP, hB, hS⟩ := h
  by_cases hip : st.insideProject = true
  · have he : (enterProject cfg st j).1 = st := by simp [enterProject, hip]
    rw [he]
    exact ⟨hP, hB, hS⟩
  · by_cases hr : (doRun cfg { st with insideProject := true } j Verb.preparing
        Ctx.project cfg.project.prepare).1 = true
    · have he : (enterProject cfg st j).1 =
          (enterBackend cfg (doRun cfg { st with insideProject := true } j
            Verb.preparing Ctx.project cfg.project.prepare).2 j).1 := by
        simp [enterProject, hip, hres, hr]
      rw [he]
      refine enterBackend_insideInv cfg _ j hres ?_ ?_
      · intro _
        exact prepAttempted_doRun_prep Ctx.project cfg _ j cfg.project.prepare
      · intro s' hs'
        show prepAttemptedSince (Ctx.suite s')
          (doRun cfg { st with insideProject := true } j Verb.preparing
            Ctx.project cfg.project.prepare).2.trace = true
        rw [prepAttempted_doRun_other _ _ _ _ _ _ _ (by simp)]
        exact hS s' hs'
    · have he : (enterProject cfg st j).1 =
          addTaskAbort (addProjectPrepareError
            { (doRun cfg { st with insideProject := true } j Verb.preparing
                Ctx.project cfg.project.prepare).2 with badProject := true } j) j := by
        simp [enterProject, hip, hres, hr]
      rw [he]
      refine ⟨?_, ?_, ?_⟩
      · intro _
        exact prepAttempted_doRun_prep Ctx.project cfg _ j cfg.project.prepare
      · intro hb
        show prepAttemptedSince Ctx.backend
          (doRun cfg { st with insideProject := true } j Verb.preparing
            Ctx.project cfg.project.prepare).2.trace = true
        rw [prepAttempted_doRun_other _ _ _ _ _ _ _ (by simp)]
        exact hB hb
      · intro s' hs'
        show prepAttemptedSince (Ctx.suite s')
          (doRun cfg { st with insideProject := true } j Verb.preparing
            Ctx.project cfg.project.prepare).2.trace = true
        rw [prepAttempted_doRun_other _ _ _ _ _ _ _ (by simp)]
        exact hS s' hs'

theorem enterSuite_insideInv (cfg : WorkerCfg) (st : WState) (j : JobC)
    (hres : cfg.options.restore = false) (h : insideInv st) :
    insideInv (enterSuite cfg st j).1 := by
  obtain ⟨hP, hB, hS⟩ := h
  by_cases his : st.insideSuite = some j.suite
  · have he : (enterSuite cfg st j).1 = st := by simp [enterSuite, his]
    rw [he]
    exact ⟨hP, hB, hS⟩
  · by_cases hr : (doRun cfg { st with insideSuite := some j.suite } j Verb.preparing
        (Ctx.suite j.suite) j.suite.prepare).1 = true
    · have he : (enterSuite cfg st j).1 =
          (doRun cfg { st with insideSuite := some j.suite } j Verb.preparing
            (Ctx.suite j.suite) j.suite.prepare).2 := by
        simp [enterSuite, his, hres, hr]
      rw [he]
      refine ⟨?_, ?_, ?_⟩
      · intro hp
        rw [prepAttempted_doRun_other _ _ _ _ _ _ _ (by simp)]
        exact hP hp
      · intro hb
        rw [prepAttempted_doRun_other _ _ _ _ _ _ _ (by simp)]
        exact hB hb
      · intro s' hs'
        have hss : s' = j.suite := by
          have h2 : (doRun cfg { st with insideSuite := some j.suite } j Verb.preparing
              (Ctx.suite j.suite) j.suite.prepare).2.insideSuite = some s' := hs'
          rw [doRun_insideSuite] at h2
          simp at h2
          exact h2.symm
        rw [hss]
        exact prepAttempted_doRun_prep (Ctx.suite j.suite) cfg _ j j.suite.prepare
    · have he : (enterSuite cfg st j).1 =
          addTaskAbort (addSuitePrepareError
            { (doRun cfg { st with insideSuite := some j.suite } j Verb.preparing
                (Ctx.suite j.suite) j.suite.prepare).2 with
              badSuite := st.badSuite ++ [j.suite] } j) j := by
        simp [enterSuite, his, hres, hr]
      rw [he]
      refine ⟨?_, ?_, ?_⟩
      · intro hp
        show prepAttemptedSince Ctx.project
          (doRun cfg { st with insideSuite := some j.suite } j Verb.preparing
            (Ctx.suite j.suite) j.suite.prepare).2.trace = true
        rw [prepAttempted_doRun_other _ _ _ _ _ _ _ (by simp)]
        exact hP hp
      · intro hb
        show prepAttemptedSince Ctx.backend
          (doRun cfg { st with insideSuite := some j.suite } j Verb.preparing
            (Ctx.suite j.suite) j.suite.prepare).2.trace = true
        rw [prepAttempted_doRun_other _ _ _ _ _ _ _ (by simp)]
        exact hB hb
      · intro s' hs'
        have hss : s' = j.suite := by
          have h2 : (addTaskAbort (addSuitePrepareError
              { (doRun cfg { st with insideSuite := some j.suite } j Verb.preparing
                  (Ctx.suite j.suite) j.suite.prepare).2 with
                badSuite := st.badSuite ++ [j.suite] } j) j).insideSuite = some s' := hs'
          simp [addTaskAbort, addSuitePrepareError, doRun_insideSuite] at h2
          exact h2.symm
        rw [hss]
        show prepAttemptedSince (Ctx.suite j.suite)
          (doRun cfg { st with insideSuite := some j.suite } j Verb.preparing
            (Ctx.suite j.suite) j.suite.prepare).2.trace = true
        exact prepAttempted_doRun_prep (Ctx.suite j.suite) cfg _ j j.suite.prepare

theorem taskRun_insideInv (cfg : WorkerCfg) (st : WState) (j : JobC)
    (h : insideInv st) : insideInv (taskRun cfg st j) := by
  obtain ⟨hP, hB, hS⟩ := h
  by_cases hres : cfg.options.restore = true
  · have he : taskRun cfg st j = st := by simp [taskRun, hres]
    rw [he]
    exact ⟨hP, hB, hS⟩
  · by_cases hr1 : (doRun cfg st j Verb.preparing (Ctx.task j) j.task.prepare).1 = true
    · by_cases hr2 : (doRun cfg (doRun cfg st j Verb.preparing (Ctx.task j) j.task.prepare).2
          j Verb.executing (Ctx.task j) j.task.execute).1 = true
      · have he : taskRun cfg st j = addTaskDone
            (doRun cfg (doRun cfg st j Verb.preparing (Ctx.task j) j.task.prepare).2
              j Verb.executing (Ctx.task j) j.task.execute).2 j := by
          simp [taskRun, hres, hr1, hr2]
        rw [he]
        refine ⟨?_, ?_, ?_⟩
        · intro hp
          show prepAttemptedSince Ctx.project
            (doRun cfg (doRun cfg st j Verb.preparing (Ctx.task j) j.task.prepare).2
              j Verb.executing (Ctx.task j) j.task.execute).2.trace = true
          rw [prepAttempted_doRun_other _ _ _ _ _ _ _ (by simp),
            prepAttempted_doRun_other _ _ _ _ _ _ _ (by simp)]
          exact hP hp
        · intro hb
          show prepAttemptedSince Ctx.backend
            (doRun cfg (doRun cfg st j Verb.preparing (Ctx.task j) j.task.prepare).2
              j Verb.executing (Ctx.task j) j.task.execute).2.trace = true
          rw [prepAttempted_doRun_other _ _ _ _ _ _ _ (by simp),
            prepAttempted_doRun_other _ _ _ _ _ _ _ (by simp)]
          exact hB hb
        · intro s' hs'
          show prepAttemptedSince (Ctx.suite s')
            (doRun cfg (doRun cfg st j Verb.preparing (Ctx.task j) j.task.prepare).2
              j Verb.executing (Ctx.task j) j.task.execute).2.trace = true
          rw [prepAttempted_doRun_other _ _ _ _ _ _ _ (by simp),
            prepAttempted_doRun_other _ _ _ _ _ _ _ (by simp)]
          exact hS s' hs'
      · have he : taskRun cfg st j = addTaskError
            (doRun cfg (doRun cfg st j Verb.preparing (Ctx.task j) j.task.prepare).2
              j Verb.executing (Ctx.task j) j.task.execute).2 j := by
          simp [taskRun, hres, hr1, hr2]
        rw [he]
        refine ⟨?_, ?_, ?_⟩
        · intro hp
          show prepAttemptedSince Ctx.project
            (doRun cfg (doRun cfg st j Verb.preparing (Ctx.task j) j.task.prepare).2
              j Verb.executing (Ctx.task j) j.task.execute).2.trace = true
          rw [prepAttempted_doRun_other _ _ _ _ _ _ _ (by simp),
            prepAttempted_doRun_other _ _ _ _ _ _ _ (by simp)]
          exact hP hp
        · intro hb
          show prepAttemptedSince Ctx.backend
            (doRun cfg (doRun cfg st j Verb.preparing (Ctx.task j) j.task.prepare).2
              j Verb.executing (Ctx.task j) j.task.execute).2.trace = true
          rw [prepAttempted_doRun_other _ _ _ _ _ _ _ (by simp),
            prepAttempted_doRun_other _ _ _ _ _ _ _ (by simp)]
          exact hB hb
        · intro s' hs'
          show prepAttemptedSince (Ctx.suite s')
            (doRun cfg (doRun cfg st j Verb.preparing (Ctx.task j) j.task.prepare).2
              j Verb.executing (Ctx.task j) j.task.execute).2.trace = true
          rw [prepAttempted_doRun_other _ _ _ _ _ _ _ (by simp),
            prepAttempted_doRun_other _ _ _ _ _ _ _ (by simp)]
          exact hS s' hs'
    · have he : taskRun cfg st j = addTaskAbort (addTaskPrepareError
          (doRun cfg st j Verb.preparing (Ctx.task j) j.task.prepare).2 j) j := by
        simp [taskRun, hres, hr1]
      rw [he]
      refine ⟨?_, ?_, ?_⟩
      · intro hp
        show prepAttemptedSince Ctx.project
          (doRun cfg st j Verb.preparing (Ctx.task j) j.task.prepare).2.trace = true
        rw [prepAttempted_doRun_other _ _ _ _ _ _ _ (by simp)]
        exact hP hp
      · intro hb
        show prepAttemptedSince Ctx.backend
          (doRun cfg st j Verb.preparing (Ctx.task j) j.task.prepare).2.trace = true
        rw [prepAttempted_doRun_other _ _ _ _ _ _ _ (by simp)]
        exact hB hb
      · intro s' hs'
        show prepAttemptedSince (Ctx.suite s')
          (doRun cfg st j Verb.preparing (Ctx.task j) j.task.prepare).2.trace = true
        rw [prepAttempted_doRun_other _ _ _ _ _ _ _ (by simp)]
        exact hS s' hs'

theorem taskRestoreStep_insideInv (cfg : WorkerCfg) (st : WState) (j : JobC)
    (h : insideInv st) : insideInv (taskRestoreStep cfg st j) := by
  obtain ⟨hP, hB, hS⟩ := h
  by_cases ha : st.abend = true
  · have he : taskRestoreStep cfg st j = st := by simp [taskRestoreStep, ha]
    rw [he]
    exact ⟨hP, hB, hS⟩
  · by_cases hr : (doRun cfg st j Verb.restoring (Ctx.task j) j.task.restore).1 = true
    · have he : taskRestoreStep cfg st j =
          (doRun cfg st j Verb.restoring (Ctx.task j) j.task.restore).2 := by
        simp [taskRestoreStep, ha, hr]
      rw [he]
      refine ⟨?_, ?_, ?_⟩
      · intro hp
        rw [prepAttempted_doRun_other _ _ _ _ _ _ _ (by simp)]
        exact hP hp
      · intro hb
        rw [prepAttempted_doRun_other _ _ _ _ _ _ _ (by simp)]
        exact hB hb
      · intro s' hs'
        rw [prepAttempted_doRun_other _ _ _ _ _ _ _ (by simp)]
        exact hS s' hs'
    · have he : taskRestoreStep cfg st j = addTaskRestoreError
          { (doRun cfg st j Verb.restoring (Ctx.task j) j.task.restore).2 with
            badProject := true } j := by
        simp [taskRestoreStep, ha, hr]
      rw [he]
      refine ⟨?_, ?_, ?_⟩
      · intro hp
        show prepAttemptedSince Ctx.project
          (doRun cfg st j Verb.restoring (Ctx.task j) j.task.restore).2.trace = true
        rw [prepAttempted_doRun_other _ _ _ _ _ _ _ (by simp)]
        exact hP hp
      · intro hb
        show prepAttemptedSince Ctx.backend
          (doRun cfg st j Verb.restoring (Ctx.task j) j.task.restore).2.trace = true
        rw [prepAttempted_doRun_other _ _ _ _ _ _ _ (by simp)]
        exact hB hb
      · intro s' hs'
        show prepAttemptedSince (Ctx.suite s')
          (doRun cfg st j Verb.restoring (Ctx.task j) j.task.restore).2.trace = true
        rw [prepAttempted_doRun_other _ _ _ _ _ _ _ (by simp)]
        exact hS s' hs'

theorem processJob_insideInv (cfg : WorkerCfg) (st : WState) (j : JobC)
    (hres : cfg.options.restore = false) (h : insideInv st) :
    insideInv (processJob cfg st j) := by
  by_cases hbad : j.suite ∈ st.badSuite
  · have he : processJob cfg st j = addTaskAbort st j := by simp [processJob, hbad]
    rw [he]
    exact h
  · have h1 := suiteSwitch_insideInv cfg st j h
    by_cases hc1 : (suiteSwitch cfg st j).2 = true
    · have h1' : insideInv { (suiteSwitch cfg st j).1 with last := some j } := h1
      have h2 := enterProject_insideInv cfg
        { (suiteSwitch cfg st j).1 with last := some j } j hres h1'
      by_cases hc2 : (enterProject cfg { (suiteSwitch cfg st j).1 with last := some j } j).2 = true
      · have h3 := enterSuite_insideInv cfg
          (enterProject cfg { (suiteSwitch cfg st j).1 with last := some j } j).1 j hres h2
        by_cases hc3 : (enterSuite cfg
            (enterProject cfg { (suiteSwitch cfg st j).1 with last := some j } j).1 j).2 = true
        · have he : processJob cfg st j = taskBody cfg (enterSuite cfg
              (enterProject cfg { (suiteSwitch cfg st j).1 with last := some j } j).1 j).1 j := by
            simp [processJob, hbad, hc1, hc2, hc3]
          rw [he]
          unfold taskBody
          exact taskRestoreStep_insideInv cfg _ j (taskRun_insideInv cfg _ j h3)
        · have he : processJob cfg st j = (enterSuite cfg
              (enterProject cfg { (suiteSwitch cfg st j).1 with last := some j } j).1 j).1 := by
            simp [processJob, hbad, hc1, hc2, hc3]
          rw [he]
          exact h3
      · have he : processJob cfg st j = (enterProject cfg
            { (suiteSwitch cfg st j).1 with last := some j } j).1 := by
          simp [processJob, hbad, hc1, hc2]
        rw [he]
        exact h2
    · have he : processJob cfg st j = (suiteSwitch cfg st j).1 := by
        simp [processJob, hbad, hc1]
      rw [he]
      exact h1

theorem workerStep_insideInv (cfg : WorkerCfg) (st : WState)
    (hres : cfg.options.restore = false) (h : insideInv st) :
    insideInv (workerStep cfg st) := by
  by_cases hfin : st.finished = true
  · have he : workerStep cfg st = st := by simp [workerStep, hfin]
    rw [he]
    exact h
  · by_cases hbrk : (st.badProject || st.abend || !(cfg.tombAlive st.iter)) = true
    · have he : workerStep cfg st =
          { st with suiteWorkers := swDec st, finished := true, iter := st.iter + 1 } := by
        simp [workerStep, hfin, hbrk]
      rw [he]
      exact h
    · cases hpk : (pickJob st.pending (swDec st) cfg.backend.name cfg.system st.insideSuite).1 with
      | none =>
        have he : workerStep cfg st =
            { st with
              suiteWorkers := swDec st
              pending := (pickJob st.pending (swDec st) cfg.backend.name cfg.system st.insideSuite).2
              job := none
              finished := true
              iter := st.iter + 1 } := by
          simp [workerStep, hfin, hbrk, hpk]
        rw [he]
        exact h
      | some j =>
        have he : workerStep cfg st = processJob cfg
            { st with
              suiteWorkers := swAdd (swDec st) (swKey j) 1
              pending := (pickJob st.pending (swDec st) cfg.backend.name cfg.system st.insideSuite).2
              job := some j
              iter := st.iter + 1 } j := by
          simp [workerStep, hfin, hbrk, hpk]
        rw [he]
        exact processJob_insideInv cfg _ j hres h

theorem workerLoop_insideInv (cfg : WorkerCfg) (hres : cfg.options.restore = false) :
    ∀ (n : Nat) (st : WState), insideInv st → insideInv (workerLoop cfg n st) := by
  intro n
  induction n with
  | zero => intro st h; exact h
  | succ m ih =>
    intro st h
    rw [workerLoop]
    split
    · exact h
    · exact ih _ (workerStep_insideInv cfg st hres h)

/-- C4 amended: at every loop boundary of a worker run without restore
mode, each inside flag implies the corresponding prepare was *attempted*
(possibly unsuccessfully) since the last successful restore of that
level: the source sets `insideProject`/`insideBackend`/`insideSuite`
*before* running the prepare, keeps them set when the prepare fails, and
in restore mode sets them with no prepare at all. -/
theorem insideFlags_prepare_attempted (cfg : WorkerCfg)
    (pending : List (Option JobC)) (sw : List ((String × String × String) × Int))
    (stats : StatsC) (n : Nat) (hres : cfg.options.restore = false) :
    insideInv (workerLoop cfg n (initWState pending sw stats)) := by
  refine workerLoop_insideInv cfg hres n _ ⟨?_, ?_, ?_⟩
  · intro h
    exact absurd h (by simp [initWState])
  · intro h
    exact absurd h (by simp [initWState])
  · intro s hs
    exact absurd hs (by simp [initWState])

/-- Witness for C4's amended invariant: the suite-prepare-fails
configuration after one iteration. -/
theorem insideFlags_prepare_attempted_witness :
    ((cxCfg false 2).options.restore = false) ∧
    insideInv (workerLoop (cxCfg false 2) 1 (initWState [some cxJob] [] emptyStats)) :=
  ⟨by decide,
   insideFlags_prepare_attempted (cxCfg false 2) [some cxJob] [] emptyStats 1 (by decide)⟩

/-! ## C9: restore symmetry -/
theorem invokedV_runScript_acts (v' : Verb) (c' : Ctx) (opts : OptionsC)
    (rp : String) (a : JobC) (v : Verb) (c : Ctx) (script : String)
    (outcomes : Nat → Bool) (k : Nat) (abend : Bool) :
    invokedV v' c' (runScript opts rp a v c script outcomes k abend).acts =
      (v == v' && decide (c = c')) := by
  by_cases he : (trimSpace script).isEmpty = true
  · simp [runScript, he, invokedV, isInvOf]
  · simp only [runScript]
    rw [if_neg he]
    repeat' split
    all_goals simp [invokedV, isInvOf]

theorem invokedV_doRun (v' : Verb) (c' : Ctx) (cfg : WorkerCfg) (st : WState)
    (a : JobC) (v : Verb) (c : Ctx) (s : String) :
    invokedV v' c' (doRun cfg st a v c s).2.trace =
      (invokedV v' c' st.trace || (v == v' && decide (c = c'))) := by
  rw [doRun_trace, invokedV_append, invokedV_runScript_acts]

/-- When the invoked verb/context differ from the run one, a `doRun` adds
no matching invocation. -/
theorem invokedV_doRun_ne (v' : Verb) (c' : Ctx) (cfg : WorkerCfg) (st : WState)
    (a : JobC) (v : Verb) (c : Ctx) (s : String) (hv : v = v' → c = c' → False) :
    invokedV v' c' (doRun cfg st a v c s).2.trace = invokedV v' c' st.trace := by
  rw [invokedV_doRun]
  have hz : (v == v' && decide (c = c')) = false := by
    by_cases h1 : v = v'
    · have h2 : ¬(c = c') := fun hc => hv h1 hc
      simp [h1, h2]
    · simp [h1]
  rw [hz, Bool.or_false]

theorem invokedV_doRun_mono (v' : Verb) (c' : Ctx) (cfg : WorkerCfg) (st : WState)
    (a : JobC) (v : Verb) (c : Ctx) (s : String)
    (h : invokedV v' c' st.trace = true) :
    invokedV v' c' (doRun cfg st a v c s).2.trace = true := by
  rw [invokedV_doRun, h, Bool.true_or]

/-- A `doRun` leaves `abend` alone or assigns it `options.abend`. -/
theorem doRun_abend_cases (cfg : WorkerCfg) (st : WState) (a : JobC) (v : Verb)
    (c : Ctx) (s : String) :
    (doRun cfg st a v c s).2.abend = st.abend ∨
      (doRun cfg st a v c s).2.abend = cfg.options.abend := by
  have h : (doRun cfg st a v c s).2.abend =
      (runScript cfg.options cfg.project.remotePath a v c s cfg.outcomes st.k st.abend).abend := rfl
  rw [h]
  by_cases he : (trimSpace s).isEmpty = true
  · left
    simp [runScript, he]
  · simp only [runScript]
    rw [if_neg he]
    repeat' split
    all_goals first | exact Or.inl rfl | exact Or.inr rfl

/-- Under the global consistency `abend → options.abend`, an already-set
`abend` survives any `doRun`. -/
theorem doRun_abend_mono (cfg : WorkerCfg) (st : WState) (a : JobC) (v : Verb)
    (c : Ctx) (s : String) (hG : st.abend = true → cfg.options.abend = true)
    (ha : st.abend = true) : (doRun cfg st a v c s).2.abend = true := by
  rcases doRun_abend_cases cfg st a v c s with h | h
  · rw [h, ha]
  · rw [h, hG ha]

/-- `doRun` preserves the consistency `abend → options.abend`. -/
theorem doRun_abend_G (cfg : WorkerCfg) (st : WState) (a : JobC) (v : Verb)
    (c : Ctx) (s : String) (hG : st.abend = true → cfg.options.abend = true)
    (h : (doRun cfg st a v c s).2.abend = true) : cfg.options.abend = true := by
  rcases doRun_abend_cases cfg st a v c s with h2 | h2
  · rw [h2] at h
    exact hG h
  · rw [h2] at h
    exact h

/-- After a successful suite switch the worker is inside no suite or
inside the picked job's suite. -/
theorem suiteSwitch_insideSuite_post (cfg : WorkerCfg) (st : WState) (j : JobC)
    (h : (suiteSwitch cfg st j).2 = true) :
    (suiteSwitch cfg st j).1.insideSuite = none ∨
      (suiteSwitch cfg st j).1.insideSuite = some j.suite := by
  rcases hs : st.insideSuite with _ | s
  · left
    simp [suiteSwitch, hs]
  · by_cases hne : s = j.suite
    · right
      simp [suiteSwitch, hs, hne]
    · by_cases hr : (doRun cfg st (lastJ st) Verb.restoring (Ctx.suite s) s.restore).1 = true
      · left
        simp [suiteSwitch, hs, hne, hr]
      · exfalso
        simp [suiteSwitch, hs, hne, hr] at h

theorem enterBackend_insideSuite (cfg : WorkerCfg) (st : WState) (j : JobC) :
    (enterBackend cfg st j).1.insideSuite = st.insideSuite := by
  by_cases hres : cfg.options.restore = true
  · simp [enterBackend, hres]
  · by_cases hr : (doRun cfg { st with insideBackend := true } j Verb.preparing
        Ctx.backend cfg.backend.prepare).1 = true <;>
      simp [enterBackend, hres, hr, addTaskAbort, addBackendPrepareError, doRun_insideSuite]

theorem enterProject_insideSuite (cfg : WorkerCfg) (st : WState) (j : JobC) :
    (enterProject cfg st j).1.insideSuite = st.insideSuite := by
  by_cases hip : st.insideProject = true
  · simp [enterProject, hip]
  · by_cases hres : cfg.options.restore = true
    · simp [enterProject, hip, hres, enterBackend_insideSuite]
    · by_cases hr : (doRun cfg { st with insideProject := true } j Verb.preparing
          Ctx.project cfg.project.prepare).1 = true
      · simp [enterProject, hip, hres, hr, enterBackend_insideSuite, doRun_insideSuite]
      · simp [enterProject, hip, hres, hr, addTaskAbort, addProjectPrepareError, doRun_insideSuite]

theorem unwindSuite_trace_ext (cfg : WorkerCfg) (st : WState) :
    ∃ d, (unwindSuite cfg st).trace = st.trace ++ d := by
  rcases hs : st.insideSuite with _ | s
  · exact ⟨[], by simp [unwindSuite, hs]⟩
  · by_cases ha : st.abend = true
    · exact ⟨[], by simp [unwindSuite, hs, ha]⟩
    · refine ⟨(runScript cfg.options cfg.project.remotePath (lastJ st) Verb.restoring
        (Ctx.suite s) s.restore cfg.outcomes st.k st.abend).acts, ?_⟩
      by_cases hr : (doRun cfg st (lastJ st) Verb.restoring (Ctx.suite s) s.restore).1 = true <;>
        simp [unwindSuite, hs, ha, hr, addSuiteRestoreError, doRun_trace]

/-- The suite unwind adds no preparing invocation. -/
theorem unwindSuite_invoked_prep (cfg : WorkerCfg) (st : WState) (c : Ctx) :
    invokedV Verb.preparing c (unwindSuite cfg st).trace =
      invokedV Verb.preparing c st.trace := by
  rcases hs : st.insideSuite with _ | s
  · simp [unwindSuite, hs]
  · by_cases ha : st.abend = true
    · simp [unwindSuite, hs, ha]
    · by_cases hr : (doRun cfg st (lastJ st) Verb.restoring (Ctx.suite s) s.restore).1 = true
      · have he : invokedV Verb.preparing c (unwindSuite cfg st).trace =
            invokedV Verb.preparing c
              (doRun cfg st (lastJ st) Verb.restoring (Ctx.suite s) s.restore).2.trace := by
          simp [unwindSuite, hs, ha, hr]
        rw [he, invokedV_doRun_ne _ _ _ _ _ _ _ _ (by intro h _; cases h)]
      · have he : invokedV Verb.preparing c (unwindSuite cfg st).trace =
            invokedV Verb.preparing c
              (doRun cfg st (lastJ st) Verb.restoring (Ctx.suite s) s.restore).2.trace := by
          simp [unwindSuite, hs, ha, hr, addSuiteRestoreError]
        rw [he, invokedV_doRun_ne _ _ _ _ _ _ _ _ (by intro h _; cases h)]

/-- The backend unwind adds no preparing invocation. -/
theorem unwindBackend_invoked_prep (cfg : WorkerCfg) (st : WState) (c : Ctx) :
    invokedV Verb.preparing c (unwindBackend cfg st).trace =
      invokedV Verb.preparing c st.trace := by
  by_cases hg : (!st.abend && st.insideBackend) = true
  · by_cases hr : (doRun cfg st (lastJ st) Verb.restoring Ctx.backend cfg.backend.restore).1 = true
    · have he : invokedV Verb.preparing c (unwindBackend cfg st).trace =
          invokedV Verb.preparing c
            (doRun cfg st (lastJ st) Verb.restoring Ctx.backend cfg.backend.restore).2.trace := by
        simp [unwindBackend, hg, hr]
      rw [he, invokedV_doRun_ne _ _ _ _ _ _ _ _ (by intro h _; cases h)]
    · have he : invokedV Verb.preparing c (unwindBackend cfg st).trace =
          invokedV Verb.preparing c
            (doRun cfg st (lastJ st) Verb.restoring Ctx.backend cfg.backend.restore).2.trace := by
        simp [unwindBackend, hg, hr, addBackendRestoreError]
      rw [he, invokedV_doRun_ne _ _ _ _ _ _ _ _ (by intro h _; cases h)]
  · simp [unwindBackend, hg]

/-- The project unwind adds no preparing invocation. -/
theorem unwindProject_invoked_prep (cfg : WorkerCfg) (st : WState) (c : Ctx) :
    invokedV Verb.preparing c (unwindProject cfg st).trace =
      invokedV Verb.preparing c st.trace := by
  by_cases hg : (!st.abend && st.insideProject) = true
  · by_cases hr : (doRun cfg st (lastJ st) Verb.restoring Ctx.project cfg.project.restore).1 = true
    · have he : invokedV Verb.preparing c (unwindProject cfg st).trace =
          invokedV Verb.preparing c
            (doRun cfg st (lastJ st) Verb.restoring Ctx.project cfg.project.restore).2.trace := by
        simp [unwindProject, hg, hr]
      rw [he, invokedV_doRun_ne _ _ _ _ _ _ _ _ (by intro h _; cases h)]
    · have he : invokedV Verb.preparing c (unwindProject cfg st).trace =
          invokedV Verb.preparing c
            (doRun cfg st (lastJ st) Verb.restoring Ctx.project cfg.project.restore).2.trace := by
        simp [unwindProject, hg, hr, addProjectRestoreError]
      rw [he, invokedV_doRun_ne _ _ _ _ _ _ _ _ (by intro h _; cases h)]
  · simp [unwindProject, hg]

theorem suiteSwitch_symm (cfg : WorkerCfg) (st : WState) (j : JobC)
    (H : symmInv cfg st) : symmInv cfg (suiteSwitch cfg st j).1 := by
  obtain ⟨hG, hP, hB, hS, hT⟩ := H
  rcases hs : st.insideSuite with _ | s
  · have he : (suiteSwitch cfg st j).1 = st := by simp [suiteSwitch, hs]
    rw [he]
    exact ⟨hG, hP, hB, hS, hT⟩
  · by_cases hne : s = j.suite
    · have he : (suiteSwitch cfg st j).1 = st := by simp [suiteSwitch, hs, hne]
      rw [he]
      exact ⟨hG, hP, hB, hS, hT⟩
    · by_cases hr : (doRun cfg st (lastJ st) Verb.restoring (Ctx.suite s) s.restore).1 = true
      · have he : (suiteSwitch cfg st j).1 =
            { (doRun cfg st (lastJ st) Verb.restoring (Ctx.suite s) s.restore).2 with
              insideSuite := none } := by
          simp [suiteSwitch, hs, hne, hr]
        rw [he]
        refine ⟨?_, ?_, ?_, ?_, ?_⟩
        · intro h
          have h' : (doRun cfg st (lastJ st) Verb.restoring (Ctx.suite s) s.restore).2.abend = true := h
          exact doRun_abend_G cfg st (lastJ st) Verb.restoring (Ctx.suite s) s.restore hG h'
        · intro h
          have h' : invokedV Verb.preparing Ctx.project
              (doRun cfg st (lastJ st) Verb.restoring (Ctx.suite s) s.restore).2.trace = true := h
          rw [invokedV_doRun_ne _ _ _ _ _ _ _ _ (by intro hv _; cases hv)] at h'
          show (doRun cfg st (lastJ st) Verb.restoring (Ctx.suite s) s.restore).2.insideProject = true
          rw [doRun_insideProject]
          exact hP h'
        · intro h
          have h' : invokedV Verb.preparing Ctx.backend
              (doRun cfg st (lastJ st) Verb.restoring (Ctx.suite s) s.restore).2.trace = true := h
          rw [invokedV_doRun_ne _ _ _ _ _ _ _ _ (by intro hv _; cases hv)] at h'
          show (doRun cfg st (lastJ st) Verb.restoring (Ctx.suite s) s.restore).2.insideBackend = true
          rw [doRun_insideBackend]
          exact hB h'
        · intro s'' h
          have h' : invokedV Verb.preparing (Ctx.suite s'')
              (doRun cfg st (lastJ st) Verb.restoring (Ctx.suite s) s.restore).2.trace = true := h
          rw [invokedV_doRun_ne _ _ _ _ _ _ _ _ (by intro hv _; cases hv)] at h'
          rcases hS s'' h' with h1 | h2
          · left
            show invokedV Verb.restoring (Ctx.suite s'')
              (doRun cfg st (lastJ st) Verb.restoring (Ctx.suite s) s.restore).2.trace = true
            exact invokedV_doRun_mono _ _ _ _ _ _ _ _ h1
          · left
            have hss : s'' = s := by
              rw [hs] at h2
              exact (Option.some.inj h2).symm
            subst hss
            show invokedV Verb.restoring (Ctx.suite s'')
              (doRun cfg st (lastJ st) Verb.restoring (Ctx.suite s'') s''.restore).2.trace = true
            exact doRun_invoked cfg st (lastJ st) Verb.restoring (Ctx.suite s'') s''.restore
        · intro t h
          have h' : invokedV Verb.preparing (Ctx.task t)
              (doRun cfg st (lastJ st) Verb.restoring (Ctx.suite s) s.restore).2.trace = true := h
          rw [invokedV_doRun_ne _ _ _ _ _ _ _ _ (by intro hv _; cases hv)] at h'
          rcases hT t h' with h1 | h2
          · left
            show invokedV Verb.restoring (Ctx.task t)
              (doRun cfg st (lastJ st) Verb.restoring (Ctx.suite s) s.restore).2.trace = true
            exact invokedV_doRun_mono _ _ _ _ _ _ _ _ h1
          · right
            show (doRun cfg st (lastJ st) Verb.restoring (Ctx.suite s) s.restore).2.abend = true
            exact doRun_abend_mono cfg st (lastJ st) Verb.restoring (Ctx.suite s) s.restore hG h2
      · have he : (suiteSwitch cfg st j).1 =
            addTaskAbort (addSuiteRestoreError
              { (doRun cfg st (lastJ st) Verb.restoring (Ctx.suite s) s.restore).2 with
                badProject := true } (lastJ st)) j := by
          simp [suiteSwitch, hs, hne, hr]
        rw [he]
        refine ⟨?_, ?_, ?_, ?_, ?_⟩
        · intro h
          have h' : (doRun cfg st (lastJ st) Verb.restoring (Ctx.suite s) s.restore).2.abend = true := h
          exact doRun_abend_G cfg st (lastJ st) Verb.restoring (Ctx.suite s) s.restore hG h'
        · intro h
          have h' : invokedV Verb.preparing Ctx.project
              (doRun cfg st (lastJ st) Verb.restoring (Ctx.suite s) s.restore).2.trace = true := h
          rw [invokedV_doRun_ne _ _ _ _ _ _ _ _ (by intro hv _; cases hv)] at h'
          show (doRun cfg st (lastJ st) Verb.restoring (Ctx.suite s) s.restore).2.insideProject = true
          rw [doRun_insideProject]
          exact hP h'
        · intro h
          have h' : invokedV Verb.preparing Ctx.backend
              (doRun cfg st (lastJ st) Verb.restoring (Ctx.suite s) s.restore).2.trace = true := h
          rw [invokedV_doRun_ne _ _ _ _ _ _ _ _ (by intro hv _; cases hv)] at h'
          show (doRun cfg st (lastJ st) Verb.restoring (Ctx.suite s) s.restore).2.insideBackend = true
          rw [doRun_insideBackend]
          exact hB h'
        · intro s'' h
          have h' : invokedV Verb.preparing (Ctx.suite s'')
              (doRun cfg st (lastJ st) Verb.restoring (Ctx.suite s) s.restore).2.trace = true := h
          rw [invokedV_doRun_ne _ _ _ _ _ _ _ _ (by intro hv _; cases hv)] at h'
          rcases hS s'' h' with h1 | h2
          · left
            show invokedV Verb.restoring (Ctx.suite s'')
              (doRun cfg st (lastJ st) Verb.restoring (Ctx.suite s) s.restore).2.trace = true
            exact invokedV_doRun_mono _ _ _ _ _ _ _ _ h1
          · right
            show (doRun cfg st (lastJ st) Verb.restoring (Ctx.suite s) s.restore).2.insideSuite = some s''
            rw [doRun_insideSuite]
            exact h2
        · intro t h
          have h' : invokedV Verb.preparing (Ctx.task t)
              (doRun cfg st (lastJ st) Verb.restoring (Ctx.suite s) s.restore).2.trace = true := h
          rw [invokedV_doRun_ne _ _ _ _ _ _ _ _ (by intro hv _; cases hv)] at h'
          rcases hT t h' with h1 | h2
          · left
            show invokedV Verb.restoring (Ctx.task t)
              (doRun cfg st (lastJ st) Verb.restoring (Ctx.suite s) s.restore).2.trace = true
            exact invokedV_doRun_mono _ _ _ _ _ _ _ _ h1
          · right
            show (doRun cfg st (lastJ st) Verb.restoring (Ctx.suite s) s.restore).2.abend = true
            exact doRun_abend_mono cfg st (lastJ st) Verb.restoring (Ctx.suite s) s.restore hG h2

theorem enterBackend_symm (cfg : WorkerCfg) (st : WState) (j : JobC)
    (H : symmInv cfg st) : symmInv cfg (enterBackend cfg st j).1 := by
  obtain ⟨hG, hP, hB, hS, hT⟩ := H
  by_cases hres : cfg.options.restore = true
  · have he : (enterBackend cfg st j).1 = { st with insideBackend := true } := by
      simp [enterBackend, hres]
    rw [he]
    exact ⟨hG, hP, fun _ => rfl, hS, hT⟩
  · by_cases hr : (doRun cfg { st with insideBackend := true } j Verb.preparing
        Ctx.backend cfg.backend.prepare).1 = true
    · have he : (enterBackend cfg st j).1 =
          (doRun cfg { st with insideBackend := true } j Verb.preparing
            Ctx.backend cfg.backend.prepare).2 := by
        simp [enterBackend, hres, hr]
      rw [he]
      refine ⟨?_, ?_, ?_, ?_, ?_⟩
      · intro h
        exact doRun_abend_G cfg { st with insideBackend := true } j Verb.preparing
          Ctx.backend cfg.backend.prepare hG h
      · intro h
        rw [invokedV_doRun_ne _ _ _ _ _ _ _ _ (by intro _ hc; cases hc)] at h
        rw [doRun_insideProject]
        exact hP h
      · intro _
        rfl
      · intro s'' h
        rw [invokedV_doRun_ne _ _ _ _ _ _ _ _ (by intro _ hc; cases hc)] at h
        rcases hS s'' h with h1 | h2
        · left
          exact invokedV_doRun_mono _ _ _ _ _ _ _ _ h1
        · right
          rw [doRun_insideSuite]
          exact h2
      · intro t h
        rw [invokedV_doRun_ne _ _ _ _ _ _ _ _ (by intro _ hc; cases hc)] at h
        rcases hT t h with h1 | h2
        · left
          exact invokedV_doRun_mono _ _ _ _ _ _ _ _ h1
        · right
          exact doRun_abend_mono cfg { st with insideBackend := true } j Verb.preparing
            Ctx.backend cfg.backend.prepare hG h2
    · have he : (enterBackend cfg st j).1 =
          addTaskAbort (addBackendPrepareError
            { (doRun cfg { st with insideBackend := true } j Verb.preparing
                Ctx.backend cfg.backend.prepare).2 with badProject := true } j) j := by
        simp [enterBackend, hres, hr]
      rw [he]
      refine ⟨?_, ?_, ?_, ?_, ?_⟩
      · intro h
        have h' : (doRun cfg { st with insideBackend := true } j Verb.preparing
            Ctx.backend cfg.backend.prepare).2.abend = true := h
        exact doRun_abend_G cfg { st with insideBackend := true } j Verb.preparing
          Ctx.backend cfg.backend.prepare hG h'
      · intro h
        have h' : invokedV Verb.preparing Ctx.project
            (doRun cfg { st with insideBackend := true } j Verb.preparing
              Ctx.backend cfg.backend.prepare).2.trace = true := h
        rw [invokedV_doRun_ne _ _ _ _ _ _ _ _ (by intro _ hc; cases hc)] at h'
        show (doRun cfg { st with insideBackend := true } j Verb.preparing
          Ctx.backend cfg.backend.prepare).2.insideProject = true
        rw [doRun_insideProject]
        exact hP h'
      · intro _
        rfl
      · intro s'' h
        have h' : invokedV Verb.preparing (Ctx.suite s'')
            (doRun cfg { st with insideBackend := true } j Verb.preparing
              Ctx.backend cfg.backend.prepare).2.trace = true := h
        rw [invokedV_doRun_ne _ _ _ _ _ _ _ _ (by intro _ hc; cases hc)] at h'
        rcases hS s'' h' with h1 | h2
        · left
          show invokedV Verb.restoring (Ctx.suite s'')
            (doRun cfg { st with insideBackend := true } j Verb.preparing
              Ctx.backend cfg.backend.prepare).2.trace = true
          exact invokedV_doRun_mono _ _ _ _ _ _ _ _ h1
        · right
          show (doRun cfg { st with insideBackend := true } j Verb.preparing
            Ctx.backend cfg.backend.prepare).2.insideSuite = some s''
          rw [doRun_insideSuite]
          exact h2
      · intro t h
        have h' : invokedV Verb.preparing (Ctx.task t)
            (doRun cfg { st with insideBackend := true } j Verb.preparing
              Ctx.backend cfg.backend.prepare).2.trace = true := h
        rw [invokedV_doRun_ne _ _ _ _ _ _ _ _ (by intro _ hc; cases hc)] at h'
        rcases hT t h' with h1 | h2
        · left
          show invokedV Verb.restoring (Ctx.task t)
            (doRun cfg { st with insideBackend := true } j Verb.preparing
              Ctx.backend cfg.backend.prepare).2.trace = true
          exact invokedV_doRun_mono _ _ _ _ _ _ _ _ h1
        · right
          show (doRun cfg { st with insideBackend := true } j Verb.preparing
            Ctx.backend cfg.backend.prepare).2.abend = true
          exact doRun_abend_mono cfg { st with insideBackend := true } j Verb.preparing
            Ctx.backend cfg.backend.prepare hG h2

theorem enterProject_symm (cfg : WorkerCfg) (st : WState) (j : JobC)
    (H : symmInv cfg st) : symmInv cfg (enterProject cfg st j).1 := by
  obtain ⟨hG, hP, hB, hS, hT⟩ := H
  by_cases hip : st.insideProject = true
  · have he : (enterProject cfg st j).1 = st := by simp [enterProject, hip]
    rw [he]
    exact ⟨hG, hP, hB, hS, hT⟩
  · by_cases hres : cfg.options.restore = true
    · have he : (enterProject cfg st j).1 =
          (enterBackend cfg { st with insideProject := true } j).1 := by
        simp [enterProject, hip, hres]
      rw [he]
      exact enterBackend_symm cfg { st with insideProject := true } j
        ⟨hG, fun _ => rfl, hB, hS, hT⟩
    · by_cases hr : (doRun cfg { st with insideProject := true } j Verb.preparing
          Ctx.project cfg.project.prepare).1 = true
      · have he : (enterProject cfg st j).1 =
            (enterBackend cfg (doRun cfg { st with insideProject := true } j Verb.preparing
              Ctx.project cfg.project.prepare).2 j).1 := by
          simp [enterProject, hip, hres, hr]
        rw [he]
        apply enterBackend_symm
        refine ⟨?_, ?_, ?_, ?_, ?_⟩
        · intro h
          exact doRun_abend_G cfg { st with insideProject := true } j Verb.preparing
            Ctx.project cfg.project.prepare hG h
        · intro _
          rfl
        · intro h
          rw [invokedV_doRun_ne _ _ _ _ _ _ _ _ (by intro _ hc; cases hc)] at h
          rw [doRun_insideBackend]
          exact hB h
        · intro s'' h
          rw [invokedV_doRun_ne _ _ _ _ _ _ _ _ (by intro _ hc; cases hc)] at h
          rcases hS s'' h with h1 | h2
          · left
            exact invokedV_doRun_mono _ _ _ _ _ _ _ _ h1
          · right
            rw [doRun_insideSuite]
            exact h2
        · intro t h
          rw [invokedV_doRun_ne _ _ _ _ _ _ _ _ (by intro _ hc; cases hc)] at h
          rcases hT t h with h1 | h2
          · left
            exact invokedV_doRun_mono _ _ _ _ _ _ _ _ h1
          · right
            exact doRun_abend_mono cfg { st with insideProject := true } j Verb.preparing
              Ctx.project cfg.project.prepare hG h2
      · have he : (enterProject cfg st j).1 =
            addTaskAbort (addProjectPrepareError
              { (doRun cfg { st with insideProject := true } j Verb.preparing
                  Ctx.project cfg.project.prepare).2 with badProject := true } j) j := by
          simp [enterProject, hip, hres, hr]
        rw [he]
        refine ⟨?_, ?_, ?_, ?_, ?_⟩
        · intro h
          have h' : (doRun cfg { st with insideProject := true } j Verb.preparing
              Ctx.project cfg.project.prepare).2.abend = true := h
          exact doRun_abend_G cfg { st with insideProject := true } j Verb.preparing
            Ctx.project cfg.project.prepare hG h'
        · intro _
          rfl
        · intro h
          have h' : invokedV Verb.preparing Ctx.backend
              (doRun cfg { st with insideProject := true } j Verb.preparing
                Ctx.project cfg.project.prepare).2.trace = true := h
          rw [invokedV_doRun_ne _ _ _ _ _ _ _ _ (by intro _ hc; cases hc)] at h'
          show (doRun cfg { st with insideProject := true } j Verb.preparing
            Ctx.project cfg.project.prepare).2.insideBackend = true
          rw [doRun_insideBackend]
          exact hB h'
        · intro s'' h
          have h' : invokedV Verb.preparing (Ctx.suite s'')
              (doRun cfg { st with insideProject := true } j Verb.preparing
                Ctx.project cfg.project.prepare).2.trace = true := h
          rw [invokedV_doRun_ne _ _ _ _ _ _ _ _ (by intro _ hc; cases hc)] at h'
          rcases hS s'' h' with h1 | h2
          · left
            show invokedV Verb.restoring (Ctx.suite s'')
              (doRun cfg { st with insideProject := true } j Verb.preparing
                Ctx.project cfg.project.prepare).2.trace = true
            exact invokedV_doRun_mono _ _ _ _ _ _ _ _ h1
          · right
            show (doRun cfg { st with insideProject := true } j Verb.preparing
              Ctx.project cfg.project.prepare).2.insideSuite = some s''
            rw [doRun_insideSuite]
            exact h2
        · intro t h
          have h' : invokedV Verb.preparing (Ctx.task t)
              (doRun cfg { st with insideProject := true } j Verb.preparing
                Ctx.project cfg.project.prepare).2.trace = true := h
          rw [invokedV_doRun_ne _ _ _ _ _ _ _ _ (by intro _ hc; cases hc)] at h'
          rcases hT t h' with h1 | h2
          · left
            show invokedV Verb.restoring (Ctx.task t)
              (doRun cfg { st with insideProject := true } j Verb.preparing
                Ctx.project cfg.project.prepare).2.trace = true
            exact invokedV_doRun_mono _ _ _ _ _ _ _ _ h1
          · right
            show (doRun cfg { st with insideProject := true } j Verb.preparing
              Ctx.project cfg.project.prepare).2.abend = true
            exact doRun_abend_mono cfg { st with insideProject := true } j Verb.preparing
              Ctx.project cfg.project.prepare hG h2

theorem enterSuite_symm (cfg : WorkerCfg) (st : WState) (j : JobC)
    (hs0 : st.insideSuite = none ∨ st.insideSuite = some j.suite)
    (H : symmInv cfg st) : symmInv cfg (enterSuite cfg st j).1 := by
  obtain ⟨hG, hP, hB, hS, hT⟩ := H
  by_cases hin : st.insideSuite = some j.suite
  · have he : (enterSuite cfg st j).1 = st := by simp [enterSuite, hin]
    rw [he]
    exact ⟨hG, hP, hB, hS, hT⟩
  · have hnone : st.insideSuite = none := by
      rcases hs0 with h | h
      · exact h
      · exact absurd h hin
    have hS1 : ∀ s'' : SuiteC, invokedV Verb.preparing (Ctx.suite s'') st.trace = true →
        invokedV Verb.restoring (Ctx.suite s'') st.trace = true := by
      intro s'' h
      rcases hS s'' h with h1 | h2
      · exact h1
      · rw [hnone] at h2
        exact absurd h2 (by simp)
    by_cases hres : cfg.options.restore = true
    · have he : (enterSuite cfg st j).1 = { st with insideSuite := some j.suite } := by
        simp [enterSuite, hin, hres]
      rw [he]
      refine ⟨hG, hP, hB, ?_, hT⟩
      intro s'' h
      by_cases hsj : s'' = j.suite
      · right
        show (some j.suite : Option SuiteC) = some s''
        rw [hsj]
      · left
        exact hS1 s'' h
    · by_cases hr : (doRun cfg { st with insideSuite := some j.suite } j Verb.preparing
          (Ctx.suite j.suite) j.suite.prepare).1 = true
      · have he : (enterSuite cfg st j).1 =
            (doRun cfg { st with insideSuite := some j.suite } j Verb.preparing
              (Ctx.suite j.suite) j.suite.prepare).2 := by
          simp [enterSuite, hin, hres, hr]
        rw [he]
        refine ⟨?_, ?_, ?_, ?_, ?_⟩
        · intro h
          exact doRun_abend_G cfg { st with insideSuite := some j.suite } j Verb.preparing
            (Ctx.suite j.suite) j.suite.prepare hG h
        · intro h
          rw [invokedV_doRun_ne _ _ _ _ _ _ _ _ (by intro _ hc; cases hc)] at h
          rw [doRun_insideProject]
          exact hP h
        · intro h
          rw [invokedV_doRun_ne _ _ _ _ _ _ _ _ (by intro _ hc; cases hc)] at h
          rw [doRun_insideBackend]
          exact hB h
        · intro s'' h
          by_cases hsj : s'' = j.suite
          · right
            rw [doRun_insideSuite]
            show (some j.suite : Option SuiteC) = some s''
            rw [hsj]
          · left
            rw [invokedV_doRun_ne _ _ _ _ _ _ _ _ ?_] at h
            · exact invokedV_doRun_mono _ _ _ _ _ _ _ _ (hS1 s'' h)
            · intro _ hc
              refine hsj ?_
              injection hc with h2
              exact h2.symm
        · intro t h
          rw [invokedV_doRun_ne _ _ _ _ _ _ _ _ (by intro _ hc; cases hc)] at h
          rcases hT t h with h1 | h2
          · left
            exact invokedV_doRun_mono _ _ _ _ _ _ _ _ h1
          · right
            exact doRun_abend_mono cfg { st with insideSuite := some j.suite } j Verb.preparing
              (Ctx.suite j.suite) j.suite.prepare hG h2
      · have he : (enterSuite cfg st j).1 =
            addTaskAbort (addSuitePrepareError
              { (doRun cfg { st with insideSuite := some j.suite } j Verb.preparing
                  (Ctx.suite j.suite) j.suite.prepare).2 with
                badSuite := st.badSuite ++ [j.suite] } j) j := by
          simp [enterSuite, hin, hres, hr]
        rw [he]
        refine ⟨?_, ?_, ?_, ?_, ?_⟩
        · intro h
          have h' : (doRun cfg { st with insideSuite := some j.suite } j Verb.preparing
              (Ctx.suite j.suite) j.suite.prepare).2.abend = true := h
          exact doRun_abend_G cfg { st with insideSuite := some j.suite } j Verb.preparing
            (Ctx.suite j.suite) j.suite.prepare hG h'
        · intro h
          have h' : invokedV Verb.preparing Ctx.project
              (doRun cfg { st with insideSuite := some j.suite } j Verb.preparing
                (Ctx.suite j.suite) j.suite.prepare).2.trace = true := h
          rw [invokedV_doRun_ne _ _ _ _ _ _ _ _ (by intro _ hc; cases hc)] at h'
          show (doRun cfg { st with insideSuite := some j.suite } j Verb.preparing
            (Ctx.suite j.suite) j.suite.prepare).2.insideProject = true
          rw [doRun_insideProject]
          exact hP h'
        · intro h
          have h' : invokedV Verb.preparing Ctx.backend
              (doRun cfg { st with insideSuite := some j.suite } j Verb.preparing
                (Ctx.suite j.suite) j.suite.prepare).2.trace = true := h
          rw [invokedV_doRun_ne _ _ _ _ _ _ _ _ (by intro _ hc; cases hc)] at h'
          show (doRun cfg { st with insideSuite := some j.suite } j Verb.preparing
            (Ctx.suite j.suite) j.suite.prepare).2.insideBackend = true
          rw [doRun_insideBackend]
          exact hB h'
        · intro s'' h
          by_cases hsj : s'' = j.suite
          · right
            show (doRun cfg { st with insideSuite := some j.suite } j Verb.preparing
              (Ctx.suite j.suite) j.suite.prepare).2.insideSuite = some s''
            rw [doRun_insideSuite]
            show (some j.suite : Option SuiteC) = some s''
            rw [hsj]
          · left
            have h' : invokedV Verb.preparing (Ctx.suite s'')
                (doRun cfg { st with insideSuite := some j.suite } j Verb.preparing
                  (Ctx.suite j.suite) j.suite.prepare).2.trace = true := h
            rw [invokedV_doRun_ne _ _ _ _ _ _ _ _ ?_] at h'
            · show invokedV Verb.restoring (Ctx.suite s'')
                (doRun cfg { st with insideSuite := some j.suite } j Verb.preparing
                  (Ctx.suite j.suite) j.suite.prepare).2.trace = true
              exact invokedV_doRun_mono _ _ _ _ _ _ _ _ (hS1 s'' h')
            · intro _ hc
              refine hsj ?_
              injection hc with h2
              exact h2.symm
        · intro t h
          have h' : invokedV Verb.preparing (Ctx.task t)
              (doRun cfg { st with insideSuite := some j.suite } j Verb.preparing
                (Ctx.suite j.suite) j.suite.prepare).2.trace = true := h
          rw [invokedV_doRun_ne _ _ _ _ _ _ _ _ (by intro _ hc; cases hc)] at h'
          rcases hT t h' with h1 | h2
          · left
            show invokedV Verb.restoring (Ctx.task t)
              (doRun cfg { st with insideSuite := some j.suite } j Verb.preparing
                (Ctx.suite j.suite) j.suite.prepare).2.trace = true
            exact invokedV_doRun_mono _ _ _ _ _ _ _ _ h1
          · right
            show (doRun cfg { st with insideSuite := some j.suite } j Verb.preparing
              (Ctx.suite j.suite) j.suite.prepare).2.abend = true
            exact doRun_abend_mono cfg { st with insideSuite := some j.suite } j Verb.preparing
              (Ctx.suite j.suite) j.suite.prepare hG h2

theorem taskRun_symmPre (cfg : WorkerCfg) (st : WState) (j : JobC)
    (H : symmInv cfg st) : symmPre cfg j (taskRun cfg st j) := by
  obtain ⟨hG, hP, hB, hS, hT⟩ := H
  by_cases hres : cfg.options.restore = true
  · have he : taskRun cfg st j = st := by simp [taskRun, hres]
    rw [he]
    exact ⟨hG, hP, hB, hS, fun t h => (hT t h).imp id Or.inl⟩
  · by_cases hr1 : (doRun cfg st j Verb.preparing (Ctx.task j) j.task.prepare).1 = true
    · have hG1 : (doRun cfg st j Verb.preparing (Ctx.task j) j.task.prepare).2.abend = true →
          cfg.options.abend = true :=
        doRun_abend_G cfg st j Verb.preparing (Ctx.task j) j.task.prepare hG
    -- after a successful prepare, the execute runs; both results only differ in stats
      by_cases hr2 : (doRun cfg (doRun cfg st j Verb.preparing (Ctx.task j) j.task.prepare).2 j
          Verb.executing (Ctx.task j) j.task.execute).1 = true
      case pos =>
        have he : taskRun cfg st j =
            addTaskDone (doRun cfg (doRun cfg st j Verb.preparing (Ctx.task j) j.task.prepare).2 j
              Verb.executing (Ctx.task j) j.task.execute).2 j := by
          simp [taskRun, hres, hr1, hr2]
        rw [he]
        refine ⟨?_, ?_, ?_, ?_, ?_⟩
        · intro h
          have h' : (doRun cfg (doRun cfg st j Verb.preparing (Ctx.task j) j.task.prepare).2 j
              Verb.executing (Ctx.task j) j.task.execute).2.abend = true := h
          exact doRun_abend_G cfg (doRun cfg st j Verb.preparing (Ctx.task j) j.task.prepare).2 j
            Verb.executing (Ctx.task j) j.task.execute hG1 h'
        · intro h
          have h' : invokedV Verb.preparing Ctx.project
              (doRun cfg (doRun cfg st j Verb.preparing (Ctx.task j) j.task.prepare).2 j
                Verb.executing (Ctx.task j) j.task.execute).2.trace = true := h
          rw [invokedV_doRun_ne _ _ _ _ _ _ _ _ (by intro hv _; cases hv)] at h'
          rw [invokedV_doRun_ne _ _ _ _ _ _ _ _ (by intro _ hc; cases hc)] at h'
          show (doRun cfg (doRun cfg st j Verb.preparing (Ctx.task j) j.task.prepare).2 j
            Verb.executing (Ctx.task j) j.task.execute).2.insideProject = true
          rw [doRun_insideProject, doRun_insideProject]
          exact hP h'
        · intro h
          have h' : invokedV Verb.preparing Ctx.backend
              (doRun cfg (doRun cfg st j Verb.preparing (Ctx.task j) j.task.prepare).2 j
                Verb.executing (Ctx.task j) j.task.execute).2.trace = true := h
          rw [invokedV_doRun_ne _ _ _ _ _ _ _ _ (by intro hv _; cases hv)] at h'
          rw [invokedV_doRun_ne _ _ _ _ _ _ _ _ (by intro _ hc; cases hc)] at h'
          show (doRun cfg (doRun cfg st j Verb.preparing (Ctx.task j) j.task.prepare).2 j
            Verb.executing (Ctx.task j) j.task.execute).2.insideBackend = true
          rw [doRun_insideBackend, doRun_insideBackend]
          exact hB h'
        · intro s'' h
          have h' : invokedV Verb.preparing (Ctx.suite s'')
              (doRun cfg (doRun cfg st j Verb.preparing (Ctx.task j) j.task.prepare).2 j
                Verb.executing (Ctx.task j) j.task.execute).2.trace = true := h
          rw [invokedV_doRun_ne _ _ _ _ _ _ _ _ (by intro hv _; cases hv)] at h'
          rw [invokedV_doRun_ne _ _ _ _ _ _ _ _ (by intro _ hc; cases hc)] at h'
          rcases hS s'' h' with h1 | h2
          · left
            show invokedV Verb.restoring (Ctx.suite s'')
              (doRun cfg (doRun cfg st j Verb.preparing (Ctx.task j) j.task.prepare).2 j
                Verb.executing (Ctx.task j) j.task.execute).2.trace = true
            exact invokedV_doRun_mono _ _ _ _ _ _ _ _ (invokedV_doRun_mono _ _ _ _ _ _ _ _ h1)
          · right
            show (doRun cfg (doRun cfg st j Verb.preparing (Ctx.task j) j.task.prepare).2 j
              Verb.executing (Ctx.task j) j.task.execute).2.insideSuite = some s''
            rw [doRun_insideSuite, doRun_insideSuite]
            exact h2
        · intro t h
          by_cases htj : t = j
          · right
            right
            exact htj
          · have h' : invokedV Verb.preparing (Ctx.task t)
                (doRun cfg (doRun cfg st j Verb.preparing (Ctx.task j) j.task.prepare).2 j
                  Verb.executing (Ctx.task j) j.task.execute).2.trace = true := h
            rw [invokedV_doRun_ne _ _ _ _ _ _ _ _ (by intro hv _; cases hv)] at h'
            rw [invokedV_doRun_ne _ _ _ _ _ _ _ _ ?_] at h'
            · rcases hT t h' with h1 | h2
              · left
                show invokedV Verb.restoring (Ctx.task t)
                  (doRun cfg (doRun cfg st j Verb.preparing (Ctx.task j) j.task.prepare).2 j
                    Verb.executing (Ctx.task j) j.task.execute).2.trace = true
                exact invokedV_doRun_mono _ _ _ _ _ _ _ _ (invokedV_doRun_mono _ _ _ _ _ _ _ _ h1)
              · right
                left
                show (doRun cfg (doRun cfg st j Verb.preparing (Ctx.task j) j.task.prepare).2 j
                  Verb.executing (Ctx.task j) j.task.execute).2.abend = true
                exact doRun_abend_mono _ _ _ _ _ _ hG1
                  (doRun_abend_mono _ _ _ _ _ _ hG h2)
            · intro _ hc
              refine htj ?_
              injection hc with h2
              exact h2.symm
      case neg =>
        have he : taskRun cfg st j =
            addTaskError (doRun cfg (doRun cfg st j Verb.preparing (Ctx.task j) j.task.prepare).2 j
              Verb.executing (Ctx.task j) j.task.execute).2 j := by
          simp [taskRun, hres, hr1, hr2]
        rw [he]
        refine ⟨?_, ?_, ?_, ?_, ?_⟩
        · intro h
          have h' : (doRun cfg (doRun cfg st j Verb.preparing (Ctx.task j) j.task.prepare).2 j
              Verb.executing (Ctx.task j) j.task.execute).2.abend = true := h
          exact doRun_abend_G cfg (doRun cfg st j Verb.preparing (Ctx.task j) j.task.prepare).2 j
            Verb.executing (Ctx.task j) j.task.execute hG1 h'
        · intro h
          have h' : invokedV Verb.preparing Ctx.project
              (doRun cfg (doRun cfg st j Verb.preparing (Ctx.task j) j.task.prepare).2 j
                Verb.executing (Ctx.task j) j.task.execute).2.trace = true := h
          rw [invokedV_doRun_ne _ _ _ _ _ _ _ _ (by intro hv _; cases hv)] at h'
          rw [invokedV_doRun_ne _ _ _ _ _ _ _ _ (by intro _ hc; cases hc)] at h'
          show (doRun cfg (doRun cfg st j Verb.preparing (Ctx.task j) j.task.prepare).2 j
            Verb.executing (Ctx.task j) j.task.execute).2.insideProject = true
          rw [doRun_insideProject, doRun_insideProject]
          exact hP h'
        · intro h
          have h' : invokedV Verb.preparing Ctx.backend
              (doRun cfg (doRun cfg st j Verb.preparing (Ctx.task j) j.task.prepare).2 j
                Verb.executing (Ctx.task j) j.task.execute).2.trace = true := h
          rw [invokedV_doRun_ne _ _ _ _ _ _ _ _ (by intro hv _; cases hv)] at h'
          rw [invokedV_doRun_ne _ _ _ _ _ _ _ _ (by intro _ hc; cases hc)] at h'
          show (doRun cfg (doRun cfg st j Verb.preparing (Ctx.task j) j.task.prepare).2 j
            Verb.executing (Ctx.task j) j.task.execute).2.insideBackend = true
          rw [doRun_insideBackend, doRun_insideBackend]
          exact hB h'
        · intro s'' h
          have h' : invokedV Verb.preparing (Ctx.suite s'')
              (doRun cfg (doRun cfg st j Verb.preparing (Ctx.task j) j.task.prepare).2 j
                Verb.executing (Ctx.task j) j.task.execute).2.trace = true := h
          rw [invokedV_doRun_ne _ _ _ _ _ _ _ _ (by intro hv _; cases hv)] at h'
          rw [invokedV_doRun_ne _ _ _ _ _ _ _ _ (by intro _ hc; cases hc)] at h'
          rcases hS s'' h' with h1 | h2
          · left
            show invokedV Verb.restoring (Ctx.suite s'')
              (doRun cfg (doRun cfg st j Verb.preparing (Ctx.task j) j.task.prepare).2 j
                Verb.executing (Ctx.task j) j.task.execute).2.trace = true
            exact invokedV_doRun_mono _ _ _ _ _ _ _ _ (invokedV_doRun_mono _ _ _ _ _ _ _ _ h1)
          · right
            show (doRun cfg (doRun cfg st j Verb.preparing (Ctx.task j) j.task.prepare).2 j
              Verb.executing (Ctx.task j) j.task.execute).2.insideSuite = some s''
            rw [doRun_insideSuite, doRun_insideSuite]
            exact h2
        · intro t h
          by_cases htj : t = j
          · right
            right
            exact htj
          · have h' : invokedV Verb.preparing (Ctx.task t)
                (doRun cfg (doRun cfg st j Verb.preparing (Ctx.task j) j.task.prepare).2 j
                  Verb.executing (Ctx.task j) j.task.execute).2.trace = true := h
            rw [invokedV_doRun_ne _ _ _ _ _ _ _ _ (by intro hv _; cases hv)] at h'
            rw [invokedV_doRun_ne _ _ _ _ _ _ _ _ ?_] at h'
            · rcases hT t h' with h1 | h2
              · left
                show invokedV Verb.restoring (Ctx.task t)
                  (doRun cfg (doRun cfg st j Verb.preparing (Ctx.task j) j.task.prepare).2 j
                    Verb.executing (Ctx.task j) j.task.execute).2.trace = true
                exact invokedV_doRun_mono _ _ _ _ _ _ _ _ (invokedV_doRun_mono _ _ _ _ _ _ _ _ h1)
              · right
                left
                show (doRun cfg (doRun cfg st j Verb.preparing (Ctx.task j) j.task.prepare).2 j
                  Verb.executing (Ctx.task j) j.task.execute).2.abend = true
                exact doRun_abend_mono _ _ _ _ _ _ hG1
                  (doRun_abend_mono _ _ _ _ _ _ hG h2)
            · intro _ hc
              refine htj ?_
              injection hc with h2
              exact h2.symm
    · have he : taskRun cfg st j =
          addTaskAbort (addTaskPrepareError
            (doRun cfg st j Verb.preparing (Ctx.task j) j.task.prepare).2 j) j := by
        simp [taskRun, hres, hr1]
      rw [he]
      refine ⟨?_, ?_, ?_, ?_, ?_⟩
      · intro h
        have h' : (doRun cfg st j Verb.preparing (Ctx.task j) j.task.prepare).2.abend = true := h
        exact doRun_abend_G cfg st j Verb.preparing (Ctx.task j) j.task.prepare hG h'
      · intro h
        have h' : invokedV Verb.preparing Ctx.project
            (doRun cfg st j Verb.preparing (Ctx.task j) j.task.prepare).2.trace = true := h
        rw [invokedV_doRun_ne _ _ _ _ _ _ _ _ (by intro _ hc; cases hc)] at h'
        show (doRun cfg st j Verb.preparing (Ctx.task j) j.task.prepare).2.insideProject = true
        rw [doRun_insideProject]
        exact hP h'
      · intro h
        have h' : invokedV Verb.preparing Ctx.backend
            (doRun cfg st j Verb.preparing (Ctx.task j) j.task.prepare).2.trace = true := h
        rw [invokedV_doRun_ne _ _ _ _ _ _ _ _ (by intro _ hc; cases hc)] at h'
        show (doRun cfg st j Verb.preparing (Ctx.task j) j.task.prepare).2.insideBackend = true
        rw [doRun_insideBackend]
        exact hB h'
      · intro s'' h
        have h' : invokedV Verb.preparing (Ctx.suite s'')
            (doRun cfg st j Verb.preparing (Ctx.task j) j.task.prepare).2.trace = true := h
        rw [invokedV_doRun_ne _ _ _ _ _ _ _ _ (by intro _ hc; cases hc)] at h'
        rcases hS s'' h' with h1 | h2
        · left
          show invokedV Verb.restoring (Ctx.suite s'')
            (doRun cfg st j Verb.preparing (Ctx.task j) j.task.prepare).2.trace = true
          exact invokedV_doRun_mono _ _ _ _ _ _ _ _ h1
        · right
          show (doRun cfg st j Verb.preparing (Ctx.task j) j.task.prepare).2.insideSuite = some s''
          rw [doRun_insideSuite]
          exact h2
      · intro t h
        by_cases htj : t = j
        · right
          right
          exact htj
        · have h' : invokedV Verb.preparing (Ctx.task t)
              (doRun cfg st j Verb.preparing (Ctx.task j) j.task.prepare).2.trace = true := h
          rw [invokedV_doRun_ne _ _ _ _ _ _ _ _ ?_] at h'
          · rcases hT t h' with h1 | h2
            · left
              show invokedV Verb.restoring (Ctx.task t)
                (doRun cfg st j Verb.preparing (Ctx.task j) j.task.prepare).2.trace = true
              exact invokedV_doRun_mono _ _ _ _ _ _ _ _ h1
            · right
              left
              show (doRun cfg st j Verb.preparing (Ctx.task j) j.task.prepare).2.abend = true
              exact doRun_abend_mono cfg st j Verb.preparing (Ctx.task j) j.task.prepare hG h2
          · intro _ hc
            refine htj ?_
            injection hc with h2
            exact h2.symm

theorem taskRestoreStep_symm_of_pre (cfg : WorkerCfg) (st : WState) (j : JobC)
    (H : symmPre cfg j st) : symmInv cfg (taskRestoreStep cfg st j) := by
  obtain ⟨hG, hP, hB, hS, hT⟩ := H
  by_cases ha : st.abend = true
  · have he : taskRestoreStep cfg st j = st := by simp [taskRestoreStep, ha]
    rw [he]
    refine ⟨hG, hP, hB, hS, ?_⟩
    intro t _
    right
    exact ha
  · by_cases hr : (doRun cfg st j Verb.restoring (Ctx.task j) j.task.restore).1 = true
    · have he : taskRestoreStep cfg st j =
          (doRun cfg st j Verb.restoring (Ctx.task j) j.task.restore).2 := by
        simp [taskRestoreStep, ha, hr]
      rw [he]
      refine ⟨?_, ?_, ?_, ?_, ?_⟩
      · intro h
        exact doRun_abend_G cfg st j Verb.restoring (Ctx.task j) j.task.restore hG h
      · intro h
        rw [invokedV_doRun_ne _ _ _ _ _ _ _ _ (by intro hv _; cases hv)] at h
        rw [doRun_insideProject]
        exact hP h
      · intro h
        rw [invokedV_doRun_ne _ _ _ _ _ _ _ _ (by intro hv _; cases hv)] at h
        rw [doRun_insideBackend]
        exact hB h
      · intro s'' h
        rw [invokedV_doRun_ne _ _ _ _ _ _ _ _ (by intro hv _; cases hv)] at h
        rcases hS s'' h with h1 | h2
        · left
          exact invokedV_doRun_mono _ _ _ _ _ _ _ _ h1
        · right
          rw [doRun_insideSuite]
          exact h2
      · intro t h
        rw [invokedV_doRun_ne _ _ _ _ _ _ _ _ (by intro hv _; cases hv)] at h
        rcases hT t h with h1 | h2 | h3
        · left
          exact invokedV_doRun_mono _ _ _ _ _ _ _ _ h1
        · exact absurd h2 ha
        · left
          subst h3
          exact doRun_invoked cfg st t Verb.restoring (Ctx.task t) t.task.restore
    · have he : taskRestoreStep cfg st j =
          addTaskRestoreError
            { (doRun cfg st j Verb.restoring (Ctx.task j) j.task.restore).2 with
              badProject := true } j := by
        simp [taskRestoreStep, ha, hr]
      rw [he]
      refine ⟨?_, ?_, ?_, ?_, ?_⟩
      · intro h
        have h' : (doRun cfg st j Verb.restoring (Ctx.task j) j.task.restore).2.abend = true := h
        exact doRun_abend_G cfg st j Verb.restoring (Ctx.task j) j.task.restore hG h'
      · intro h
        have h' : invokedV Verb.preparing Ctx.project
            (doRun cfg st j Verb.restoring (Ctx.task j) j.task.restore).2.trace = true := h
        rw [invokedV_doRun_ne _ _ _ _ _ _ _ _ (by intro hv _; cases hv)] at h'
        show (doRun cfg st j Verb.restoring (Ctx.task j) j.task.restore).2.insideProject = true
        rw [doRun_insideProject]
        exact hP h'
      · intro h
        have h' : invokedV Verb.preparing Ctx.backend
            (doRun cfg st j Verb.restoring (Ctx.task j) j.task.restore).2.trace = true := h
        rw [invokedV_doRun_ne _ _ _ _ _ _ _ _ (by intro hv _; cases hv)] at h'
        show (doRun cfg st j Verb.restoring (Ctx.task j) j.task.restore).2.insideBackend = true
        rw [doRun_insideBackend]
        exact hB h'
      · intro s'' h
        have h' : invokedV Verb.preparing (Ctx.suite s'')
            (doRun cfg st j Verb.restoring (Ctx.task j) j.task.restore).2.trace = true := h
        rw [invokedV_doRun_ne _ _ _ _ _ _ _ _ (by intro hv _; cases hv)] at h'
        rcases hS s'' h' with h1 | h2
        · left
          show invokedV Verb.restoring (Ctx.suite s'')
            (doRun cfg st j Verb.restoring (Ctx.task j) j.task.restore).2.trace = true
          exact invokedV_doRun_mono _ _ _ _ _ _ _ _ h1
        · right
          show (doRun cfg st j Verb.restoring (Ctx.task j) j.task.restore).2.insideSuite = some s''
          rw [doRun_insideSuite]
          exact h2
      · intro t h
        have h' : invokedV Verb.preparing (Ctx.task t)
            (doRun cfg st j Verb.restoring (Ctx.task j) j.task.restore).2.trace = true := h
        rw [invokedV_doRun_ne _ _ _ _ _ _ _ _ (by intro hv _; cases hv)] at h'
        rcases hT t h' with h1 | h2 | h3
        · left
          show invokedV Verb.restoring (Ctx.task t)
            (doRun cfg st j Verb.restoring (Ctx.task j) j.task.restore).2.trace = true
          exact invokedV_doRun_mono _ _ _ _ _ _ _ _ h1
        · exact absurd h2 ha
        · left
          subst h3
          show invokedV Verb.restoring (Ctx.task t)
            (doRun cfg st t Verb.restoring (Ctx.task t) t.task.restore).2.trace = true
          exact doRun_invoked cfg st t Verb.restoring (Ctx.task t) t.task.restore

theorem taskBody_symm (cfg : WorkerCfg) (st : WState) (j : JobC)
    (H : symmInv cfg st) : symmInv cfg (taskBody cfg st j) :=
  taskRestoreStep_symm_of_pre cfg (taskRun cfg st j) j (taskRun_symmPre cfg st j H)

theorem processJob_symm (cfg : WorkerCfg) (st : WState) (j : JobC)
    (H : symmInv cfg st) : symmInv cfg (processJob cfg st j) := by
  by_cases hbad : j.suite ∈ st.badSuite
  · have he : processJob cfg st j = addTaskAbort st j := by simp [processJob, hbad]
    rw [he]
    obtain ⟨hG, hP, hB, hS, hT⟩ := H
    exact ⟨hG, hP, hB, hS, hT⟩
  · have H1 := suiteSwitch_symm cfg st j H
    by_cases hc1 : (suiteSwitch cfg st j).2 = true
    · have H1' : symmInv cfg { (suiteSwitch cfg st j).1 with last := some j } := by
        obtain ⟨hG, hP, hB, hS, hT⟩ := H1
        exact ⟨hG, hP, hB, hS, hT⟩
      have H2 := enterProject_symm cfg
        { (suiteSwitch cfg st j).1 with last := some j } j H1'
      by_cases hc2 : (enterProject cfg { (suiteSwitch cfg st j).1 with last := some j } j).2 = true
      · have hs0 : (enterProject cfg { (suiteSwitch cfg st j).1 with
              last := some j } j).1.insideSuite = none ∨
            (enterProject cfg { (suiteSwitch cfg st j).1 with
              last := some j } j).1.insideSuite = some j.suite := by
          rw [enterProject_insideSuite]
          show (suiteSwitch cfg st j).1.insideSuite = none ∨
            (suiteSwitch cfg st j).1.insideSuite = some j.suite
          exact suiteSwitch_insideSuite_post cfg st j hc1
        have H3 := enterSuite_symm cfg
          (enterProject cfg { (suiteSwitch cfg st j).1 with last := some j } j).1 j hs0 H2
        by_cases hc3 : (enterSuite cfg
            (enterProject cfg { (suiteSwitch cfg st j).1 with last := some j } j).1 j).2 = true
        · have he : processJob cfg st j = taskBody cfg (enterSuite cfg
              (enterProject cfg { (suiteSwitch cfg st j).1 with last := some j } j).1 j).1 j := by
            simp [processJob, hbad, hc1, hc2, hc3]
          rw [he]
          exact taskBody_symm cfg _ j H3
        · have he : processJob cfg st j = (enterSuite cfg
              (enterProject cfg { (suiteSwitch cfg st j).1 with last := some j } j).1 j).1 := by
            simp [processJob, hbad, hc1, hc2, hc3]
          rw [he]
          exact H3
      · have he : processJob cfg st j = (enterProject cfg
            { (suiteSwitch cfg st j).1 with last := some j } j).1 := by
          simp [processJob, hbad, hc1, hc2]
        rw [he]
        exact H2
    · have he : processJob cfg st j = (suiteSwitch cfg st j).1 := by
        simp [processJob, hbad, hc1]
      rw [he]
      exact H1

theorem workerStep_symm (cfg : WorkerCfg) (st : WState)
    (H : symmInv cfg st) : symmInv cfg (workerStep cfg st) := by
  by_cases hfin : st.finished = true
  · have he : workerStep cfg st = st := by simp [workerStep, hfin]
    rw [he]
    exact H
  · by_cases hbrk : (st.badProject || st.abend || !(cfg.tombAlive st.iter)) = true
    · have he : workerStep cfg st =
          { st with suiteWorkers := swDec st, finished := true, iter := st.iter + 1 } := by
        simp [workerStep, hfin, hbrk]
      rw [he]
      obtain ⟨hG, hP, hB, hS, hT⟩ := H
      exact ⟨hG, hP, hB, hS, hT⟩
    · cases hpk : (pickJob st.pending (swDec st) cfg.backend.name cfg.system st.insideSuite).1 with
      | none =>
        have he : workerStep cfg st =
            { st with
              suiteWorkers := swDec st
              pending := (pickJob st.pending (swDec st) cfg.backend.name cfg.system st.insideSuite).2
              job := none
              finished := true
              iter := st.iter + 1 } := by
          simp [workerStep, hfin, hbrk, hpk]
        rw [he]
        obtain ⟨hG, hP, hB, hS, hT⟩ := H
        exact ⟨hG, hP, hB, hS, hT⟩
      | some j =>
        have he : workerStep cfg st = processJob cfg
            { st with
              suiteWorkers := swAdd (swDec st) (swKey j) 1
              pending := (pickJob st.pending (swDec st) cfg.backend.name cfg.system st.insideSuite).2
              job := some j
              iter := st.iter + 1 } j := by
          simp [workerStep, hfin, hbrk, hpk]
        rw [he]
        refine processJob_symm cfg _ j ?_
        obtain ⟨hG, hP, hB, hS, hT⟩ := H
        exact ⟨hG, hP, hB, hS, hT⟩

theorem workerLoop_symm (cfg : WorkerCfg) :
    ∀ (n : Nat) (st : WState), symmInv cfg st → symmInv cfg (workerLoop cfg n st) := by
  intro n
  induction n with
  | zero => intro st h; exact h
  | succ m ih =>
    intro st h
    rw [workerLoop]
    split
    · exact h
    · exact ih _ (workerStep_symm cfg st h)

theorem initWState_symm (cfg : WorkerCfg) (pending : List (Option JobC))
    (sw : List ((String × String × String) × Int)) (stats : StatsC) :
    symmInv cfg (initWState pending sw stats) := by
  refine ⟨?_, ?_, ?_, ?_, ?_⟩
  · intro h
    exact absurd h (by simp [initWState])
  · intro h
    exact absurd h (by simp [initWState, invokedV])
  · intro h
    exact absurd h (by simp [initWState, invokedV])
  · intro s h
    exact absurd h (by simp [initWState, invokedV])
  · intro t h
    exact absurd h (by simp [initWState, invokedV])

/-- Restore symmetry over the full unwind, for any state satisfying the
loop invariant whose final `abend` flag is clear. -/
theorem unwind_symm (cfg : WorkerCfg) (st : WState) (H : symmInv cfg st)
    (hab : (unwindProject cfg (unwindBackend cfg (unwindSuite cfg st))).abend = false) :
    (invokedV Verb.preparing Ctx.project
        (unwindProject cfg (unwindBackend cfg (unwindSuite cfg st))).trace = true →
      invokedV Verb.restoring Ctx.project
        (unwindProject cfg (unwindBackend cfg (unwindSuite cfg st))).trace = true) ∧
    (invokedV Verb.preparing Ctx.backend
        (unwindProject cfg (unwindBackend cfg (unwindSuite cfg st))).trace = true →
      invokedV Verb.restoring Ctx.backend
        (unwindProject cfg (unwindBackend cfg (unwindSuite cfg st))).trace = true) ∧
    (∀ s : SuiteC, invokedV Verb.preparing (Ctx.suite s)
        (unwindProject cfg (unwindBackend cfg (unwindSuite cfg st))).trace = true →
      invokedV Verb.restoring (Ctx.suite s)
        (unwindProject cfg (unwindBackend cfg (unwindSuite cfg st))).trace = true) ∧
    (∀ t : JobC, invokedV Verb.preparing (Ctx.task t)
        (unwindProject cfg (unwindBackend cfg (unwindSuite cfg st))).trace = true →
      invokedV Verb.restoring (Ctx.task t)
        (unwindProject cfg (unwindBackend cfg (unwindSuite cfg st))).trace = true) := by
  obtain ⟨hG, hP, hB, hS, hT⟩ := H
  have hab2 : (unwindBackend cfg (unwindSuite cfg st)).abend = false :=
    unwindProject_abend cfg _ hab
  have hab1 : (unwindSuite cfg st).abend = false := unwindBackend_abend cfg _ hab2
  have hab0 : st.abend = false := unwindSuite_abend cfg st hab1
  obtain ⟨d1, he1⟩ := unwindSuite_trace_ext cfg st
  obtain ⟨d2, he2⟩ := unwindBackend_trace_ext cfg (unwindSuite cfg st)
  obtain ⟨d3, he3⟩ := unwindProject_trace_ext cfg (unwindBackend cfg (unwindSuite cfg st))
  have hkeep2 : ∀ (v : Verb) (c : Ctx),
      invokedV v c (unwindBackend cfg (unwindSuite cfg st)).trace = true →
      invokedV v c (unwindProject cfg (unwindBackend cfg (unwindSuite cfg st))).trace = true := by
    intro v c h
    rw [he3, invokedV_append, h]
    simp
  have hkeep1 : ∀ (v : Verb) (c : Ctx), invokedV v c (unwindSuite cfg st).trace = true →
      invokedV v c (unwindProject cfg (unwindBackend cfg (unwindSuite cfg st))).trace = true := by
    intro v c h
    refine hkeep2 v c ?_
    rw [he2, invokedV_append, h]
    simp
  have hkeep0 : ∀ (v : Verb) (c : Ctx), invokedV v c st.trace = true →
      invokedV v c (unwindProject cfg (unwindBackend cfg (unwindSuite cfg st))).trace = true := by
    intro v c h
    refine hkeep1 v c ?_
    rw [he1, invokedV_append, h]
    simp
  refine ⟨?_, ?_, ?_, ?_⟩
  · intro h
    rw [unwindProject_invoked_prep, unwindBackend_invoked_prep, unwindSuite_invoked_prep] at h
    have hip : (unwindBackend cfg (unwindSuite cfg st)).insideProject = true := by
      rw [unwindBackend_insideProject, unwindSuite_insideProject]
      exact hP h
    exact unwindProject_invokes cfg _ hip hab2
  · intro h
    rw [unwindProject_invoked_prep, unwindBackend_invoked_prep, unwindSuite_invoked_prep] at h
    have hib : (unwindSuite cfg st).insideBackend = true := by
      rw [unwindSuite_insideBackend]
      exact hB h
    exact hkeep2 _ _ (unwindBackend_invokes cfg _ hib hab1)
  · intro s h
    rw [unwindProject_invoked_prep, unwindBackend_invoked_prep, unwindSuite_invoked_prep] at h
    rcases hS s h with h1 | h2
    · exact hkeep0 _ _ h1
    · exact hkeep1 _ _ (unwindSuite_invokes cfg st s h2 hab0)
  · intro t h
    rw [unwindProject_invoked_prep, unwindBackend_invoked_prep, unwindSuite_invoked_prep] at h
    rcases hT t h with h1 | h2
    · exact hkeep0 _ _ h1
    · rw [hab0] at h2
      cases h2

/-- C9: restore symmetry.  In a worker execution whose final `abend`
flag is clear (`abend` starts false and, absent `options.abend`, is
never raised, so a clear final flag means no restore was ever cut off by
`abend`), every level whose prepare was invoked -- project, backend, any
suite, any task -- has its restore invoked before the worker exits. -/
theorem restore_symmetry (cfg : WorkerCfg) (pending : List (Option JobC))
    (sw : List ((String × String × String) × Int)) (stats : StatsC)
    (hab : (runWorker cfg pending sw stats).abend = false) :
    (invokedV Verb.preparing Ctx.project (runWorker cfg pending sw stats).trace = true →
      invokedV Verb.restoring Ctx.project (runWorker cfg pending sw stats).trace = true) ∧
    (invokedV Verb.preparing Ctx.backend (runWorker cfg pending sw stats).trace = true →
      invokedV Verb.restoring Ctx.backend (runWorker cfg pending sw stats).trace = true) ∧
    (∀ s : SuiteC,
      invokedV Verb.preparing (Ctx.suite s) (runWorker cfg pending sw stats).trace = true →
      invokedV Verb.restoring (Ctx.suite s) (runWorker cfg pending sw stats).trace = true) ∧
    (∀ t : JobC,
      invokedV Verb.preparing (Ctx.task t) (runWorker cfg pending sw stats).trace = true →
      invokedV Verb.restoring (Ctx.task t) (runWorker cfg pending sw stats).trace = true) := by
  have H : symmInv cfg (workerLoop cfg (countSome pending + 1) (initWState pending sw stats)) :=
    workerLoop_symm cfg _ _ (initWState_symm cfg pending sw stats)
  have hab' : (unwindProject cfg (unwindBackend cfg (unwindSuite cfg
      (workerLoop cfg (countSome pending + 1) (initWState pending sw stats))))).abend = false := hab
  exact unwind_symm cfg _ H hab'

/-- Witness for C9: a one-job worker run with every script succeeding;
its final `abend` is clear, the project prepare is invoked, and the
theorem yields the project restore invocation. -/
theorem restore_symmetry_witness :
    (runWorker (cxCfg false 1000) [some cxJob] [] emptyStats).abend = false ∧
    invokedV Verb.restoring Ctx.project
      (runWorker (cxCfg false 1000) [some cxJob] [] emptyStats).trace = true :=
  ⟨by decide,
   (restore_symmetry (cxCfg false 1000) [some cxJob] [] emptyStats (by decide)).1 (by decide)⟩
